import Mathlib

/-!
Verification development for the QChem input/output module
(`pymatgen/io/qchemio.py`): a shallow embedding of the `QcTask` job model,
its constructor and setters, the section-grammar serializer and parser
(`QcTask.__str__`, `QcTask.from_string`), the multi-job container
(`QcInput`), and the run-log parser (`QcOutput._parse_job`), together with
theorems settling the specification claims.

Modelling conventions:
- Text is handled at Python string semantics: lines are obtained by
  splitting on a newline character exactly as `str.split('\n')` does;
  `strip`, `lower`, `capitalize`, whitespace `split`, substring tests and
  justification are re-implemented character-wise below.
- Python `float` values are modelled as rationals (ℚ); the conversion
  constants are exact rationals.  `int(float(tok))` is truncation toward
  zero, and Python `%` on integers matches Lean's `Int.emod` for a
  positive modulus.
- Python exceptions are modelled with `Except String`; the error *message*
  strings carried by the `.error` constructor are documentation only and
  no theorem depends on them.
- Regular-expression matching from the source is re-implemented as
  dedicated scanning functions, one per compiled pattern, each documented
  with the regex it embeds.
-/

/-! ## Python string primitives (character-list based) -/

/-- The characters of a string (Lean strings are character lists). -/
def strChars (s : String) : List Char := s.data

/-- Build a string from characters. -/
def chStr (l : List Char) : String := String.mk l

/-- Python `str.isspace` character class used by `strip`/`split`. -/
def pyIsSpace (c : Char) : Bool :=
  c == ' ' || c == '\t' || c == '\n' || c == '\x0d' || c == '\x0b' || c == '\x0c'

/-- ASCII lower-casing of one character (Python `str.lower` on ASCII). -/
def lowCh (c : Char) : Char :=
  if 'A' ≤ c && c ≤ 'Z' then Char.ofNat (c.toNat + 32) else c

/-- ASCII upper-casing of one character. -/
def upCh (c : Char) : Char :=
  if 'a' ≤ c && c ≤ 'z' then Char.ofNat (c.toNat - 32) else c

/-- Python `str.lower`. -/
def pyLower (s : String) : String := chStr (s.data.map lowCh)

/-- Python `str.capitalize`: first character upper-cased, rest lower-cased. -/
def pyCapitalize (s : String) : String :=
  match s.data with
  | [] => ""
  | c :: rest => chStr (upCh c :: rest.map lowCh)

/-- Python `str.strip` on a character list. -/
def stripChars (l : List Char) : List Char :=
  ((l.dropWhile pyIsSpace).reverse.dropWhile pyIsSpace).reverse

/-- Python `str.strip`. -/
def pyStrip (s : String) : String := chStr (stripChars s.data)

/-- Split a character list at every occurrence of a separator character,
keeping empty pieces, exactly like Python `str.split(sep)` for a
one-character separator. -/
def splitOnCh (sep : Char) : List Char → List (List Char)
  | [] => [[]]
  | c :: rest =>
    if c == sep then [] :: splitOnCh sep rest
    else
      match splitOnCh sep rest with
      | [] => [[c]]
      | h :: t => (c :: h) :: t

/-- Python `text.split('\n')`: the lines of a text. -/
def pyLines (s : String) : List String := (splitOnCh '\n' s.data).map chStr

/-- Python `text.split('=')`. -/
def pySplitEq (s : String) : List String := (splitOnCh '=' s.data).map chStr

/-- Helper for whitespace splitting: accumulates the current token. -/
def splitWsGo : List Char → List Char → List (List Char)
  | [], acc => if acc.isEmpty then [] else [acc.reverse]
  | c :: rest, acc =>
    if pyIsSpace c then
      if acc.isEmpty then splitWsGo rest [] else acc.reverse :: splitWsGo rest []
    else splitWsGo rest (c :: acc)

/-- Python `str.split()` with no argument: whitespace runs separate tokens,
leading/trailing whitespace ignored, no empty tokens. -/
def pySplitWs (s : String) : List String := (splitWsGo s.data []).map chStr

/-- Python `sub in s` substring test, on character lists. -/
def containsSub (p : List Char) : List Char → Bool
  | [] => p.isEmpty
  | l@(_ :: t) => p.isPrefixOf l || containsSub p t

/-- Python `sub in s` substring test. -/
def pyIn (sub s : String) : Bool := containsSub sub.data s.data

/-- Python `s.startswith(p)`. -/
def pyStarts (s p : String) : Bool := p.data.isPrefixOf s.data

/-- `n` copies of a character as a string piece. -/
def spacesN (n : Nat) : List Char := List.replicate n ' '

/-- Python `"{x:>w}"` / `str.rjust`: left-pad with spaces to width `w`. -/
def rjust (w : Nat) (s : String) : String := chStr (spacesN (w - s.data.length) ++ s.data)

/-- Python `"{x:<w}"` / `str.ljust`: right-pad with spaces to width `w`. -/
def ljust (w : Nat) (s : String) : String := chStr (s.data ++ spacesN (w - s.data.length))

/-- Python `str.replace("=", ' ')`. -/
def replaceEqBySpace (s : String) : String :=
  chStr (s.data.map fun c => if c == '=' then ' ' else c)

/-- Join strings with a separator, Python `sep.join(xs)`. -/
def pyJoin (sep : String) : List String → String
  | [] => ""
  | [x] => x
  | x :: rest => x ++ sep ++ pyJoin sep rest

/-- Lexicographic (code-point) strict comparison on character lists,
matching Python string `<`. -/
def chLtB : List Char → List Char → Bool
  | [], [] => false
  | [], _ :: _ => true
  | _ :: _, [] => false
  | a :: as, b :: bs =>
    if a.toNat < b.toNat then true else if b.toNat < a.toNat then false else chLtB as bs

/-- Python string `<=` (code-point order). -/
def strLeB (a b : String) : Bool := !(chLtB b.data a.data)

/-- Python `sorted` on strings (code-point order). -/
def sortStr (l : List String) : List String :=
  List.insertionSort (fun a b => strLeB a b = true) l

/-! ## Numeric token grammar -/

/-- Value of a decimal digit character. -/
def digitVal (c : Char) : Option Nat :=
  if '0' ≤ c && c ≤ '9' then some (c.toNat - 48) else none

/-- Is this a nonempty run of decimal digits? -/
def allDigits (l : List Char) : Bool := !l.isEmpty && l.all fun c => (digitVal c).isSome

/-- The natural number denoted by a digit run. -/
def natOfDigits (l : List Char) : Nat := l.foldl (fun acc c => acc * 10 + ((digitVal c).getD 0)) 0

/-- Decimal rendering of a natural number (Python `str(int)` for `n ≥ 0`). -/
def natRender (n : Nat) : String := chStr (Nat.toDigits 10 n)

/-- Python `str(int)`. -/
def intRender : Int → String
  | .ofNat n => natRender n
  | .negSucc n => "-" ++ natRender (n + 1)

/-- `re.compile('^[-+]?\d+$')` full match: the `$rem` integer-token pattern. -/
def intPat (s : String) : Bool :=
  match s.data with
  | '+' :: r => allDigits r
  | '-' :: r => allDigits r
  | r => allDigits r

/-- The integer denoted by a token accepted by `intPat`. -/
def intOfTok (s : String) : Int :=
  match s.data with
  | '+' :: r => Int.ofNat (natOfDigits r)
  | '-' :: r => -(Int.ofNat (natOfDigits r))
  | r => Int.ofNat (natOfDigits r)

/-- `re.compile('^[-+]?\d+\.\d+([eE][-+]?\d+)?$')` full match: the `$rem`
float-token pattern. -/
def floatPat (s : String) : Bool :=
  let body : List Char → Bool := fun l =>
    match splitOnCh '.' l with
    | [ip, rest] =>
      allDigits ip &&
        (match splitOnCh 'e' rest with
         | [fp] =>
           (match splitOnCh 'E' fp with
            | [fp2] => allDigits fp2
            | [fp2, ex] => allDigits fp2 && intPat (chStr ex)
            | _ => false)
         | [fp, ex] => allDigits fp && intPat (chStr ex)
         | _ => false)
    | _ => false
  match s.data with
  | '+' :: r => body r
  | '-' :: r => body r
  | r => body r

/-- Fractional part value: digits `d₁…dₖ` denote `0.d₁…dₖ` as a rational. -/
def fracOfDigits (l : List Char) : ℚ :=
  (natOfDigits l : ℚ) / ((10 : ℚ) ^ l.length)

/-- The rational denoted by a decimal literal `[-+]?d+.d+([eE][-+]?d+)?`. -/
def ratOfFloatTok (s : String) : ℚ :=
  let body : List Char → ℚ := fun l =>
    match splitOnCh '.' l with
    | [ip, rest] =>
      let expSplit : List Char × Int :=
        match splitOnCh 'e' rest with
        | [fp] =>
          (match splitOnCh 'E' fp with
           | [fp2, ex] => (fp2, intOfTok (chStr ex))
           | _ => (fp, 0))
        | [fp, ex] => (fp, intOfTok (chStr ex))
        | _ => (rest, 0)
      ((natOfDigits ip : ℚ) + fracOfDigits expSplit.1) * (10 : ℚ) ^ expSplit.2
    | _ => 0
  match s.data with
  | '+' :: r => body r
  | '-' :: r => -(body r)
  | r => body r

/-- Python `float(tok)`: parse after stripping; accepts `d+`, `d+.d*`,
`.d+`, optional exponent, and (case-insensitively) `nan`/`inf`/`infinity`,
which are modelled as 0 since no claim observes non-finite values.
Returns `none` where Python raises `ValueError`. -/
def pyFloat (s : String) : Option ℚ :=
  let t := stripChars s.data
  let parseBody : List Char → Option ℚ := fun l =>
    let lw := l.map lowCh
    if lw == "nan".data || lw == "inf".data || lw == "infinity".data then some 0
    else
      let mantExp : Option (List Char × Int) :=
        match splitOnCh 'e' lw with
        | [m] => some (m, 0)
        | [m, ex] => if intPat (chStr ex) then some (m, intOfTok (chStr ex)) else none
        | _ => none
      match mantExp with
      | none => none
      | some (m, ex) =>
        match splitOnCh '.' m with
        | [ip] => if allDigits ip then some ((natOfDigits ip : ℚ) * (10 : ℚ) ^ ex) else none
        | [ip, fp] =>
          if (allDigits ip || ip.isEmpty) && (allDigits fp || fp.isEmpty) &&
              !(ip.isEmpty && fp.isEmpty) then
            some (((natOfDigits ip : ℚ) + fracOfDigits fp) * (10 : ℚ) ^ ex)
          else none
        | _ => none
  match t with
  | '+' :: r => parseBody r
  | '-' :: r => (parseBody r).map Neg.neg
  | r => parseBody r

/-- Python `int(float(tok))`: truncation of a rational toward zero. -/
def truncQ (q : ℚ) : Int := if q < 0 then -((-q).floor) else q.floor

/-! ## Association-list helpers (Python `dict` model)

Python dictionaries in the source are modelled as insertion-ordered
association lists: `aset` overwrites in place or appends, mirroring
CPython assignment semantics; set-type comparisons are membership based. -/

/-- Dictionary lookup. -/
def alookup {α : Type} (k : String) : List (String × α) → Option α
  | [] => none
  | (k2, v) :: t => if k2 == k then some v else alookup k t

/-- Dictionary assignment `d[k] = v`: overwrite in place or append. -/
def aset {α : Type} (k : String) (v : α) : List (String × α) → List (String × α)
  | [] => [(k, v)]
  | (k2, v2) :: t => if k2 == k then (k, v) :: t else (k2, v2) :: aset k v t

/-- Python `k in d`. -/
def ahas {α : Type} (k : String) (d : List (String × α)) : Bool := (alookup k d).isSome

/-- The key list of a dictionary. -/
def akeys {α : Type} (d : List (String × α)) : List String := d.map Prod.fst

/-! ## Data model: values, sections, molecules, tasks -/

/-- A Python value stored in a key/value section (`$rem`, `$pcm`,
`$pcm_solvent`).  `aliasDict` models the class-level `alternative_values`
dictionary itself, which the buggy line `v = cls.alternative_values` in
`_parse_rem`/`_parse_pcm`/`_parse_pcm_solvent` can store as a value;
`solvAtoms` models the accumulated `solventatom` list of
`(int, int, int, float)` entries. -/
inductive QcValue : Type
  | s (v : String)
  | i (v : Int)
  | f (v : ℚ)
  | b (v : Bool)
  | aliasDict
  | solvAtoms (l : List (Int × Int × Int × ℚ))
deriving DecidableEq

/-- The contents of one named section of `QcTask.params`: a comment text,
a key→value table, or an element→label table. -/
inductive SecData : Type
  | txt (s : String)
  | keyed (d : List (String × QcValue))
  | edict (d : List (String × String))
deriving DecidableEq

/-- A species token of a molecule site: an atomic number or an element
symbol (`parse_species` in `_parse_coords` produces one of the two). -/
inductive PSpecies : Type
  | z (n : Nat)
  | sym (s : String)
deriving DecidableEq

/-- Modelled from the spec: the element-symbol/atomic-number table of the
external `pymatgen.core` periodic table (not under `src/`); only the
entries reachable from concrete witnesses matter, unknown symbols map
to 0 electrons. -/
def elementTable : List (String × Nat) :=
  [("H", 1), ("He", 2), ("Li", 3), ("Be", 4), ("B", 5), ("C", 6), ("N", 7),
   ("O", 8), ("F", 9), ("Ne", 10), ("Na", 11), ("Mg", 12), ("Al", 13),
   ("Si", 14), ("P", 15), ("S", 16), ("Cl", 17), ("Ar", 18), ("K", 19),
   ("Ca", 20), ("Br", 35), ("I", 53), ("Cd", 48)]

/-- Modelled from the spec: atomic number of an element symbol. -/
def zOfSymbol (s : String) : Nat := ((elementTable.find? (·.1 == s)).map (·.2)).getD 0

/-- Modelled from the spec: element symbol of an atomic number. -/
def symbolOfZ (n : Nat) : String :=
  ((elementTable.find? (·.2 == n)).map (·.1)).getD ("E" ++ natRender n)

/-- Atomic number of a species token. -/
def PSpecies.zval : PSpecies → Nat
  | .z n => n
  | .sym s => zOfSymbol s

/-- `site.species_string` of a species token. -/
def PSpecies.speciesString : PSpecies → String
  | .z n => symbolOfZ n
  | .sym s => s

/-- Modelled from the spec: the external `pymatgen.core.structure.Molecule`
(not under `src/`), reduced to the fields the QChem module reads: the
species list, Cartesian coordinates, total charge and spin multiplicity.
`nelectrons` is the sum of atomic numbers minus the charge, and
`set_charge_and_spin` stores the two values. -/
structure PMolecule : Type where
  species : List PSpecies
  coords : List (ℚ × ℚ × ℚ)
  charge : Int := 0
  spin : Int := 1
deriving DecidableEq

/-- `Molecule.nelectrons`: electrons from atomic numbers and charge. -/
def molNelectrons (m : PMolecule) : Int :=
  ((m.species.map PSpecies.zval).sum : Int) - m.charge

/-- `Molecule.sites`: species paired with coordinates. -/
def molSites (m : PMolecule) : List (PSpecies × (ℚ × ℚ × ℚ)) := m.species.zip m.coords

/-- The molecule's distinct element set,
`set([site.species_string for site in mol.sites])`, as a deduplicated list. -/
def molElements (m : PMolecule) : List String :=
  ((molSites m).map fun st => st.1.speciesString).dedup

/-- Modelled from the spec: `Molecule.set_charge_and_spin`. -/
def setChargeSpin (m : PMolecule) (c s : Int) : PMolecule := { m with charge := c, spin := s }

/-- `QcTask.mol` after construction: the checkpoint sentinel `"read"` or a
molecule object. -/
inductive MolState : Type
  | read
  | mol (m : PMolecule)
deriving DecidableEq

/-- The `molecule` constructor argument: `None`, a string, or a Molecule. -/
inductive MolPar : Type
  | noneArg
  | rd (s : String)
  | mol (m : PMolecule)
deriving DecidableEq

/-- A basis-set / auxiliary-basis / ECP argument: a plain Python value or
an element-keyed dictionary. -/
inductive BasisArg : Type
  | qv (v : QcValue)
  | dict (d : List (String × String))
deriving DecidableEq

/-- The `QcTask` state after construction.  `params` is split by the fixed
realizable shape of the Python dict: `comment` (only ever a string set
from `title`), `rem` (always present, key→value), and the remaining
optional sections. -/
structure QcTask : Type where
  mol : MolState
  charge : Option Int
  spin : Option Int
  comment : Option String
  rem : List (String × QcValue)
  others : List (String × SecData)
deriving DecidableEq

/-- `self.params["rem"][k]`. -/
def remGet (k : String) (t : QcTask) : Option QcValue := alookup k t.rem

/-- `self.params["rem"][k] = v`. -/
def remSet (k : String) (v : QcValue) (t : QcTask) : QcTask := { t with rem := aset k v t.rem }

/-- `self.params[k] = v` for an optional section. -/
def othersSet (k : String) (v : SecData) (t : QcTask) : QcTask :=
  { t with others := aset k v t.others }

/-- `QcTask.optional_keywords_list`. -/
def optionalKeywords : List String :=
  ["basis", "ecp", "empirical_dispersion", "external_charges",
   "force_field_params", "intracule", "isotopes", "aux_basis",
   "localized_diabatization", "multipole_field", "nbo", "occupied",
   "swap_occupied_virtual", "opt", "pcm", "pcm_solvent", "plots",
   "qm_atoms", "svp", "svpirf", "van_der_waals", "xc_functional",
   "cdft", "efp_fragments", "efp_params"]

/-- `QcTask.alternative_keys`. -/
def aliasKeys : List (String × String) :=
  [("job_type", "jobtype"), ("symmetry_ignore", "sym_ignore"),
   ("scf_max_cycles", "max_scf_cycles")]

/-- `QcTask.alternative_values`. -/
def aliasVals : List (String × String) :=
  [("optimization", "opt"), ("frequency", "freq")]

/-- Alias normalization: substitute when the key is present. -/
def applyAlias (m : List (String × String)) (s : String) : String := (alookup s m).getD s

/-- The `available_jobtypes` set of the constructor. -/
def availableJobtypes : List String :=
  ["sp", "opt", "ts", "freq", "force", "rpath", "nmr", "bsse", "eda",
   "pes_scan", "fsm", "aimd", "pimc", "makeefp"]

/-- Python truthiness of a stored value (`if ecp:`-style tests). -/
def valTruthy : QcValue → Bool
  | .s v => v != ""
  | .i v => v != 0
  | .f v => v != 0
  | .b v => v
  | .aliasDict => true
  | .solvAtoms l => !l.isEmpty

/-- Python truthiness of a basis-type argument. -/
def basisArgTruthy : BasisArg → Bool
  | .qv v => valTruthy v
  | .dict d => !d.isEmpty

/-! ## `QcTask.__init__` and the basis/ECP setters -/

/-- Intermediate result of the molecule/charge/spin phase of the
constructor. -/
structure InitCS : Type where
  mol : MolState
  charge : Option Int
  spin : Option Int
deriving DecidableEq

/-- The molecule/charge/spin phase of `QcTask.__init__` (lines 94–116):
normalize the molecule argument, resolve charge and spin multiplicity,
enforce the parity rule for explicit spin, enforce that charge and spin
are set together, and stamp the molecule. -/
def initMolChargeSpin (molecule : MolPar) (charge spin : Option Int) :
    Except String InitCS := do
  -- `self.mol = copy.deepcopy(molecule) if molecule else "read"`, lowered if str
  let molNorm : Except String MolState :=
    match molecule with
    | .noneArg => .ok .read
    | .rd s =>
      if s == "" then .ok .read
      else if pyLower s == "read" then .ok .read
      else .error "The molecule must be a pymatgen Molecule object or read/None"
    | .mol m => .ok (.mol m)
  let mol0 ← molNorm
  let cs : Except String InitCS :=
    match mol0 with
    | .read => .ok { mol := .read, charge := charge, spin := spin }
    | .mol m =>
      -- `self.charge = charge if charge is not None else self.mol.charge`
      let c := charge.getD m.charge
      -- `nelectrons = self.mol.charge + self.mol.nelectrons - self.charge`
      let nelectrons : Int := m.charge + molNelectrons m - c
      match spin with
      | some sm =>
        if (nelectrons + sm) % 2 != 1 then
          .error "Charge and spin multiplicity is not possible for this molecule"
        else .ok { mol := .mol m, charge := some c, spin := some sm }
      | none =>
        .ok { mol := .mol m, charge := some c,
              spin := some (if nelectrons % 2 == 0 then 1 else 2) }
  let r ← cs
  -- `if (self.charge is None) != (self.spin_multiplicity is None)`
  if r.charge.isNone != r.spin.isNone then
    .error "spin multiplicity must be set together"
  else
    -- `if self.charge is not None and isinstance(self.mol, Molecule)`
    match r.charge, r.spin, r.mol with
    | some c, some sm, .mol m => .ok { r with mol := .mol (setChargeSpin m c sm) }
    | _, _, _ => .ok r

/-- The element-keyed mapping as stored by the basis/ECP setters: keys
stripped and capitalized, values lower-cased, later duplicates
overwriting. -/
def normElemDict (bs : List (String × String)) : List (String × String) :=
  bs.foldl (fun d ev => aset (pyCapitalize (pyStrip ev.1)) (pyLower ev.2) d) []

/-- `QcTask.set_basis_set`.  The molecule truthiness guard `if self.mol:`
is modelled as always true (a nonempty string or a Molecule object; the
empty-molecule edge is out of scope), so the element check always runs;
with `self.mol == "read"` the attribute access `self.mol.sites` fails. -/
def setBasisSet (t : QcTask) (basis_set : BasisArg) : Except String QcTask :=
  match basis_set with
  | .qv (.s sv) => .ok (remSet "basis" (.s (pyLower sv)) t)
  | .qv _ => .error "Cannot handle type"
  | .dict bs =>
    let t1 := remSet "basis" (.s "gen") t
    let bsN := normElemDict bs
    let t2 := othersSet "basis" (.edict bsN) t1
    match t.mol with
    | .read => .error "AttributeError: str object has no attribute sites"
    | .mol m =>
      let molE := molElements m
      let basisE := akeys bsN
      if molE.any fun e => !(basisE.contains e) then
        .error "The basis set for elements is missing"
      else if basisE.any fun e => !(molE.contains e) then
        .error "Basis set error: the molecule does not contain element"
      else .ok t2

/-- `QcTask.set_auxiliary_basis_set`.  Same shape as `set_basis_set`,
except that a non-string non-dict argument is silently ignored (the
Python method has no `else` branch). -/
def setAuxBasisSet (t : QcTask) (aux_basis_set : BasisArg) : Except String QcTask :=
  match aux_basis_set with
  | .qv (.s sv) => .ok (remSet "aux_basis" (.s (pyLower sv)) t)
  | .qv _ => .ok t
  | .dict bs =>
    let t1 := remSet "aux_basis" (.s "gen") t
    let bsN := normElemDict bs
    let t2 := othersSet "aux_basis" (.edict bsN) t1
    match t.mol with
    | .read => .error "AttributeError: str object has no attribute sites"
    | .mol m =>
      let molE := molElements m
      let basisE := akeys bsN
      if molE.any fun e => !(basisE.contains e) then
        .error "The auxiliary basis set for elements is missing"
      else if basisE.any fun e => !(molE.contains e) then
        .error "Auxiliary basis set error: the molecule does not contain element"
      else .ok t2

/-- `QcTask.set_ecp`: only extra ECP keys not covered by the molecule are
an error; molecule elements missing from the mapping are allowed. -/
def setEcp (t : QcTask) (ecp : BasisArg) : Except String QcTask :=
  match ecp with
  | .qv (.s sv) => .ok (remSet "ecp" (.s (pyLower sv)) t)
  | .qv _ => .ok t
  | .dict ps =>
    let t1 := remSet "ecp" (.s "gen") t
    let psN := normElemDict ps
    let t2 := othersSet "ecp" (.edict psN) t1
    match t.mol with
    | .read => .error "AttributeError: str object has no attribute sites"
    | .mol m =>
      let molE := molElements m
      let ecpE := akeys psN
      if ecpE.any fun e => !(molE.contains e) then
        .error "ECP error: the molecule does not contain element"
      else .ok t2

/-- `QcTask._aux_basis_required`: true for the double-hybrid exchanges,
else decided from `correlation.startswith("ri")`; reading `startswith`
off a non-string stored correlation raises. -/
def auxBasisRequired (t : QcTask) : Except String Bool :=
  let exListed :=
    match remGet "exchange" t with
    | some (.s e) => ["xygjos", "xyg3", "lxygjos"].contains e
    | _ => false
  if exListed then .ok true
  else
    match remGet "correlation" t with
    | none => .ok false
    | some (.s c) => .ok (pyStarts c "ri")
    | some _ => .error "AttributeError: startswith"

/-- One step of the `rem_params` loop of the constructor: lower-case the
key, apply key aliases, and store the value (strings are lower-cased and
alias-normalized; ints, floats and bools stored as given; anything else
rejected). -/
def applyRemParam (t : QcTask) (kv : String × QcValue) : Except String QcTask :=
  let k2 := applyAlias aliasKeys (pyLower kv.1)
  match kv.2 with
  | .s sv =>
    let s2 := pyLower sv
    let s3 := applyAlias aliasVals s2
    .ok (remSet k2 (.s s3) t)
  | .i v => .ok (remSet k2 (.i v) t)
  | .f v => .ok (remSet k2 (.f v) t)
  | .b v => .ok (remSet k2 (.b v) t)
  | _ => .error "The value in rem can only be Integer or string"

/-- The auxiliary-basis default phase of the constructor (lines 159–169):
when no auxiliary basis is given but one is required, derive it from a
`6-31+g`/`6-311+g` basis prefix, else fail. -/
def auxDefaultPhase (t : QcTask) : Except String QcTask := do
  let req ← auxBasisRequired t
  if req then do
    let t2 ←
      match remGet "basis" t with
      | some (.s b) =>
        if pyStarts b "6-31+g" then setAuxBasisSet t (.qv (.s "rimp2-aug-cc-pvdz"))
        else if pyStarts b "6-311+g" then setAuxBasisSet t (.qv (.s "rimp2-aug-cc-pvtz"))
        else .ok t
      | _ => .ok t
    if ahas "aux_basis" t2.rem then .ok t2
    else .error "Auxiliary basis set is missing"
  else .ok t

/-- The parameter-handling phase of `QcTask.__init__` (everything after
the molecule/charge/spin resolution). -/
def qcTaskBody (cs : InitCS) (jobtype : String)
    (title : Option String) (exchange : String) (correlation : Option String)
    (basis_set : BasisArg) (aux_basis_set : Option BasisArg) (ecp : Option BasisArg)
    (rem_params : Option (List (String × QcValue)))
    (optional_params : Option (List (String × SecData))) : Except String QcTask := do
  let t0 : QcTask :=
    { mol := cs.mol, charge := cs.charge, spin := cs.spin, comment := title,
      rem := [], others := [] }
  let t1 := remSet "exchange" (.s (pyLower exchange)) t0
  -- jobtype vocabulary check: aliases normalized for the check only
  let jt := pyLower jobtype
  let jt2 := applyAlias aliasVals jt
  let t2 ←
    if !(availableJobtypes.contains jt2) then
      .error "Job type is not supported yet"
    else .ok (remSet "jobtype" (.s (pyLower jobtype)) t1)
  let t3 :=
    match correlation with
    | some c => remSet "correlation" (.s (pyLower c)) t2
    | none => t2
  let t4 ←
    match rem_params with
    | none => .ok t3
    | some ps => ps.foldlM applyRemParam t3
  let t5 ←
    match optional_params with
    | none => .ok t4
    | some ps =>
      if ps.isEmpty then .ok t4
      else
        let opKey := (ps.map fun kv => pyLower kv.1).dedup
        if (opKey.filter fun k => !(optionalKeywords.contains k)).isEmpty then
          .ok { t4 with others := ps.foldl (fun o kv => aset kv.1 kv.2 o) t4.others }
        else .error "is not a valid optional section"
  let t6 ← setBasisSet t5 basis_set
  let t7 ←
    match aux_basis_set with
    | none => auxDefaultPhase t6
    | some a => setAuxBasisSet t6 a
  match ecp with
  | some e => if basisArgTruthy e then setEcp t7 e else .ok t7
  | none => .ok t7

/-- `QcTask.__init__`: the full constructor. -/
def qcTaskInit (molecule : MolPar) (charge spin : Option Int) (jobtype : String)
    (title : Option String) (exchange : String) (correlation : Option String)
    (basis_set : BasisArg) (aux_basis_set : Option BasisArg) (ecp : Option BasisArg)
    (rem_params : Option (List (String × QcValue)))
    (optional_params : Option (List (String × SecData))) : Except String QcTask := do
  let cs ← initMolChargeSpin molecule charge spin
  qcTaskBody cs jobtype title exchange correlation basis_set aux_basis_set ecp
    rem_params optional_params

/-! ## `QcTask.__str__`: section serialization -/

/-- Digits of a natural number left-padded with zeros to a width. -/
def natRenderPad (w : Nat) (n : Nat) : String :=
  let d := Nat.toDigits 10 n
  chStr (List.replicate (w - d.length) '0' ++ d)

/-- Modelled from the spec: fixed-point rendering `"{:>17.8f}"` of the
external float formatting, with round-half-up on the 8th decimal; no
claim evaluates serialized coordinates. -/
def f17_8 (q : ℚ) : String :=
  let scaled : Int := ((q.num.natAbs : ℚ) / q.den * 100000000 + 1 / 2).floor
  let body := natRenderPad 0 (scaled.toNat / 100000000) ++ "." ++
    natRenderPad 8 (scaled.toNat % 100000000)
  rjust 17 (if q < 0 then "-" ++ body else body)

/-- Modelled from the spec: `"{:4.2f}"` rendering of a solvent-atom float. -/
def f4_2 (q : ℚ) : String :=
  let scaled : Int := ((q.num.natAbs : ℚ) / q.den * 100 + 1 / 2).floor
  let body := natRenderPad 0 (scaled.toNat / 100) ++ "." ++ natRenderPad 2 (scaled.toNat % 100)
  rjust 4 (if q < 0 then "-" ++ body else body)

/-- Python `str(value)` of a stored section value, as interpolated by the
`"{value}"` format fields.  The `aliasDict` and `solvAtoms` renderings are
modelled placeholders: no serializable task produced by the constructor
stores them in a `{value}` position and no claim evaluates them. -/
def renderValue : QcValue → String
  | .s v => v
  | .i n => intRender n
  | .f q =>
    -- Modelled: the external shortest-repr float printing is not
    -- reproduced exactly; claims restrict serialized rem values to
    -- strings, ints and bools.
    intRender q.num ++ "/" ++ natRender q.den
  | .b true => "True"
  | .b false => "False"
  | .aliasDict => "aliasdict"
  | .solvAtoms _ => "solventatoms"

/-- `QcTask._format_comment`. -/
def formatComment (c : String) : List String := [" " ++ pyStrip c]

/-- `QcTask._format_molecule`: optional `"<charge>  <multi>"` line, then
`read` or one formatted line per site. -/
def formatMolecule (t : QcTask) : Except String (List String) := do
  let head ←
    match t.charge, t.spin with
    | some c, some sm => .ok [" " ++ intRender c ++ "  " ++ intRender sm]
    | some _, none => .error "TypeError: format of None"
    | none, _ => .ok []
  let body :=
    match t.mol with
    | .read => [" read"]
    | .mol m =>
      (molSites m).map fun st =>
        " " ++ ljust 4 st.1.speciesString ++ " " ++ rjust 17 (f17_8 st.2.1) ++ " " ++
          rjust 17 (f17_8 st.2.2.1) ++ " " ++ rjust 17 (f17_8 st.2.2.2)
  .ok (head ++ body)

/-- The width of the longest key of a table (the `name_width` loop). -/
def keyWidth (d : List (String × QcValue)) : Nat :=
  d.foldl (fun w kv => max w kv.1.data.length) 0

/-- `QcTask._format_rem`: `jobtype`, `exchange`, `basis` first, remaining
keys alphabetical, each as `"  {name:>w} = {value}"`. -/
def formatRem (t : QcTask) : Except String (List String) := do
  let w := keyWidth t.rem
  let allKeys := akeys t.rem
  let priority := ["jobtype", "exchange", "basis"]
  let additional := (allKeys.filter fun k => !(priority.contains k)).dedup
  let ordered := priority ++ sortStr additional
  ordered.mapM fun k =>
    match alookup k t.rem with
    | some v => .ok ("  " ++ rjust w k ++ " = " ++ renderValue v)
    | none => .error "KeyError"

/-- `QcTask._format_basis` / `_format_aux_basis` / `_format_ecp`: element,
label, `****` triplets in sorted element order. -/
def formatElemSec (d : List (String × String)) : List String :=
  (sortStr (akeys d).dedup).flatMap fun el =>
    [" " ++ el, " " ++ ((alookup el d).getD ""), " ****"]

/-- `QcTask._format_pcm`: `"  {name:>w}   {value}"` in sorted key order. -/
def formatPcm (d : List (String × QcValue)) : List String :=
  let w := keyWidth d
  (sortStr (akeys d).dedup).map fun k =>
    "  " ++ rjust w k ++ "   " ++ renderValue ((alookup k d).getD (.s ""))

/-- `QcTask._format_pcm_solvent`: fixed priority keys first, then sorted;
`solventatom` expands to one line per accumulated tuple. -/
def formatPcmSolvent (d : List (String × QcValue)) : Except String (List String) := do
  let w := keyWidth d
  let allKeys := (akeys d).dedup
  let priority := ["dielectric", "nonels", "nsolventatoms", "solventatom"].filter
    fun k => allKeys.contains k
  let additional := allKeys.filter fun k => !(priority.contains k)
  let ordered := priority ++ sortStr additional
  let fmt : String × QcValue → Except String (List String) := fun kv =>
    if kv.1 == "solventatom" then
      match kv.2 with
      | .solvAtoms l =>
        .ok (l.map fun v =>
          "  " ++ rjust w kv.1 ++ "   " ++ ljust 4 (intRender v.1) ++ " " ++
            ljust 4 (intRender v.2.1) ++ " " ++ ljust 4 (intRender v.2.2.1) ++ " " ++
            f4_2 v.2.2.2)
      | _ => .error "TypeError: solventatom value is not iterable tuples"
    else .ok ["  " ++ rjust w kv.1 ++ "   " ++ renderValue kv.2]
  let rows ← ordered.mapM fun k => fmt (k, (alookup k d).getD (.s ""))
  .ok rows.flatten

/-- Whether a section name is present in `self.params`. -/
def secPresent (t : QcTask) (sec : String) : Bool :=
  if sec == "comment" then t.comment.isSome
  else if sec == "rem" then true
  else ahas sec t.others

/-- Dispatch of `self.__getattribute__("_format_" + sec)`: the registered
formatters; any other section name raises `AttributeError`. -/
def formatDispatch (t : QcTask) (sec : String) : Except String (List String) :=
  if sec == "comment" then
    match t.comment with
    | some c => .ok (formatComment c)
    | none => .error "KeyError: comment"
  else if sec == "molecule" then formatMolecule t
  else if sec == "rem" then formatRem t
  else if sec == "basis" || sec == "aux_basis" || sec == "ecp" then
    match alookup sec t.others with
    | some (.edict d) => .ok (formatElemSec d)
    | some _ => .error "TypeError: element section is not an element dict"
    | none => .error "KeyError"
  else if sec == "pcm" then
    match alookup sec t.others with
    | some (.keyed d) => .ok (formatPcm d)
    | some _ => .error "TypeError"
    | none => .error "KeyError"
  else if sec == "pcm_solvent" then
    match alookup sec t.others with
    | some (.keyed d) => formatPcmSolvent d
    | some _ => .error "TypeError"
    | none => .error "KeyError"
  else .error "AttributeError: no formatter for section"

/-- The entry list built by `QcTask.__str__` before the final
`'\n'.join`: per present section, `$name`, the body lines, `$end`, and a
literal `"\n"` entry. -/
def strEntries (t : QcTask) : Except String (List String) := do
  let secs := ["comment", "molecule", "rem"] ++ sortStr optionalKeywords
  secs.foldlM
    (fun acc sec =>
      if secPresent t sec || sec == "molecule" then do
        let body ← formatDispatch t sec
        .ok (acc ++ ["$" ++ sec] ++ body ++ ["$end", "\n"])
      else .ok acc)
    []

/-- `str(task)`: the serialized text. -/
def qcTaskStr (t : QcTask) : Except String String :=
  (strEntries t).map (pyJoin "\n")

/-- The serialized text as its line list: `str(task).split('\n')`.
Splitting the `'\n'.join` on newlines turns each entry into its own
newline-split pieces, so the embedded `"\n"` entry after each `$end`
becomes two empty lines. -/
def qcTaskStrLines (t : QcTask) : Except String (List String) :=
  (strEntries t).map fun entries => entries.flatMap pyLines

/-! ## `QcTask.from_string`: section parsing -/

/-- A Cartesian coordinate triple. -/
abbrev V3 : Type := ℚ × ℚ × ℚ

/-- Word-character class `\w`. -/
def isWordCh (c : Char) : Bool :=
  ('a' ≤ c && c ≤ 'z') || ('A' ≤ c && c ≤ 'Z') || ('0' ≤ c && c ≤ '9') || c == '_'

/-- `re.split` with a separator character class: separator runs split the
text, and a leading/trailing separator yields an empty piece, exactly as
`re.split("[class]+", s)` does. -/
def reSplitGo (isSep : Char → Bool) : List Char → List Char → List (List Char)
  | [], acc => [acc.reverse]
  | c :: rest, acc =>
    if isSep c then acc.reverse :: reSplitGo isSep (rest.dropWhile isSep) []
    else reSplitGo isSep rest (c :: acc)
termination_by l _ => l.length
decreasing_by
  · exact Nat.lt_succ_of_le (List.Sublist.length_le (List.dropWhile_sublist isSep))
  · exact Nat.lt_succ_of_le (Nat.le_refl rest.length)

/-- `re.split("[,\s]+", l)` used by `_parse_coords`. -/
def splitSepComma (s : String) : List String :=
  (reSplitGo (fun c => pyIsSpace c || c == ',') s.data []).map chStr

/-- `re.match('\s*(?P<charge>[-+]?\d+)\s+(?P<multi>\d+)', line)`:
the charge/multiplicity header of a `$molecule` section. -/
def chargeMultiMatch (s : String) : Option (Int × Int) :=
  let l := s.data.dropWhile pyIsSpace
  let signed : List Char × Bool :=
    match l with
    | '+' :: r => (r, false)
    | '-' :: r => (r, true)
    | r => (r, false)
  let d1 := signed.1.takeWhile fun c => (digitVal c).isSome
  let r1 := signed.1.dropWhile fun c => (digitVal c).isSome
  let ws := r1.takeWhile pyIsSpace
  let r2 := r1.dropWhile pyIsSpace
  let d2 := r2.takeWhile fun c => (digitVal c).isSome
  if d1.isEmpty || ws.isEmpty || d2.isEmpty then none
  else
    let c : Int := if signed.2 then -(Int.ofNat (natOfDigits d1)) else Int.ofNat (natOfDigits d1)
    some (c, Int.ofNat (natOfDigits d2))

/-- Character class `[\d\.eE\-]` of the Cartesian coordinate tokens. -/
def isFloatCh (c : Char) : Bool :=
  (digitVal c).isSome || c == '.' || c == 'e' || c == 'E' || c == '-'

/-- `QcTask.xyz_patt` match: leading `\w+` species token, three
`[\d\.eE\-]+` tokens separated by `[\s,]+`, then optional
`[\-\.\s,\w]*` trailer.  Deterministic maximal-run reading of the
regex. -/
def xyzPatMatch (s : String) : Bool :=
  let isSep := fun c => pyIsSpace c || c == ','
  let w1 := s.data.takeWhile isWordCh
  let r1 := s.data.dropWhile isWordCh
  let step : List Char → Option (List Char) := fun l =>
    let sep := l.takeWhile isSep
    let l2 := l.dropWhile isSep
    let f := l2.takeWhile isFloatCh
    if sep.isEmpty || f.isEmpty then none else some (l2.dropWhile isFloatCh)
  match (step r1).bind step |>.bind step with
  | none => false
  | some rest =>
    !w1.isEmpty &&
      rest.all fun c => isWordCh c || pyIsSpace c || c == ',' || c == '-' || c == '.'

/-- `QcTask.zmat_patt` match: every alternation of the pattern only
consumes word characters, `[\s,]` separators, dots and dashes, and the
trailing `[\-\.\s,\w]*$` can consume any such suffix, so the pattern
matches exactly the lines over that alphabet. -/
def zmatPatMatch (s : String) : Bool :=
  s.data.all fun c => isWordCh c || pyIsSpace c || c == ',' || c == '-' || c == '.'

/-- Modelled simplification of the symbolic-parameter line pattern
`^([A-Za-z]+\S*)[\s=,]+([\d\-\.]+)$` of `_parse_coords`: a name token and
a value token separated by one `[\s=,]+` run (names containing `=` or `,`
are not recognized; no claim involves symbolic Z-matrix parameters). -/
def varPatMatch (s : String) : Option (String × String) :=
  let toks := (reSplitGo (fun c => pyIsSpace c || c == '=' || c == ',') s.data []).map chStr
  match toks with
  | [a, b] =>
    match a.data with
    | c :: _ =>
      if (('a' ≤ c && c ≤ 'z') || ('A' ≤ c && c ≤ 'Z')) &&
          !b.data.isEmpty && b.data.all (fun ch => (digitVal ch).isSome || ch == '-' || ch == '.')
      then some (a, b) else none
    | [] => none
  | _ => none

/-- Python list indexing with negative-index wrap-around; `none` where
Python raises `IndexError`. -/
def pyIndex {α : Type} (l : List α) (i : Int) : Option α :=
  if 0 ≤ i then l.get? i.toNat
  else
    let j : Int := (l.length : Int) + i
    if 0 ≤ j then l.get? j.toNat else none

/-- Modelled from the spec: one-reference Z-matrix placement is along +z
at the bond length from the origin (`[0, 0, parameters[0]]` in the
source). -/
def zmatPlace1 (bl : ℚ) : V3 := (0, 0, bl)

/-- Modelled from the spec: the two-reference placement rotates the second
reference about a fixed axis and rescales to the bond length using the
external `SymmOp` rotation (`pymatgen.core.operations`, not under
`src/`); exact trigonometry is not representable over ℚ and no claim
evaluates a Z-matrix placement, so the rotation is modelled as a fixed
total function of its inputs. -/
def zmatPlace2 (c1 c2 : V3) (bl angle : ℚ) : V3 :=
  (c1.1 + bl + angle * 0 + c2.1 * 0, c1.2.1, c1.2.2)

/-- Modelled from the spec: three-reference (dihedral) placement; same
modelling caveat as `zmatPlace2`. -/
def zmatPlace3 (c1 c2 c3 : V3) (bl angle dih : ℚ) : V3 :=
  (c1.1 + bl + angle * 0 + dih * 0 + c2.1 * 0 + c3.1 * 0, c1.2.1, c1.2.2)

/-- `int(tok)` for a Z-matrix reference token; `none` where Python raises
`ValueError`. -/
def pyIntTok (s : String) : Option Int :=
  if intPat s then some (intOfTok s) else none

/-- `parse_species`: an all-digit token is an atomic number, otherwise
digits are stripped and the token capitalized. -/
def parseSpecies (tok : String) : PSpecies :=
  match pyIntTok tok with
  | some n => .z n.toNat
  | none => .sym (pyCapitalize (chStr (tok.data.filter fun c => (digitVal c).isNone)))

/-- Consume the `(reference, value)` pairs of one Z-matrix line:
references resolve as integers or as 1-based indices of earlier species
tokens, values as float literals or (possibly negated) named parameters. -/
def zmatPairs (paras : List (String × ℚ)) (species : List String) :
    List String → Except String (List Int × List ℚ)
  | [] => .ok ([], [])
  | [_] => .ok ([], [])
  | ind :: data :: rest => do
    let n ←
      match pyIntTok ind with
      | some n => Except.ok n
      | none =>
        match species.indexOf? ind with
        | some idx => Except.ok ((idx : Int) + 1)
        | none => Except.error "ValueError: token is not in species list"
    let v ←
      match pyFloat data with
      | some q => Except.ok q
      | none =>
        if pyStarts data "-" then
          match alookup (chStr (data.data.drop 1)) paras with
          | some q => Except.ok (-q)
          | none => Except.error "UndefinedParameter"
        else
          match alookup data paras with
          | some q => Except.ok q
          | none => Except.error "UndefinedParameter"
    let (ns, vs) ← zmatPairs paras species rest
    .ok (n :: ns, v :: vs)

/-- Parse the three coordinate tokens of a Cartesian line. -/
def parseXyzCoords (toks : List String) : Except String V3 := do
  let picked := if toks.length > 4 then (toks.drop 2).take 3 else (toks.drop 1).take 3
  match picked.mapM pyFloat with
  | some [x, y, z] => .ok (x, y, z)
  | _ => .error "ValueError: could not convert string to float"

/-- One line of the main `_parse_coords` loop. -/
def parseCoordsLine (paras : List (String × ℚ)) (st : List String × List V3 × Bool)
    (l : String) : Except String (List String × List V3 × Bool) := do
  let (species, coords, zmode) := st
  if !zmode && xyzPatMatch l then do
    let toks := splitSepComma l
    let sp := chStr (l.data.takeWhile isWordCh)
    let v ← parseXyzCoords toks
    .ok (species ++ [sp], coords ++ [v], false)
  else if zmatPatMatch l then do
    let toks := splitSepComma l
    match toks with
    | [] => .error "IndexError: species token"
    | sp :: rest =>
      let species2 := species ++ [sp]
      if rest.isEmpty then .ok (species2, coords ++ [(0, 0, 0)], true)
      else do
        let (nn, parameters) ← zmatPairs paras species2 rest
        let fetch : Int → Except String V3 := fun i =>
          match pyIndex coords (i - 1) with
          | some c => .ok c
          | none => .error "IndexError: coords"
        match nn, parameters with
        | [_], bl :: _ => .ok (species2, coords ++ [zmatPlace1 bl], true)
        | [n1, n2], bl :: angle :: _ => do
          let c1 ← fetch n1
          let c2 ← fetch n2
          .ok (species2, coords ++ [zmatPlace2 c1 c2 bl angle], true)
        | [n1, n2, n3], bl :: angle :: dih :: _ => do
          let c1 ← fetch n1
          let c2 ← fetch n2
          let c3 ← fetch n3
          .ok (species2, coords ++ [zmatPlace3 c1 c2 c3 bl angle dih], true)
        | _, _ => .ok (species2, coords, true)
  else .ok (species, coords, zmode)

/-- The main loop of `_parse_coords`, stopping at the first blank line. -/
def parseCoordsGo (paras : List (String × ℚ)) :
    List String → List String × List V3 × Bool → Except String (List String × List V3)
  | [], st => .ok (st.1, st.2.1)
  | line :: rest, st => do
    let l := pyStrip line
    if l == "" then .ok (st.1, st.2.1)
    else do
      let st2 ← parseCoordsLine paras st l
      parseCoordsGo paras rest st2

/-- `QcTask._parse_coords`: symbolic-parameter prescan, Cartesian/Z-matrix
line loop, species normalization, and molecule assembly (the external
`Molecule(species, coords)` constructor is modelled as requiring one
coordinate per species). -/
def parseCoords (coord_lines : List String) : Except String PMolecule := do
  let paras ← coord_lines.foldlM
    (fun acc l =>
      match varPatMatch (pyStrip l) with
      | some nv =>
        match pyFloat nv.2 with
        | some q => .ok (aset nv.1 q acc)
        | none => .error "ValueError: could not convert string to float"
      | none => .ok acc)
    []
  let (speciesToks, coords) ← parseCoordsGo paras coord_lines ([], [], false)
  if speciesToks.length != coords.length then
    .error "Molecule: species and coordinates have different lengths"
  else
    .ok { species := speciesToks.map parseSpecies, coords := coords, charge := 0, spin := 1 }

/-- `QcTask._parse_molecule`: optional charge/multiplicity header, then
`read` or geometry lines. -/
def parseMoleculeSec (contents : List String) :
    Except String (MolState × Option Int × Option Int) := do
  match contents with
  | [] => .error "IndexError: pop from empty list"
  | line0 :: _ =>
    match chargeMultiMatch line0 with
    | some cm =>
      match contents.get? 1 with
      | none => .error "IndexError: pop from empty list"
      | some line1 =>
        if pyLower (pyStrip line1) == "read" then .ok (.read, some cm.1, some cm.2)
        else do
          let mol ← parseCoords (contents.drop 1)
          .ok (.mol (setChargeSpin mol cm.1 cm.2), some cm.1, some cm.2)
    | none =>
      if pyLower (pyStrip line0) == "read" then .ok (.read, none, none)
      else .error "Charge or spin multiplicity is not found"

/-- Typing of one `$rem` value token (`_parse_rem` body): the alias
substitution bug stores the whole `alternative_values` dict when the token
is an alias key — under `xc_grid` that dict is stored as the value, under
any other key the subsequent `int_pattern.match` on a dict raises
`TypeError`.  Otherwise `xc_grid` keeps the raw token, and the token is
typed as bool/int/float/lower-cased string. -/
def parseRemValueTok (k2 v : String) : Except String QcValue :=
  if ahas v aliasVals then
    if k2 == "xc_grid" then .ok .aliasDict
    else .error "TypeError: expected string or buffer"
  else if k2 == "xc_grid" then .ok (.s v)
  else if v == "True" then .ok (.b true)
  else if v == "False" then .ok (.b false)
  else if intPat v then .ok (.i (intOfTok v))
  else if floatPat v then .ok (.f (ratOfFloatTok v))
  else .ok (.s (pyLower v))

/-- Tokenization shared by the key/value section parsers:
`line.strip().replace("=", ' ').split()`. -/
def kvTokens (line : String) : List String := pySplitWs (replaceEqBySpace (pyStrip line))

/-- One line of `_parse_rem`: tokenize, normalize the key, type the
value. -/
def parseRemEntry (line : String) : Except String (String × QcValue) := do
  match kvTokens line with
  | k1 :: v :: _ =>
    let k2 := applyAlias aliasKeys (pyLower k1)
    let val ← parseRemValueTok k2 v
    .ok (k2, val)
  | _ => .error "Cannot parse rem section: need at least key and value"

/-- `QcTask._parse_rem`. -/
def parseRemSec (contents : List String) : Except String (List (String × QcValue)) :=
  contents.foldlM
    (fun d line => (parseRemEntry line).map fun kv => aset kv.1 kv.2 d)
    []

/-- `QcTask._parse_pcm`: same typing as `$rem` without the `xc_grid`
special case. -/
def parsePcmSec (contents : List String) : Except String (List (String × QcValue)) :=
  contents.foldlM
    (fun d line => do
      match kvTokens line with
      | k1 :: v :: _ =>
        let k2 := applyAlias aliasKeys (pyLower k1)
        let val ←
          if ahas v aliasVals then Except.error "TypeError: expected string or buffer"
          else if v == "True" then Except.ok (QcValue.b true)
          else if v == "False" then Except.ok (QcValue.b false)
          else if intPat v then Except.ok (QcValue.i (intOfTok v))
          else if floatPat v then Except.ok (QcValue.f (ratOfFloatTok v))
          else Except.ok (QcValue.s (pyLower v))
        .ok (aset k2 val d)
      | _ => .error "Cannot parse pcm section: need at least key and value")
    []

/-- `QcTask._parse_pcm_solvent`: like `$pcm` but the repeatable
`solventatom` key accumulates `(int, int, int, float)` tuples. -/
def parsePcmSolventSec (contents : List String) :
    Except String (List (String × QcValue)) :=
  contents.foldlM
    (fun d line => do
      match kvTokens line with
      | k1 :: v :: restToks =>
        let k2 := applyAlias aliasKeys (pyLower k1)
        if k2 == "solventatom" then do
          let tup ←
            match (v :: restToks).take 3 |>.mapM pyIntTok, ((v :: restToks).get? 3).bind pyFloat with
            | some [a, b, c], some f => Except.ok ((a, b, c, f) : Int × Int × Int × ℚ)
            | _, _ => Except.error "ValueError or IndexError in solventatom"
          match alookup k2 d with
          | none => .ok (aset k2 (.solvAtoms [tup]) d)
          | some (.solvAtoms l) => .ok (aset k2 (.solvAtoms (l ++ [tup])) d)
          | some _ => .error "AttributeError: append"
        else do
          let val ←
            if ahas v aliasVals then Except.error "TypeError: expected string or buffer"
            else if v == "True" then Except.ok (QcValue.b true)
            else if v == "False" then Except.ok (QcValue.b false)
            else if intPat v then Except.ok (QcValue.i (intOfTok v))
            else if floatPat v then Except.ok (QcValue.f (ratOfFloatTok v))
            else Except.ok (QcValue.s (pyLower v))
          .ok (aset k2 val d)
      | _ => .error "Cannot parse pcm_solvent section: need at least key and value")
    []

/-- Split a list into complete chunks of 3 (`zip(*[iter(contents)]*3)`). -/
def group3 {α : Type} : List α → List (α × α × α)
  | a :: b :: c :: rest => (a, b, c) :: group3 rest
  | _ => []

/-- `QcTask._parse_basis` / `_parse_aux_basis` / `_parse_ecp`: element,
label, `****` triplets. -/
def parseElemSec (contents : List String) : Except String (List (String × String)) :=
  if contents.length % 3 != 0 then .error "section format error"
  else
    .ok ((group3 contents).foldl
      (fun d ch => aset (pyCapitalize (pyStrip ch.1)) (pyLower (pyStrip ch.2.1)) d) [])

/-! ## `QcTask.from_string`: the section loop -/

/-- The section names accepted at parse time. -/
def availableSections : List String := ["comment", "molecule", "rem"] ++ sortStr optionalKeywords

/-- The loop state of `from_string`: inside-section flag, current section
name, accumulated body lines, completed sections, and the molecule data. -/
structure FsSt : Type where
  parse_section : Bool
  section_name : String
  section_text : List String
  params : List (String × SecData)
  mol : Option MolState
  charge : Option Int
  spin : Option Int
deriving DecidableEq

/-- The initial `from_string` loop state. -/
def fsInit : FsSt :=
  { parse_section := false, section_name := "", section_text := [], params := [],
    mol := none, charge := none, spin := none }

/-- Per-section parser dispatch (`_parse_<name>` lookup): the registered
section parsers; a grammar-valid section with no parser raises. -/
def parseSecData (name : String) (text : List String) : Except String SecData :=
  if name == "comment" then .ok (.txt (pyStrip (pyJoin "\n" text)))
  else if name == "rem" then (parseRemSec text).map .keyed
  else if name == "pcm" then (parsePcmSec text).map .keyed
  else if name == "pcm_solvent" then (parsePcmSolventSec text).map .keyed
  else if name == "basis" || name == "aux_basis" || name == "ecp" then
    (parseElemSec text).map .edict
  else .error "section parser is not implemented yet"

/-- One line of the `from_string` loop: blank lines are skipped; outside a
section only a `$name` opener is legal (`$end` or a non-`$` line raises);
an opener must name a known section that is not already parsed; inside a
section every line except `$end` is body text, and `$end` dispatches the
section parser. -/
def fsStep (st : FsSt) (line : String) : Except String FsSt := do
  let l := pyLower (pyStrip line)
  if l == "" then .ok st
  else if !st.parse_section then
    if l == "$end" || !(pyStarts l "$") then .error "Format error, parsing failed"
    else
      let name := chStr (l.data.drop 1)
      if !(availableSections.contains name) then .error "Unrecognized keyword"
      else if ahas name st.params then .error "duplicated keyword"
      else .ok { st with parse_section := true, section_name := name, section_text := [] }
  else
    if l == "$end" then
      if st.section_name == "molecule" then do
        let mcs ← parseMoleculeSec st.section_text
        .ok { st with
                parse_section := false, section_name := "", section_text := [],
                mol := some mcs.1, charge := mcs.2.1, spin := mcs.2.2 }
      else do
        let d ← parseSecData st.section_name st.section_text
        .ok { st with
                parse_section := false, section_name := "", section_text := [],
                params := aset st.section_name d st.params }
    else .ok { st with section_text := st.section_text ++ [line] }

/-- Extraction of the constructor arguments from the parsed sections
(`from_string` lines 709–728), and the constructor call. -/
def fsFinish (st : FsSt) : Except String QcTask := do
  if st.parse_section then .error "Format error: section is not terminated"
  else do
    let rem ←
      match alookup "rem" st.params with
      | some (.keyed d) => Except.ok d
      | some _ => Except.error "TypeError"
      | none => Except.error "KeyError: rem"
    let jobtype ←
      match alookup "jobtype" rem with
      | some (.s s) => Except.ok s
      | some _ => Except.error "AttributeError: lower"
      | none => Except.error "KeyError: jobtype"
    let title : Option String :=
      match alookup "comment" st.params with
      | some (.txt s) => some s
      | _ => none
    let exchange ←
      match alookup "exchange" rem with
      | some (.s s) => Except.ok s
      | some _ => Except.error "AttributeError: lower"
      | none => Except.ok "hf"
    let correlation ←
      match alookup "correlation" rem with
      | some (.s s) => Except.ok (some s)
      | some _ => Except.error "AttributeError: lower"
      | none => Except.ok none
    let basisArg ←
      match alookup "basis" rem with
      | some v => Except.ok (BasisArg.qv v)
      | none => Except.error "KeyError: basis"
    let auxArg := (alookup "aux_basis" rem).map BasisArg.qv
    let ecpArg := (alookup "ecp" rem).map BasisArg.qv
    let optional := st.params.filter fun kv => kv.1 != "comment" && kv.1 != "rem"
    let molArg : MolPar :=
      match st.mol with
      | none => .noneArg
      | some .read => .rd "read"
      | some (.mol m) => .mol m
    qcTaskInit molArg st.charge st.spin jobtype title exchange correlation basisArg
      auxArg ecpArg (some rem) (if optional.isEmpty then none else some optional)

/-- `QcTask.from_string` on an explicit line list. -/
def fromStringLines (lines : List String) : Except String QcTask := do
  let st ← lines.foldlM fsStep fsInit
  fsFinish st

/-- `QcTask.from_string`. -/
def qcTaskFromString (contents : String) : Except String QcTask :=
  fromStringLines (pyLines contents)

/-! ## Run-log pattern matchers (`QcOutput._parse_job` regexes)

Each compiled pattern of the source is embedded as a scanning function;
`re.search` semantics are leftmost-start via `searchWith`, `re.match` is
a prefix match. -/

/-- Try a prefix matcher at every start position, leftmost first
(`re.search`). -/
def searchWith {α : Type} (m : List Char → Option α) : List Char → Option α
  | [] => m []
  | l@(_ :: t) =>
    match m l with
    | some r => some r
    | none => searchWith m t

/-- Expect a literal, return the rest. -/
def expectLit (lit : String) (l : List Char) : Option (List Char) :=
  if lit.data.isPrefixOf l then some (l.drop lit.data.length) else none

/-- Expect `\s+`, return the rest. -/
def expectWs1 (l : List Char) : Option (List Char) :=
  if (l.takeWhile pyIsSpace).isEmpty then none else some (l.dropWhile pyIsSpace)

/-- Expect `\d+`, return the digits and the rest. -/
def expectDigits (l : List Char) : Option (List Char × List Char) :=
  let d := l.takeWhile fun c => (digitVal c).isSome
  if d.isEmpty then none else some (d, l.dropWhile fun c => (digitVal c).isSome)

/-- Expect `\d+\.\d+`, return its value and the rest. -/
def expectUFloat (l : List Char) : Option (ℚ × List Char) := do
  let (ip, r1) ← expectDigits l
  let r2 ← expectLit "." r1
  let (fp, r3) ← expectDigits r2
  some ((natOfDigits ip : ℚ) + fracOfDigits fp, r3)

/-- Expect `-\d+\.\d+`, return its value and the rest. -/
def expectNegFloat (l : List Char) : Option (ℚ × List Char) := do
  let r0 ← expectLit "-" l
  let (v, r) ← expectUFloat r0
  some (-v, r)

/-- Expect `-?\d+\.\d+`. -/
def expectSFloat (l : List Char) : Option (ℚ × List Char) :=
  match expectLit "-" l with
  | some r0 => (expectUFloat r0).map fun vr => (-vr.1, vr.2)
  | none => expectUFloat l

/-- `scf_energy_pattern`:
`Total energy in the final basis set =\s+(?P<energy>-\d+\.\d+)`. -/
def scfEnergySearch (line : String) : Option ℚ :=
  searchWith
    (fun l => do
      let r1 ← expectLit "Total energy in the final basis set =" l
      let r2 ← expectWs1 r1
      let (v, _) ← expectNegFloat r2
      some v)
    line.data

/-- Character class `[A-Z\-\(\)0-9]` of the correlation-energy name. -/
def isCorrNameCh (c : Char) : Bool :=
  ('A' ≤ c && c ≤ 'Z') || c == '-' || c == '(' || c == ')' || (digitVal c).isSome

/-- `corr_energy_pattern`:
`(?P<name>[A-Z\-\(\)0-9]+)\s+([tT]otal\s+)?[eE]nergy\s+=\s+(?P<energy>-\d+\.\d+)`,
with a maximal-run reading of the greedy name class. -/
def corrEnergySearch (line : String) : Option (String × ℚ) :=
  let tailM : List Char → Option ℚ := fun l => do
    let r1 ← expectWs1 l
    let afterTot :=
      match (expectLit "total" r1).orElse fun _ => expectLit "Total" r1 with
      | some rt =>
        match expectWs1 rt with
        | some rt2 =>
          if ((expectLit "energy" rt2).orElse fun _ => expectLit "Energy" rt2).isSome
          then rt2 else r1
        | none => r1
      | none => r1
    let r2 ← (expectLit "energy" afterTot).orElse fun _ => expectLit "Energy" afterTot
    let r3 ← expectWs1 r2
    let r4 ← expectLit "=" r3
    let r5 ← expectWs1 r4
    let (v, _) ← expectNegFloat r5
    some v
  searchWith
    (fun l =>
      let nm := l.takeWhile isCorrNameCh
      if nm.isEmpty then none
      else (tailM (l.dropWhile isCorrNameCh)).map fun v => (chStr nm, v))
    line.data

/-- `coord_pattern` (a `match`, i.e. prefix):
`\s*\d+\s+(?P<element>[A-Z][a-z]*)\s+(-?\d+\.\d+)\s+(-?\d+\.\d+)\s+(-?\d+\.\d+)`. -/
def coordLineMatch (line : String) : Option (String × ℚ × ℚ × ℚ) := do
  let l := line.data.dropWhile pyIsSpace
  let (_, r1) ← expectDigits l
  let r2 ← expectWs1 r1
  let el ←
    match r2 with
    | c :: _ => if 'A' ≤ c && c ≤ 'Z' then some (c :: (r2.drop 1).takeWhile
        fun d => 'a' ≤ d && d ≤ 'z') else none
    | [] => none
  let r3 := r2.drop el.length
  let r4 ← expectWs1 r3
  let (x, r5) ← expectSFloat r4
  let r6 ← expectWs1 r5
  let (y, r7) ← expectSFloat r6
  let r8 ← expectWs1 r7
  let (z, _) ← expectSFloat r8
  some (chStr el, x, y, z)

/-- `num_ele_pattern`:
`There are\s+(?P<alpha>\d+)\s+alpha and\s+(?P<beta>\d+)\s+beta electrons`. -/
def numEleSearch (line : String) : Option (Nat × Nat) :=
  searchWith
    (fun l => do
      let r1 ← expectLit "There are" l
      let r2 ← expectWs1 r1
      let (a, r3) ← expectDigits r2
      let r4 ← expectWs1 r3
      let r5 ← expectLit "alpha and" r4
      let r6 ← expectWs1 r5
      let (b, r7) ← expectDigits r6
      let r8 ← expectWs1 r7
      let _ ← expectLit "beta electrons" r8
      some (natOfDigits a, natOfDigits b))
    line.data

/-- `total_charge_pattern`:
`Sum of atomic charges =\s+(?P<charge>-?\d+\.\d+)`. -/
def totalChargeSearch (line : String) : Option ℚ :=
  searchWith
    (fun l => do
      let r1 ← expectLit "Sum of atomic charges =" l
      let r2 ← expectWs1 r1
      let (v, _) ← expectSFloat r2
      some v)
    line.data

/-- `scf_iter_pattern`:
`\d+\s+(?P<energy>-\d+\.\d+)\s+(?P<diis_error>\d+\.\d+E[-+]\d+)`. -/
def scfIterSearch (line : String) : Option (ℚ × ℚ) :=
  searchWith
    (fun l => do
      let (_, r1) ← expectDigits l
      let r2 ← expectWs1 r1
      let (e, r3) ← expectNegFloat r2
      let r4 ← expectWs1 r3
      let (m, r5) ← expectUFloat r4
      let r6 ← expectLit "E" r5
      let (sgn, r7) ←
        match r6 with
        | '+' :: rest => some ((1 : Int), rest)
        | '-' :: rest => some ((-1 : Int), rest)
        | _ => none
      let (ex, _) ← expectDigits r7
      some (e, m * (10 : ℚ) ^ (sgn * (natOfDigits ex : Int))))
    line.data

/-- `zpe_pattern`:
`Zero point vibrational energy:\s+(?P<zpe>\d+\.\d+)\s+kcal/mol`. -/
def zpeSearch (line : String) : Option ℚ :=
  searchWith
    (fun l => do
      let r1 ← expectLit "Zero point vibrational energy:" l
      let r2 ← expectWs1 r1
      let (v, r3) ← expectUFloat r2
      let r4 ← expectWs1 r3
      let _ ← expectLit "kcal/mol" r4
      some v)
    line.data

/-- The suffix grammar `:\s+(\d+\.\d+)\s+k?cal/mol` of the
thermal-correction pattern. -/
def thermalTail (l : List Char) : Option ℚ := do
  let r1 ← expectWs1 l
  let (v, r2) ← expectUFloat r1
  let r3 ← expectWs1 r2
  let r4 := ((expectLit "k" r3).getD r3)
  let _ ← expectLit "cal/mol" r4
  some v

/-- Positions of `:` in a list, rightmost first. -/
def colonPositionsRev (l : List Char) : List Nat :=
  ((List.range l.length).filter fun i => l.get? i == some ':').reverse

/-- `thermal_corr_pattern`:
`(?P<name>\S.*\S):\s+(?P<correction>\d+\.\d+)\s+k?cal/mol` — the greedy
`.*` makes the name extend to the rightmost viable colon; the name starts
and ends with a non-space and has at least two characters. -/
def thermalCorrSearch (line : String) : Option (String × ℚ) :=
  searchWith
    (fun l =>
      (colonPositionsRev l).firstM fun j =>
        let nm := l.take j
        match nm, nm.getLast? with
        | c :: _ :: _, some last =>
          if !pyIsSpace c && !pyIsSpace last then
            (thermalTail (l.drop (j + 1))).map fun v => (chStr nm, v)
          else none
        | _, _ => none)
    line.data

/-- `detailed_charge_pattern`:
`Ground-State (?P<method>\w+) Net Atomic Charges`. -/
def detailedChargeSearch (line : String) : Option String :=
  searchWith
    (fun l => do
      let r1 ← expectLit "Ground-State " l
      let m := r1.takeWhile isWordCh
      if m.isEmpty then none
      else do
        let _ ← expectLit " Net Atomic Charges" (r1.dropWhile isWordCh)
        some (chStr m))
    line.data

/-! ## Run-log error signatures (`error_defs`) -/

/-- `\s+[Nn][Aa][Nn]\s+`. -/
def nanMatch (line : String) : Bool :=
  (searchWith
    (fun l => do
      let r1 ← expectWs1 l
      let r2 ←
        match r1.map lowCh with
        | 'n' :: 'a' :: 'n' :: _ => some (r1.drop 3)
        | _ => none
      let _ ← expectWs1 r2
      some ())
    line.data).isSome

/-- `energy\s+=\s*(\*)+`. -/
def starEnergyMatch (line : String) : Bool :=
  (searchWith
    (fun l => do
      let r1 ← expectLit "energy" l
      let r2 ← expectWs1 r1
      let r3 ← expectLit "=" r2
      let r4 := r3.dropWhile pyIsSpace
      match r4 with
      | '*' :: _ => some ()
      | _ => none)
    line.data).isSome

/-- `NewFileMan::OpenFile\(\):\s+nopenfiles=\d+\s+maxopenfiles=\d+s+errno=\d+`
(note: the unescaped `s+` in the source pattern demands a literal run of
`s` characters). -/
def openFileMatch (line : String) : Bool :=
  (searchWith
    (fun l => do
      let r1 ← expectLit "NewFileMan::OpenFile():" l
      let r2 ← expectWs1 r1
      let r3 ← expectLit "nopenfiles=" r2
      let (_, r4) ← expectDigits r3
      let r5 ← expectWs1 r4
      let r6 ← expectLit "maxopenfiles=" r5
      let (_, r7) ← expectDigits r6
      let sRun := r7.takeWhile fun c => c == 's'
      if sRun.isEmpty then none
      else do
        let r8 ← expectLit "errno=" (r7.dropWhile fun c => c == 's')
        let (_, _) ← expectDigits r8
        some ())
    line.data).isSome

/-- `Application \d+ exit codes: 1[34]\d+`. -/
def exitCodeMatch (line : String) : Bool :=
  (searchWith
    (fun l => do
      let r1 ← expectLit "Application " l
      let (_, r2) ← expectDigits r1
      let r3 ← expectLit " exit codes: 1" r2
      let r4 ←
        match r3 with
        | '3' :: rest => some rest
        | '4' :: rest => some rest
        | _ => none
      let (_, _) ← expectDigits r4
      some ())
    line.data).isSome

/-- `Negative overlap matrix eigenvalue. Tighten integral threshold
\(REM_THRESH\)!` (the unescaped dot matches any character). -/
def negativeEigenMatch (line : String) : Bool :=
  (searchWith
    (fun l => do
      let r1 ← expectLit "Negative overlap matrix eigenvalue" l
      match r1 with
      | _ :: r2 => expectLit " Tighten integral threshold (REM_THRESH)!" r2
      | [] => none)
    line.data).isSome

/-- `Application \d+ exit signals: Killed`. -/
def killedMatch (line : String) : Bool :=
  (searchWith
    (fun l => do
      let r1 ← expectLit "Application " l
      let (_, r2) ← expectDigits r1
      let _ ← expectLit " exit signals: Killed" r2
      some ())
    line.data).isSome

/-- `error_defs`: the fixed ordered list of error signatures and their
labels. -/
def errorDefs : List ((String → Bool) × String) :=
  [(fun line => pyIn "Convergence failure" line, "Bad SCF convergence"),
   (fun line => pyIn "Coordinates do not transform within specified threshold" line,
     "autoz error"),
   (fun line => pyIn "MAXIMUM OPTIMIZATION CYCLES REACHED" line,
     "Geometry optimization failed"),
   (nanMatch, "NAN values"),
   (starEnergyMatch, "Numerical disaster"),
   (openFileMatch, "Open file error"),
   (exitCodeMatch, "Exit Code 134"),
   (negativeEigenMatch, "Negative Eigen"),
   (fun line => pyIn "Unable to allocate requested memory in mega_alloc" line,
     "Insufficient static memory"),
   (killedMatch, "Killed")]

/-- The labels appended to `errors` by scanning one line against
`error_defs`, in order. -/
def errorScan (line : String) : List String :=
  (errorDefs.filter fun d => d.1 line).map Prod.snd

/-! ## `QcOutput._parse_job`: state and per-line step -/

/-- `QcOutput.kcal_per_mol_2_eV = 4.3363E-2`. -/
def kcalPerMol2eV : ℚ := 43363 / 1000000

/-- Modelled from the spec: `Energy(x, "Ha").to("eV")` of the external
`pymatgen.core.units` (not under `src/`), Hartree-to-electron-volt
conversion by the fixed factor 27.21138386. -/
def haToEv (q : ℚ) : ℚ := q * (2721138386 / 100000000)

/-- One gradient record: the per-atom 3-vectors and the two summary
values, absent until their lines are seen. -/
structure GradRec : Type where
  gradients : List (ℚ × ℚ × ℚ)
  max_gradient : Option ℚ := none
  rms_gradient : Option ℚ := none
deriving DecidableEq

/-- One frequency record. -/
structure FreqRec : Type where
  frequency : ℚ
  vib_mode : List (ℚ × ℚ × ℚ)
deriving DecidableEq

/-- The mutable loop state of `_parse_job`, one field per local variable
of the Python loop. -/
structure JobCtx : Type where
  energies : List (String × ℚ) := []
  scf_iters : List (List (ℚ × ℚ)) := []
  coords : List V3 := []
  species : List String := []
  molecules : List PMolecule := []
  gradients : List GradRec := []
  freqs : List FreqRec := []
  vib_freqs : List ℚ := []
  vib_modes : List (List (ℚ × ℚ × ℚ)) := []
  grad_comp : Option (List (List ℚ)) := none
  errors : List String := []
  parse_input : Bool := false
  parse_coords : Bool := false
  parse_scf_iter : Bool := false
  parse_gradient : Bool := false
  parse_freq : Bool := false
  parse_modes : Bool := false
  qctask_lines : List String := []
  qctask : Option QcTask := none
  jobtype : Option String := none
  charge : Option Int := none
  spin_multiplicity : Option Int := none
  thermal_corr : List (String × ℚ) := []
  properly_terminated : Bool := false
  pop_method : Option String := none
  parse_charge : Bool := false
  charges : List (String × List ℚ) := []
  scf_successful : Bool := false
  opt_successful : Bool := false
deriving DecidableEq

/-- A run of 50 dashes (the echo/coordinates block terminator). -/
def dash50 : String := chStr (List.replicate 50 '-')

/-- A run of 20 dashes (the population-charge block terminator). -/
def dash20 : String := chStr (List.replicate 20 '-')

/-- The `parse_input` state: accumulate echoed input lines until the
50-dash separator, then re-parse them with the job grammar codec. -/
def stepInput (c : JobCtx) (line : String) : Except String JobCtx :=
  if pyIn dash50 line then
    if c.qctask_lines.isEmpty then .ok c
    else do
      let t ← qcTaskFromString (pyJoin "\n" c.qctask_lines)
      let jt : Option String :=
        match alookup "jobtype" t.rem with
        | some (.s s) => some s
        | _ => none  -- unreachable: the constructor always stores a string
      .ok { c with qctask := some t, jobtype := jt, parse_input := false }
  else .ok { c with qctask_lines := c.qctask_lines ++ [line] }

/-- The `parse_coords` state: dash separator emits a molecule, `Atom`
headers are skipped, and every other line must match the coordinate
pattern (`m.group` on a failed match raises). -/
def stepCoords (c : JobCtx) (line : String) : Except String JobCtx :=
  if pyIn dash50 line then
    if c.coords.isEmpty then .ok c
    else
      .ok { c with
              molecules := c.molecules ++
                [{ species := c.species.map PSpecies.sym, coords := c.coords,
                   charge := 0, spin := 1 }],
              coords := [], species := [], parse_coords := false }
  else if pyIn "Atom" line then .ok c
  else
    match coordLineMatch line with
    | some r =>
      .ok { c with
              coords := c.coords ++ [(r.2.1, r.2.2.1, r.2.2.2)],
              species := c.species ++ [r.1] }
    | none => .error "AttributeError: NoneType object has no attribute group"

/-- The convergence flag update of the `parse_scf_iter` state. -/
def scfFlag (c : JobCtx) (line : String) : JobCtx :=
  if pyIn "Convergence criterion met" line then { c with scf_successful := true } else c

/-- The `parse_scf_iter` state. -/
def stepScfIter (c : JobCtx) (line : String) : Except String JobCtx :=
  if pyIn "SCF time:  CPU" line then .ok { c with parse_scf_iter := false }
  else
    match scfIterSearch line with
    | some ed =>
      match (scfFlag c line).scf_iters.getLast? with
      | some last =>
        .ok { scfFlag c line with
                scf_iters := (scfFlag c line).scf_iters.dropLast ++ [last ++ [ed]] }
      | none => .error "IndexError: list index out of range"
    | none => .ok (scfFlag c line)

/-- The fixed-width crowding repair of a gradient line: at offsets
5, 17, 29, … a non-space character with six following non-space
characters gets a space forced in at the preceding position. -/
def gradRepair (line : String) : String :=
  let l := line.data
  let idxs := (List.range l.length).filter fun i => i ≥ 5 && (i - 5) % 12 == 0
  let active := idxs.filter fun i =>
    match l.get? i with
    | some ch => !pyIsSpace ch
    | none => false
  if active.isEmpty then line
  else
    let blanked := active.filter fun i =>
      let window := (l.drop (i + 1)).take 6
      window.length == 6 && window.all fun ch => !(ch == ' ')
    chStr (l.enum.map fun ci =>
      if blanked.contains (ci.1 + 1) then ' ' else ci.2)

/-- Append the transposed 3-row block to the last gradient record
(the `if grad_comp:` flush shared by three branches). -/
def gradFlush (c : JobCtx) : Except String JobCtx :=
  match c.grad_comp with
  | some rows =>
    if rows.isEmpty then .ok c
    else if rows.length == 3 then
      match rows with
      | [xs, ys, zs] =>
        let triples := xs.zip (ys.zip zs)
        match c.gradients.getLast? with
        | some g =>
          .ok { c with gradients := c.gradients.dropLast ++
                  [{ g with gradients := g.gradients ++ triples }] }
        | none => .error "IndexError: list index out of range"
      | _ => .error "unreachable"
    else .error "Gradient section parsing failed"
  | none => .ok c

/-- The `parse_gradient` state. -/
def stepGradient (c : JobCtx) (line : String) : Except String JobCtx :=
  if pyIn "Max gradient component" line then do
    let v ←
      match (pySplitEq line).get? 1 with
      | some tok =>
        match pyFloat tok with
        | some q => Except.ok q
        | none => Except.error "ValueError: could not convert string to float"
      | none => Except.error "IndexError: list index out of range"
    let c2 ←
      match c.gradients.getLast? with
      | some g => Except.ok { c with gradients := c.gradients.dropLast ++
          [{ g with max_gradient := some v }] }
      | none => Except.error "IndexError: list index out of range"
    gradFlush c2
  else if pyIn "RMS gradient" line then do
    let v ←
      match (pySplitEq line).get? 1 with
      | some tok =>
        match pyFloat tok with
        | some q => Except.ok q
        | none => Except.error "ValueError: could not convert string to float"
      | none => Except.error "IndexError: list index out of range"
    match c.gradients.getLast? with
    | some g =>
      .ok { c with
              gradients := c.gradients.dropLast ++ [{ g with rms_gradient := some v }],
              parse_gradient := false, grad_comp := none }
    | none => .error "IndexError: list index out of range"
  else if !(pyIn "." line) then do
    let c2 ← gradFlush c
    .ok { c2 with grad_comp := some [] }
  else
    match c.grad_comp with
    | none => .error "AttributeError: NoneType object has no attribute append"
    | some rows =>
      match ((pySplitWs (gradRepair line)).drop 1).mapM pyFloat with
      | some vals => .ok { c with grad_comp := some (rows ++ [vals]) }
      | none => .error "ValueError: could not convert string to float"

/-- `zip(*rows)`: transpose with truncation to the shortest row.  Fuel is
the first row's length, an upper bound on the minimum. -/
def transposeGo {α : Type} (fuel : Nat) (rows : List (List α)) : List (List α) :=
  match fuel with
  | 0 => []
  | fuel + 1 =>
    match rows.mapM List.head? with
    | none => []
    | some heads =>
      if rows.isEmpty then [] else heads :: transposeGo fuel (rows.map (List.drop 1))

/-- `zip(*rows)`. -/
def transposeMin {α : Type} (rows : List (List α)) : List (List α) :=
  transposeGo (((rows.head?).map List.length).getD 0) rows

/-- The `parse_freq` state with its nested `parse_modes` sub-state: a
`TransDip` line zips accumulated frequencies and transposed displacement
rows into frequency records (and skips the rest of the branch); any other
mode line appends one row of per-atom 3-tuples and then falls through to
the exit/`Frequency:`/header checks. -/
def stepFreq (c : JobCtx) (line : String) : Except String JobCtx := do
  if c.parse_modes && pyIn "TransDip" line then
    .ok { c with
            parse_modes := false,
            freqs := c.freqs ++
              ((c.vib_freqs.zip (transposeMin c.vib_modes)).map fun fm =>
                { frequency := fm.1, vib_mode := fm.2 }) }
  else do
    let c ←
      if c.parse_modes then
        match ((pySplitWs (pyStrip line)).drop 1).mapM pyFloat with
        | some dis_flat =>
          Except.ok { c with vib_modes := c.vib_modes ++ [group3 dis_flat] }
        | none => Except.error "ValueError: could not convert string to float"
      else Except.ok c
    if pyIn "STANDARD THERMODYNAMIC QUANTITIES" line || pyIn "Imaginary Frequencies" line then
      .ok { c with parse_freq := false }
    else if pyIn "Frequency:" line then
      match ((pySplitWs (pyStrip (pyStrip line))).drop 1).mapM pyFloat with
      | some vibs => .ok { c with vib_freqs := vibs }
      | none => .error "ValueError: could not convert string to float"
    else if pyIn "X      Y      Z" line then .ok { c with parse_modes := true }
    else .ok c

/-- The `parse_charge` state: a 20-dash separator closes the block (unless
still empty), headers and blank lines are skipped, and other lines append
the float in the third whitespace token to the active method's list. -/
def stepCharge (c : JobCtx) (line : String) : Except String JobCtx := do
  let fetch : Unit → Except String (String × List ℚ) := fun _ => do
    let method ←
      match c.pop_method with
      | some p => Except.ok p
      | none => Except.error "KeyError: None"
    let cur ←
      match alookup method c.charges with
      | some l => Except.ok l
      | none => Except.error "KeyError"
    Except.ok (method, cur)
  if pyIn dash20 line then do
    let mc ← fetch ()
    if mc.2.isEmpty then .ok c
    else .ok { c with pop_method := none, parse_charge := false }
  else if (pyStrip line) == "" || pyIn "Atom" line then .ok c
  else do
    let mc ← fetch ()
    match (pySplitWs line).get? 2 with
    | some tok =>
      match pyFloat tok with
      | some v => .ok { c with charges := aset mc.1 (mc.2 ++ [v]) c.charges }
      | none => .error "ValueError: could not convert string to float"
    | none => .error "IndexError: list index out of range"

/-- Idle-scan stage 1: spin multiplicity from the electron-count line. -/
def idleSpin (c : JobCtx) (line : String) : JobCtx :=
  if c.spin_multiplicity.isNone then
    match numEleSearch line with
    | some ab => { c with spin_multiplicity := some ((ab.1 : Int) - (ab.2 : Int) + 1) }
    | none => c
  else c

/-- Idle-scan stage 2: net molecular charge from the atomic-charge sum. -/
def idleCharge (c : JobCtx) (line : String) : JobCtx :=
  if c.charge.isNone then
    match totalChargeSearch line with
    | some q => { c with charge := some (truncQ q) }
    | none => c
  else c

/-- Idle-scan stage 3: zero-point energy and thermal corrections, only for
`freq` jobs. -/
def idleThermal (c : JobCtx) (line : String) : JobCtx :=
  if c.jobtype == some "freq" then
    let c2 :=
      match zpeSearch line with
      | some zpe => { c with thermal_corr := aset "ZPE" zpe c.thermal_corr }
      | none => c
    match thermalCorrSearch line with
    | some nv => { c2 with thermal_corr := aset nv.1 nv.2 c2.thermal_corr }
    | none => c2
  else c

/-- The name/energy scan of the idle branch: the correlation pattern
overrides the SCF one when its captured name is not `SCF`. -/
def idleNameEnergy (line : String) : Option (String × ℚ) :=
  let scf : Option (String × ℚ) := (scfEnergySearch line).map fun e => ("SCF", haToEv e)
  match corrEnergySearch line with
  | some nv => if nv.1 != "SCF" then some (nv.1, haToEv nv.2) else scf
  | none => scf

/-- Idle-scan stage 4: population-charge block entry. -/
def idlePopCharge (c : JobCtx) (line : String) : JobCtx :=
  match detailedChargeSearch line with
  | some method =>
    let m := pyLower method
    { c with pop_method := some m, parse_charge := true, charges := aset m [] c.charges }
  | none => c

/-- Idle-scan stage 5: append the scanned energy when both name and value
are truthy (`if name and energy:` — a zero value is falsy in Python). -/
def idleEnergy (c : JobCtx) (line : String) : JobCtx :=
  match idleNameEnergy line with
  | some nv =>
    if nv.1 != "" && nv.2 != 0 then { c with energies := c.energies ++ [nv] } else c
  | none => c

/-- Idle-scan stage 6: the state-entry sentinel chain. -/
def idleTransitions (c : JobCtx) (line : String) : JobCtx :=
  if pyIn "User input:" line then { c with parse_input := true }
  else if pyIn "Standard Nuclear Orientation (Angstroms)" line then
    { c with parse_coords := true }
  else if pyIn "Cycle       Energy         DIIS Error" line ||
      pyIn "Cycle       Energy        RMS Gradient" line then
    { c with parse_scf_iter := true, scf_iters := c.scf_iters ++ [[]],
             scf_successful := false }
  else if pyIn "Gradient of SCF Energy" line then
    { c with parse_gradient := true,
             gradients := c.gradients ++ [{ gradients := [] }] }
  else if pyIn "VIBRATIONAL ANALYSIS" line then { c with parse_freq := true }
  else if pyIn "Thank you very much for using Q-Chem." line then
    { c with properly_terminated := true }
  else if pyIn "OPTIMIZATION CONVERGED" line then { c with opt_successful := true }
  else c

/-- The out-of-state scan of `_parse_job` (the final `else` branch):
spin/charge extraction, `freq`-job thermal corrections, energy lines,
population-charge headers, and the state-entry sentinels, in source
order.  Total. -/
def stepIdle (c : JobCtx) (line : String) : JobCtx :=
  idleTransitions (idleEnergy (idlePopCharge (idleThermal (idleCharge (idleSpin c line)
    line) line) line) line) line

/-- The state dispatch of the loop body: the `if/elif` chain over the
mutually exclusive flags, after the error scan. -/
def stepDispatch (c : JobCtx) (line : String) : Except String JobCtx :=
  if c.parse_input then stepInput c line
  else if c.parse_coords then stepCoords c line
  else if c.parse_scf_iter then stepScfIter c line
  else if c.parse_gradient then stepGradient c line
  else if c.parse_freq then stepFreq c line
  else if c.parse_charge then stepCharge c line
  else .ok (stepIdle c line)

/-- One full loop iteration of `_parse_job`: every line is first scanned
against every error signature regardless of the active state, then
dispatched. -/
def stepLine (c : JobCtx) (line : String) : Except String JobCtx :=
  stepDispatch { c with errors := c.errors ++ errorScan line } line

/-! ## `QcOutput._parse_job`: post-pass and record -/

/-- The per-job result record. -/
structure QcJobRecord : Type where
  jobtype : Option String
  energies : List (String × ℚ)
  charges : List (String × List ℚ)
  corrections : List (String × ℚ)
  molecules : List PMolecule
  errors : List String
  has_error : Bool
  frequencies : List FreqRec
  gradients : List GradRec
  input : Option QcTask
  gracefully_terminated : Bool
  scf_iteration_energies : List (List (ℚ × ℚ))
  solvent_method : QcValue
deriving DecidableEq

/-- `QcOutput._expected_successful_pattern`: the jobtype-dependent list of
success patterns checked against the whole job text. -/
def expectedSuccessPatterns (t : QcTask) : List String :=
  let base := ["Convergence criterion met"]
  let withCC :=
    match alookup "correlation" t.rem with
    | some (.s corr) =>
      if pyIn "ccsd" corr || pyIn "qcisd" corr then base ++ ["CC.*converged"] else base
    | _ => base
  let jt := alookup "jobtype" t.rem
  let withOpt :=
    if jt == some (.s "opt") || jt == some (.s "ts") then withCC ++ ["OPTIMIZATION CONVERGED"]
    else withCC
  let withFreq :=
    if jt == some (.s "freq") then withOpt ++ ["VIBRATIONAL ANALYSIS"] else withOpt
  if jt == some (.s "gradient") then withFreq ++ ["Gradient of SCF Energy"] else withFreq

/-- `re.search(text, output)` for a success pattern: every pattern is a
literal except `CC.*converged`, whose dot does not cross newlines, so it
holds exactly when some line contains `CC` followed later by
`converged`. -/
def successPatternFound (pat : String) (output : String) : Bool :=
  if pat == "CC.*converged" then
    (pyLines output).any fun line =>
      (searchWith
        (fun l => do
          let r1 ← expectLit "CC" l
          if containsSub "converged".data r1 then some () else none)
        line.data).isSome
  else pyIn pat output

/-- The charge/spin presence errors of the post-loop phase. -/
def postErrors1 (c : JobCtx) : List String :=
  if c.charge.isNone then c.errors ++ ["Molecular charge is not found"]
  else if c.spin_multiplicity.isNone then
    c.errors ++ ["Molecular spin multipilicity is not found"]
  else c.errors

/-- The stamped molecules of the post-loop phase: stamping is skipped when
charge or spin was never found. -/
def postMolecules (c : JobCtx) : List PMolecule :=
  if c.charge.isNone || c.spin_multiplicity.isNone then c.molecules
  else c.molecules.map fun m => setChargeSpin m (c.charge.getD 0) (c.spin_multiplicity.getD 0)

/-- Thermal-correction unit conversion (entropy-like keys scaled by an
extra 1e-3). -/
def postCorrections (c : JobCtx) : List (String × ℚ) :=
  c.thermal_corr.map fun kv =>
    if pyIn "Entropy" kv.1 then (kv.1, kv.2 * kcalPerMol2eV * (1 / 1000))
    else (kv.1, kv.2 * kcalPerMol2eV)

/-- The solvent method read from the echoed input, default `"NA"`. -/
def postSolvent (c : JobCtx) : QcValue :=
  match c.qctask with
  | some t =>
    match alookup "solvent_method" t.rem with
    | some v => v
    | none => .s "NA"
  | none => .s "NA"

/-- The error list after the `No input text` append for a missing echoed
input. -/
def postErrors2 (c : JobCtx) : List String :=
  match c.qctask with
  | some _ => postErrors1 c
  | none => postErrors1 c ++ ["No input text"]

/-- The error list after the duplicate-guarded `Bad SCF convergence`
append. -/
def postErrors3 (c : JobCtx) : List String :=
  if !c.scf_successful && !((postErrors2 c).contains "Bad SCF convergence") then
    postErrors2 c ++ ["Bad SCF convergence"]
  else postErrors2 c

/-- The error list after the duplicate-guarded
`Geometry optimization failed` append for `opt` jobs. -/
def postErrors4 (c : JobCtx) : List String :=
  if c.jobtype == some "opt" && !c.opt_successful &&
      !((postErrors3 c).contains "Geometry optimization failed") then
    postErrors3 c ++ ["Geometry optimization failed"]
  else postErrors3 c

/-- The final error list: when no error was recorded, every expected
success pattern absent from the whole job text appends a generic error;
reading the patterns off a missing echoed task would raise. -/
def postErrors5 (c : JobCtx) (output : String) : Except String (List String) :=
  if (postErrors4 c).isEmpty then
    match c.qctask with
    | some t =>
      .ok (postErrors4 c ++
        ((expectedSuccessPatterns t).filter fun pat =>
            !(successPatternFound pat output)).map
          fun _ => "Can't find text to indicate success")
    | none => .error "AttributeError: NoneType has no attribute params"
  else .ok (postErrors4 c)

/-- The post-loop phase of `_parse_job`: charge/spin presence errors or
molecule stamping, thermal-correction unit conversion, solvent method,
the guarded error appends, the expected-success scan, and the result
record (whose `has_error` field is computed from the final error
list). -/
def postPass (c : JobCtx) (output : String) : Except String QcJobRecord :=
  (postErrors5 c output).map fun errs =>
    { jobtype := c.jobtype
      energies := c.energies
      charges := c.charges
      corrections := postCorrections c
      molecules := postMolecules c
      errors := errs
      has_error := errs.length > 0
      frequencies := c.freqs
      gradients := c.gradients
      input := c.qctask
      gracefully_terminated := c.properly_terminated
      scf_iteration_energies := c.scf_iters
      solvent_method := postSolvent c }

/-- `QcOutput._parse_job`: split the chunk into lines, run the loop, and
build the result record. -/
def qcParseJob (output : String) : Except String QcJobRecord := do
  let c ← (pyLines output).foldlM stepLine ({} : JobCtx)
  postPass c output

/-! ## `QcInput`: the multi-job container -/

/-- An element of the `jobs` list passed to `QcInput`: a `QcTask` or some
other Python object. -/
inductive QcJobsItem : Type
  | task (t : QcTask)
  | other
deriving DecidableEq

/-- The `QcInput` state: `jobs` is `none` while the attribute has never
been assigned (the assignment sits inside the validation loop, so an
empty list leaves it unset). -/
structure QcInputState : Type where
  jobs : Option (List QcTask)
deriving DecidableEq

/-- `QcInput.__init__` on a list argument: each element is checked to be a
`QcTask` (else `ValueError`), and `self.jobs` is assigned inside the loop
body, so zero iterations never assign it. -/
def qcInputInitGo (allJobs : List QcTask) (st : QcInputState) :
    List QcJobsItem → Except String QcInputState
  | [] => .ok st
  | .other :: _ => .error "jobs must be a list QcInput object"
  | .task _ :: rest => qcInputInitGo allJobs { jobs := some allJobs } rest

/-- The `QcTask` payload of a jobs-list element. -/
def jobsItemTask : QcJobsItem → Option QcTask
  | .task t => some t
  | .other => none

/-- `QcInput.__init__` on a list argument. -/
def qcInputInit (jobs : List QcJobsItem) : Except String QcInputState :=
  qcInputInitGo (jobs.filterMap jobsItemTask) { jobs := none } jobs

/-- `QcInput.__str__`: fails with `AttributeError` when `jobs` was never
assigned, else joins the serialized jobs with the `@@@` separator. -/
def qcInputStr (st : QcInputState) : Except String String := do
  match st.jobs with
  | none => .error "AttributeError: QcInput instance has no attribute jobs"
  | some ts => do
    let texts ← ts.mapM qcTaskStr
    .ok (pyJoin "\n@@@\n\n\n" texts)

/-- `QcInput.to_dict`: also reads `self.jobs`, so it fails the same way on
an unassigned `jobs` attribute; the dictionary itself is modelled as the
task list. -/
def qcInputToDict (st : QcInputState) : Except String (List QcTask) :=
  match st.jobs with
  | none => .error "AttributeError: QcInput instance has no attribute jobs"
  | some ts => .ok ts

/-! ## Theorems: helper lemmas -/

/-- The validation loop of `QcInput.__init__` fails on any list containing
a non-`QcTask` element. -/
theorem qcInputInitGo_error (al : List QcTask) (st : QcInputState) :
    ∀ jobs : List QcJobsItem, QcJobsItem.other ∈ jobs →
      (qcInputInitGo al st jobs).isOk = false := by
  intro jobs
  induction jobs generalizing st with
  | nil => intro h; cases h
  | cons j rest ih =>
    intro h
    cases j with
    | other => rfl
    | task t =>
      apply ih
      rcases List.mem_cons.mp h with h1 | h2
      · cases h1
      · exact h2

/-- The validation loop assigns `jobs` on every iteration, so a nonempty
all-task list ends with the full list assigned. -/
theorem qcInputInitGo_tasks (al : List QcTask) :
    ∀ (ts : List QcTask) (st : QcInputState), ts ≠ [] →
      qcInputInitGo al st (ts.map QcJobsItem.task) = .ok { jobs := some al } := by
  intro ts
  induction ts with
  | nil => intro st h; exact absurd rfl h
  | cons t rest ih =>
    intro st _
    show qcInputInitGo al { jobs := some al } (rest.map QcJobsItem.task) = _
    cases rest with
    | nil => rfl
    | cons t2 r2 => exact ih { jobs := some al } (by simp)

/-- Extracting the payloads of a pure task list is the identity. -/
theorem filterMap_jobsItemTask (ts : List QcTask) :
    (ts.map QcJobsItem.task).filterMap jobsItemTask = ts := by
  induction ts with
  | nil => rfl
  | cons t rest ih => simp [List.filterMap_cons, jobsItemTask, ih]

/-- A minimal serialized-shape task used as concrete input by witnesses. -/
def tinyTask : QcTask :=
  { mol := .read, charge := none, spin := none, comment := none,
    rem := [("exchange", .s "hf"), ("jobtype", .s "sp"), ("basis", .s "6-31+g*")],
    others := [] }

/-! ## Claim theorems -/

/-- C9: constructing a `QcInput` from a list with a non-`QcTask` element
raises; the empty list succeeds but never assigns the `jobs` attribute, so
serialization and `to_dict` subsequently fail; a nonempty list of tasks is
stored exactly in order. -/
theorem claim_C9 :
    (∀ jobs : List QcJobsItem, QcJobsItem.other ∈ jobs → (qcInputInit jobs).isOk = false) ∧
    (qcInputInit [] = .ok { jobs := none } ∧
      (qcInputStr { jobs := none }).isOk = false ∧
      (qcInputToDict { jobs := none }).isOk = false) ∧
    (∀ ts : List QcTask, ts ≠ [] →
      qcInputInit (ts.map QcJobsItem.task) = .ok { jobs := some ts }) := by
  refine ⟨fun jobs h => qcInputInitGo_error _ _ jobs h, ⟨rfl, rfl, rfl⟩, fun ts h => ?_⟩
  unfold qcInputInit
  rw [filterMap_jobsItemTask]
  exact qcInputInitGo_tasks ts ts _ h

/-- C9 witness: a list containing a non-task fails; a singleton task list
is stored as-is. -/
theorem claim_C9_witness :
    (qcInputInit [QcJobsItem.other]).isOk = false ∧
    qcInputInit [QcJobsItem.task tinyTask] = .ok { jobs := some [tinyTask] } :=
  ⟨claim_C9.1 [QcJobsItem.other] (by simp),
   claim_C9.2.2 [tinyTask] (by simp)⟩

/-- C10: every result record returned by the run-log parser has
`has_error` true exactly when its accumulated error list is nonempty. -/
theorem claim_C10 (output : String) (r : QcJobRecord) (h : qcParseJob output = .ok r) :
    r.has_error = true ↔ r.errors ≠ [] := by
  unfold qcParseJob at h
  simp only [bind, Except.bind] at h
  split at h
  · exact absurd h (by simp)
  · unfold postPass at h
    cases he : postErrors5 _ output with
    | error e => rw [he] at h; simp [Except.map] at h
    | ok errs =>
      rw [he] at h
      simp only [Except.map, Except.ok.injEq] at h
      subst h
      simp only [decide_eq_true_eq]
      constructor
      · intro hp hn; rw [hn] at hp; simp at hp
      · exact List.length_pos.mpr

/-- The concrete record the empty log parses to, for the C10 witness. -/
def c10Record : QcJobRecord :=
  ((qcParseJob "").toOption).getD
    { jobtype := none, energies := [], charges := [], corrections := [], molecules := [],
      errors := [], has_error := false, frequencies := [], gradients := [], input := none,
      gracefully_terminated := false, scf_iteration_energies := [], solvent_method := .s "" }

/-- C10 witness: the record of the empty log satisfies the equivalence. -/
theorem claim_C10_witness : c10Record.has_error = true ↔ c10Record.errors ≠ [] :=
  claim_C10 "" c10Record (by rfl)

/-- The molecule/charge/spin phase on a molecule with explicit charge and
spin reduces to the parity test of the source (`(nelectrons +
spin_multiplicity) % 2 != 1`). -/
theorem initMolChargeSpin_mol_some (m : PMolecule) (charge spin : Int) :
    initMolChargeSpin (.mol m) (some charge) (some spin) =
      if (m.charge + molNelectrons m - charge + spin) % 2 = 1 then
        .ok { mol := .mol (setChargeSpin m charge spin), charge := some charge,
              spin := some spin }
      else .error "Charge and spin multiplicity is not possible for this molecule" := by
  unfold initMolChargeSpin
  simp only [bind, Except.bind, Option.getD, bne_iff_ne, ne_eq, ite_not]
  by_cases hp : (m.charge + molNelectrons m - charge + spin) % 2 = 1
  · simp only [if_pos hp]; rfl
  · simp only [if_neg hp]

/-- C2: with default settings, constructing a task from an explicit
molecule with a given charge and an explicitly supplied spin multiplicity
succeeds exactly when `(electrons + spin) mod 2 = 1`, where the electron
count is the sum of the molecule's atomic numbers minus the charge; on
success the given charge and spin are stored. -/
theorem claim_C2 (m : PMolecule) (charge spin : Int) :
    ((qcTaskInit (.mol m) (some charge) (some spin) "SP" none "HF" none
        (.qv (.s "6-31+G*")) none none none none).isOk = true ↔
      (((m.species.map PSpecies.zval).sum : Int) - charge + spin) % 2 = 1) ∧
    (∀ t, qcTaskInit (.mol m) (some charge) (some spin) "SP" none "HF" none
        (.qv (.s "6-31+G*")) none none none none = .ok t →
      t.charge = some charge ∧ t.spin = some spin) := by
  have hiff : (m.charge + molNelectrons m - charge + spin) % 2 = 1 ↔
      (((m.species.map PSpecies.zval).sum : Int) - charge + spin) % 2 = 1 := by
    rw [show m.charge + molNelectrons m - charge + spin =
      ((m.species.map PSpecies.zval).sum : Int) - charge + spin by
        unfold molNelectrons; omega]
  unfold qcTaskInit
  rw [initMolChargeSpin_mol_some]
  by_cases hp : (m.charge + molNelectrons m - charge + spin) % 2 = 1
  · rw [if_pos hp]
    simp only [bind, Except.bind]
    have hb : qcTaskBody
        { mol := .mol (setChargeSpin m charge spin), charge := some charge,
          spin := some spin } "SP" none "HF" none (.qv (.s "6-31+G*")) none none none none =
        .ok { mol := .mol (setChargeSpin m charge spin), charge := some charge,
              spin := some spin, comment := none,
              rem := [("exchange", .s "hf"), ("jobtype", .s "sp"), ("basis", .s "6-31+g*")],
              others := [] } := rfl
    rw [hb]
    refine ⟨⟨fun _ => hiff.mp hp, fun _ => rfl⟩, fun t ht => ?_⟩
    cases ht
    exact ⟨rfl, rfl⟩
  · rw [if_neg hp]
    simp only [bind, Except.bind]
    exact ⟨⟨fun h => by simp [Except.isOk, Except.toBool] at h,
      fun h => absurd (hiff.mpr h) hp⟩, fun t ht => by cases ht⟩

/-- A water molecule, concrete input for the C2 witness. -/
def h2oMol : PMolecule :=
  { species := [.sym "O", .sym "H", .sym "H"],
    coords := [(0, 0, 0), (0, 0, 1), (0, 1, 0)], charge := 0, spin := 1 }

/-- The task the C2 witness constructs. -/
def c2Task : QcTask :=
  ((qcTaskInit (.mol h2oMol) (some 0) (some 1) "SP" none "HF" none
      (.qv (.s "6-31+G*")) none none none none).toOption).getD tinyTask

/-- C2 witness: water with charge 0 and spin 1 (10 electrons, odd sum)
constructs successfully and stores both values. -/
theorem claim_C2_witness :
    (qcTaskInit (.mol h2oMol) (some 0) (some 1) "SP" none "HF" none
        (.qv (.s "6-31+G*")) none none none none).isOk = true ∧
    c2Task.charge = some 0 ∧ c2Task.spin = some 1 :=
  ⟨(claim_C2 h2oMol 0 1).1.mpr (by decide),
   (claim_C2 h2oMol 0 1).2 c2Task (by rfl)⟩

/-- A task whose molecule is `m`, base object for the setter claims. -/
def baseTaskOf (m : PMolecule) : QcTask :=
  { mol := .mol m, charge := some 0, spin := some 1, comment := none,
    rem := [("exchange", .s "hf"), ("jobtype", .s "sp"), ("basis", .s "6-31+g*")],
    others := [] }

/-- `contains` is membership, negative form. -/
theorem containsFalseIff (l : List String) (x : String) :
    (l.contains x = false) ↔ x ∉ l := by simp

/-- C3: on a molecule-backed task, setting an element-keyed basis (and
auxiliary basis) succeeds exactly when the stored (normalized) key set
equals the molecule's distinct element set, and setting an element-keyed
ECP succeeds exactly when every key is an element of the molecule.  The
key set is the one the setter stores: keys stripped and capitalized. -/
theorem claim_C3 (m : PMolecule) (bs : List (String × String)) :
    ((setBasisSet (baseTaskOf m) (.dict bs)).isOk = true ↔
      (∀ e, e ∈ molElements m ↔ e ∈ akeys (normElemDict bs))) ∧
    ((setAuxBasisSet (baseTaskOf m) (.dict bs)).isOk = true ↔
      (∀ e, e ∈ molElements m ↔ e ∈ akeys (normElemDict bs))) ∧
    ((setEcp (baseTaskOf m) (.dict bs)).isOk = true ↔
      (∀ e, e ∈ akeys (normElemDict bs) → e ∈ molElements m)) := by
  refine ⟨?_, ?_, ?_⟩
  · unfold setBasisSet baseTaskOf
    simp only [List.any_eq_true, Bool.not_eq_true', containsFalseIff]
    by_cases h1 : ∃ x ∈ molElements m, x ∉ akeys (normElemDict bs)
    · rw [if_pos h1]
      simp only [Except.isOk, Except.toBool]
      exact ⟨(fun h => Bool.noConfusion h), fun hiff =>
        absurd ((hiff h1.choose).mp h1.choose_spec.1) h1.choose_spec.2⟩
    · by_cases h2 : ∃ x ∈ akeys (normElemDict bs), x ∉ molElements m
      · rw [if_neg h1, if_pos h2]
        simp only [Except.isOk, Except.toBool]
        exact ⟨(fun h => Bool.noConfusion h), fun hiff =>
          absurd ((hiff h2.choose).mpr h2.choose_spec.1) h2.choose_spec.2⟩
      · rw [if_neg h1, if_neg h2]
        simp only [Except.isOk, Except.toBool, true_iff]
        push_neg at h1 h2
        exact fun e => ⟨fun he => h1 e he, fun he => h2 e he⟩
  · unfold setAuxBasisSet baseTaskOf
    simp only [List.any_eq_true, Bool.not_eq_true', containsFalseIff]
    by_cases h1 : ∃ x ∈ molElements m, x ∉ akeys (normElemDict bs)
    · rw [if_pos h1]
      simp only [Except.isOk, Except.toBool]
      exact ⟨(fun h => Bool.noConfusion h), fun hiff =>
        absurd ((hiff h1.choose).mp h1.choose_spec.1) h1.choose_spec.2⟩
    · by_cases h2 : ∃ x ∈ akeys (normElemDict bs), x ∉ molElements m
      · rw [if_neg h1, if_pos h2]
        simp only [Except.isOk, Except.toBool]
        exact ⟨(fun h => Bool.noConfusion h), fun hiff =>
          absurd ((hiff h2.choose).mpr h2.choose_spec.1) h2.choose_spec.2⟩
      · rw [if_neg h1, if_neg h2]
        simp only [Except.isOk, Except.toBool, true_iff]
        push_neg at h1 h2
        exact fun e => ⟨fun he => h1 e he, fun he => h2 e he⟩
  · unfold setEcp baseTaskOf
    simp only [List.any_eq_true, Bool.not_eq_true', containsFalseIff]
    by_cases h1 : ∃ x ∈ akeys (normElemDict bs), x ∉ molElements m
    · rw [if_pos h1]
      simp only [Except.isOk, Except.toBool]
      exact ⟨(fun h => Bool.noConfusion h), fun hall =>
        absurd (hall h1.choose h1.choose_spec.1) h1.choose_spec.2⟩
    · rw [if_neg h1]
      simp only [Except.isOk, Except.toBool, true_iff]
      push_neg at h1
      exact h1

/-- The parameter phase with all-default arguments and a read molecule
reduces to the jobtype vocabulary test; the stored `rem.jobtype` is the
lower-cased *original* argument, not the alias-normalized value used for
the test. -/
theorem qcTaskBody_default (jobtype : String) :
    qcTaskBody { mol := .read, charge := none, spin := none } jobtype none "HF" none
        (.qv (.s "6-31+G*")) none none none none =
      if availableJobtypes.contains (applyAlias aliasVals (pyLower jobtype)) = true then
        .ok { mol := .read, charge := none, spin := none, comment := none,
              rem := [("exchange", .s "hf"), ("jobtype", .s (pyLower jobtype)),
                      ("basis", .s "6-31+g*")],
              others := [] }
      else .error "Job type is not supported yet" := by
  unfold qcTaskBody
  by_cases hjt : availableJobtypes.contains (applyAlias aliasVals (pyLower jobtype)) = true
  · have h1 : (!availableJobtypes.contains (applyAlias aliasVals (pyLower jobtype))) = false := by
      rw [hjt]; rfl
    simp only [h1, hjt, if_pos, Bool.false_eq_true, if_false, bind, Except.bind]
    rfl
  · have hc : availableJobtypes.contains (applyAlias aliasVals (pyLower jobtype)) = false :=
      Bool.eq_false_iff.mpr hjt
    have h1 : (!availableJobtypes.contains (applyAlias aliasVals (pyLower jobtype))) = true := by
      rw [hc]; rfl
    simp only [h1, hc, if_pos, Bool.false_eq_true, if_false, bind, Except.bind]
    rfl

/-- C7 (amended): construction fails unless the lower-cased,
alias-normalized jobtype belongs to the fixed vocabulary; but the value
stored in `rem.jobtype` is the lower-cased original argument — aliases
are normalized for the membership test only, not for storage. -/
theorem claim_C7 (jobtype : String) :
    ((qcTaskInit .noneArg none none jobtype none "HF" none
        (.qv (.s "6-31+G*")) none none none none).isOk = true ↔
      availableJobtypes.contains (applyAlias aliasVals (pyLower jobtype)) = true) ∧
    (∀ t, qcTaskInit .noneArg none none jobtype none "HF" none
        (.qv (.s "6-31+G*")) none none none none = .ok t →
      remGet "jobtype" t = some (.s (pyLower jobtype))) := by
  unfold qcTaskInit
  rw [show initMolChargeSpin .noneArg none none =
    .ok { mol := .read, charge := none, spin := none } from rfl]
  simp only [bind, Except.bind]
  rw [qcTaskBody_default]
  by_cases hjt : availableJobtypes.contains (applyAlias aliasVals (pyLower jobtype)) = true
  · rw [if_pos hjt]
    refine ⟨⟨fun _ => hjt, fun _ => rfl⟩, fun t ht => ?_⟩
    cases ht
    rfl
  · rw [if_neg hjt]
    exact ⟨⟨fun h => by simp [Except.isOk, Except.toBool] at h, fun h => absurd h hjt⟩,
      fun t ht => by cases ht⟩

/-- C7 counterexample: constructing with jobtype `"optimization"` (an
alias of `"opt"`) succeeds but stores `rem.jobtype = "optimization"`, not
the normalized `"opt"` the claim asserts. -/
theorem claim_C7_counterexample :
    (qcTaskInit .noneArg none none "optimization" none "HF" none
        (.qv (.s "6-31+G*")) none none none none).map (remGet "jobtype") =
      .ok (some (.s "optimization")) ∧
    QcValue.s "optimization" ≠ QcValue.s "opt" :=
  ⟨rfl, by decide⟩

/-- The task the C7 witness constructs. -/
def c7Task : QcTask :=
  ((qcTaskInit .noneArg none none "Opt" none "HF" none
      (.qv (.s "6-31+G*")) none none none none).toOption).getD tinyTask

/-- C7 witness: jobtype `"Opt"` is in the vocabulary after lower-casing
and is stored lower-cased. -/
theorem claim_C7_witness :
    (qcTaskInit .noneArg none none "Opt" none "HF" none
        (.qv (.s "6-31+G*")) none none none none).isOk = true ∧
    remGet "jobtype" c7Task = some (.s "opt") :=
  ⟨(claim_C7 "Opt").1.mpr (by decide), (claim_C7 "Opt").2 c7Task rfl⟩

/-- The echoed-input state never touches the error list. -/
theorem stepInput_errors (c c' : JobCtx) (line : String)
    (h : stepInput c line = .ok c') : c'.errors = c.errors := by
  unfold stepInput at h
  simp only [bind, Except.bind] at h
  repeat' split at h
  all_goals (try cases h)
  all_goals rfl

/-- The coordinates state never touches the error list. -/
theorem stepCoords_errors (c c' : JobCtx) (line : String)
    (h : stepCoords c line = .ok c') : c'.errors = c.errors := by
  unfold stepCoords at h
  repeat' split at h
  all_goals (try cases h)
  all_goals rfl

/-- The SCF-iteration convergence flag update never touches the error
list. -/
theorem scfFlag_errors (c : JobCtx) (line : String) : (scfFlag c line).errors = c.errors := by
  unfold scfFlag; split
  all_goals rfl

/-- The SCF-iteration state never touches the error list. -/
theorem stepScfIter_errors (c c' : JobCtx) (line : String)
    (h : stepScfIter c line = .ok c') : c'.errors = c.errors := by
  unfold stepScfIter at h
  have hf := scfFlag_errors c line
  generalize hg : scfFlag c line = c2 at h hf
  repeat' split at h
  all_goals (try cases h)
  all_goals first | rfl | exact hf

/-- The gradient-block flush never touches the error list. -/
theorem gradFlush_errors (c c' : JobCtx) (h : gradFlush c = .ok c') : c'.errors = c.errors := by
  unfold gradFlush at h
  repeat' split at h
  all_goals (try cases h)
  all_goals rfl

/-- The gradient state never touches the error list. -/
theorem stepGradient_errors (c c' : JobCtx) (line : String)
    (h : stepGradient c line = .ok c') : c'.errors = c.errors := by
  unfold stepGradient at h
  simp only [bind, Except.bind] at h
  split at h
  · split at h
    · split at h
      · split at h
        · exact (gradFlush_errors _ _ h).trans rfl
        · cases h
      · cases h
    · cases h
  · split at h
    · repeat' split at h
      all_goals (try cases h)
      all_goals rfl
    · split at h
      · cases hg : gradFlush c with
        | error e => rw [hg] at h; cases h
        | ok v =>
          rw [hg] at h
          cases h
          show v.errors = c.errors
          exact gradFlush_errors _ _ hg
      · repeat' split at h
        all_goals (try cases h)
        all_goals rfl

/-- The frequency state never touches the error list. -/
theorem stepFreq_errors (c c' : JobCtx) (line : String)
    (h : stepFreq c line = .ok c') : c'.errors = c.errors := by
  unfold stepFreq at h
  simp only [bind, Except.bind] at h
  repeat' split at h
  all_goals (try cases h)
  all_goals rfl

/-- The population-charge state never touches the error list. -/
theorem stepCharge_errors (c c' : JobCtx) (line : String)
    (h : stepCharge c line = .ok c') : c'.errors = c.errors := by
  unfold stepCharge at h
  simp only [bind, Except.bind] at h
  repeat' split at h
  all_goals (try cases h)
  all_goals rfl

/-- Idle stage lemmas: no idle stage touches the error list. -/
theorem idleSpin_errors (c : JobCtx) (line : String) : (idleSpin c line).errors = c.errors := by
  unfold idleSpin; repeat' split
  all_goals rfl

/-- Charge extraction preserves the error list. -/
theorem idleCharge_errors (c : JobCtx) (line : String) :
    (idleCharge c line).errors = c.errors := by
  unfold idleCharge; repeat' split
  all_goals rfl

/-- Thermal-correction extraction preserves the error list. -/
theorem idleThermal_errors (c : JobCtx) (line : String) :
    (idleThermal c line).errors = c.errors := by
  unfold idleThermal; repeat' split
  all_goals rfl

/-- Population-charge entry preserves the error list. -/
theorem idlePopCharge_errors (c : JobCtx) (line : String) :
    (idlePopCharge c line).errors = c.errors := by
  unfold idlePopCharge; repeat' split
  all_goals rfl

/-- Energy extraction preserves the error list. -/
theorem idleEnergy_errors (c : JobCtx) (line : String) :
    (idleEnergy c line).errors = c.errors := by
  unfold idleEnergy; repeat' split
  all_goals rfl

/-- State transitions preserve the error list. -/
theorem idleTransitions_errors (c : JobCtx) (line : String) :
    (idleTransitions c line).errors = c.errors := by
  unfold idleTransitions; repeat' split
  all_goals rfl

/-- The idle scan never touches the error list. -/
theorem stepIdle_errors (c : JobCtx) (line : String) :
    (stepIdle c line).errors = c.errors := by
  unfold stepIdle
  rw [idleTransitions_errors, idleEnergy_errors, idlePopCharge_errors, idleThermal_errors,
    idleCharge_errors, idleSpin_errors]

/-- The state dispatch never touches the error list: only the line-initial
error scan appends to it. -/
theorem stepDispatch_errors (c c' : JobCtx) (line : String)
    (h : stepDispatch c line = .ok c') : c'.errors = c.errors := by
  unfold stepDispatch at h
  split at h
  · exact stepInput_errors _ _ _ h
  · split at h
    · exact stepCoords_errors _ _ _ h
    · split at h
      · exact stepScfIter_errors _ _ _ h
      · split at h
        · exact stepGradient_errors _ _ _ h
        · split at h
          · exact stepFreq_errors _ _ _ h
          · split at h
            · exact stepCharge_errors _ _ _ h
            · cases h; exact stepIdle_errors _ _

/-- On a successful step, the new error list is exactly the old one plus
the labels of the signatures the line matches, in order. -/
theorem stepLine_errors (c c' : JobCtx) (line : String)
    (h : stepLine c line = .ok c') : c'.errors = c.errors ++ errorScan line := by
  unfold stepLine at h
  exact stepDispatch_errors _ _ _ h

/-- A matching signature's label is among the scanned labels. -/
theorem errorScan_mem (d : (String → Bool) × String) (line : String)
    (hd : d ∈ errorDefs) (hm : d.1 line = true) : d.2 ∈ errorScan line := by
  unfold errorScan
  exact List.mem_map_of_mem _ (List.mem_filter.mpr ⟨hd, hm⟩)

/-- C5: whatever the active parser state, a line matching any of the fixed
error signatures gets the associated label appended: after any successful
step the error list is the old list extended by the labels of all matching
signatures, so each matching signature's label is present. -/
theorem claim_C5 (c c' : JobCtx) (line : String) (h : stepLine c line = .ok c') :
    c'.errors = c.errors ++ errorScan line ∧
    ∀ d ∈ errorDefs, d.1 line = true → d.2 ∈ c'.errors := by
  refine ⟨stepLine_errors _ _ _ h, fun d hd hm => ?_⟩
  rw [stepLine_errors _ _ _ h]
  exact List.mem_append_right _ (errorScan_mem d line hd hm)

/-- The context the C5 witness steps to: the SCF-iteration state fed a
`Convergence failure` line. -/
def c5Ctx : JobCtx :=
  ((stepLine { parse_scf_iter := true, scf_iters := [[]] } "Convergence failure").toOption).getD
    {}

/-- C5 witness: in the SCF-iteration state, a `Convergence failure` line
still appends `Bad SCF convergence`. -/
theorem claim_C5_witness :
    c5Ctx.errors = ({ parse_scf_iter := true, scf_iters := [[]] } : JobCtx).errors ++
      errorScan "Convergence failure" ∧
    "Bad SCF convergence" ∈ c5Ctx.errors :=
  have h := claim_C5 { parse_scf_iter := true, scf_iters := [[]] } c5Ctx
    "Convergence failure" (by rfl)
  ⟨h.1, h.2 (fun line => pyIn "Convergence failure" line, "Bad SCF convergence")
    (by simp [errorDefs]) (by decide)⟩

/-- Errors survive the charge/spin presence pass. -/
theorem postErrors1_mem (c : JobCtx) (x : String) (hx : x ∈ c.errors) :
    x ∈ postErrors1 c := by
  unfold postErrors1; repeat' split
  all_goals simp [hx]

/-- Errors survive the missing-input pass. -/
theorem postErrors2_mem (c : JobCtx) (x : String) (hx : x ∈ postErrors1 c) :
    x ∈ postErrors2 c := by
  unfold postErrors2; split
  all_goals simp [hx]

/-- Errors survive the SCF-convergence pass. -/
theorem postErrors3_mem (c : JobCtx) (x : String) (hx : x ∈ postErrors2 c) :
    x ∈ postErrors3 c := by
  unfold postErrors3; split
  all_goals simp [hx]

/-- Errors survive the optimization pass. -/
theorem postErrors4_mem (c : JobCtx) (x : String) (hx : x ∈ postErrors3 c) :
    x ∈ postErrors4 c := by
  unfold postErrors4; split
  all_goals simp [hx]

/-- Errors of the fourth stage survive the success-pattern pass. -/
theorem postErrors5_mem (c : JobCtx) (out : String) (errs : List String)
    (h : postErrors5 c out = .ok errs) (x : String) (hx : x ∈ postErrors4 c) : x ∈ errs := by
  unfold postErrors5 at h
  split at h
  · split at h
    · cases h
      exact List.mem_append_left _ hx
    · cases h
  · cases h
    exact hx

/-- Errors accumulated during the loop survive the whole post-pass. -/
theorem postErrorsAll_mem (c : JobCtx) (out : String) (errs : List String)
    (h : postErrors5 c out = .ok errs) (x : String) (hx : x ∈ c.errors) : x ∈ errs :=
  postErrors5_mem c out errs h x
    (postErrors4_mem c x (postErrors3_mem c x (postErrors2_mem c x (postErrors1_mem c x hx))))

/-- The loop only ever appends to the error list. -/
theorem parseLoop_errors_mono (lines : List String) :
    ∀ c0 c : JobCtx, lines.foldlM stepLine c0 = .ok c → ∃ ex, c.errors = c0.errors ++ ex := by
  induction lines with
  | nil => intro c0 c h; cases h; exact ⟨[], by simp⟩
  | cons l ls ih =>
    intro c0 c h
    simp only [List.foldlM_cons, bind, Except.bind] at h
    cases hs : stepLine c0 l with
    | error e => rw [hs] at h; cases h
    | ok c1 =>
      rw [hs] at h
      obtain ⟨ex, hex⟩ := ih c1 c h
      exact ⟨errorScan l ++ ex, by rw [hex, stepLine_errors _ _ _ hs]; simp⟩

/-- Any line's matching signature label reaches the loop's final error
list. -/
theorem parseLoop_errors_mem (lines : List String) :
    ∀ c0 c : JobCtx, lines.foldlM stepLine c0 = .ok c →
      ∀ line ∈ lines, ∀ d ∈ errorDefs, d.1 line = true → d.2 ∈ c.errors := by
  induction lines with
  | nil => intro c0 c _ line hline; cases hline
  | cons l ls ih =>
    intro c0 c h line hline d hd hm
    simp only [List.foldlM_cons, bind, Except.bind] at h
    cases hs : stepLine c0 l with
    | error e => rw [hs] at h; cases h
    | ok c1 =>
      rw [hs] at h
      rcases List.mem_cons.mp hline with h1 | h2
      · subst h1
        obtain ⟨ex, hex⟩ := parseLoop_errors_mono ls c1 c h
        rw [hex, stepLine_errors _ _ _ hs]
        exact List.mem_append_left _ (List.mem_append_right _ (errorScan_mem d line hd hm))
      · exact ih c1 c h line h2 d hd hm

/-- C4 (amended): whenever the parse of a chunk returns a record,
classified error conditions are accumulated as data in its errors list —
every line matching an error signature contributes its label.  The parse
is however not total: it can abort by raising on malformed extraction
content (see the counterexample). -/
theorem claim_C4 (output : String) (r : QcJobRecord) (h : qcParseJob output = .ok r) :
    ∀ line ∈ pyLines output, ∀ d ∈ errorDefs, d.1 line = true → d.2 ∈ r.errors := by
  intro line hline d hd hm
  unfold qcParseJob at h
  cases hf : (pyLines output).foldlM stepLine ({} : JobCtx) with
  | error e => rw [hf] at h; simp only [bind, Except.bind] at h; cases h
  | ok c =>
    rw [hf] at h
    simp only [bind, Except.bind] at h
    unfold postPass at h
    cases he : postErrors5 c output with
    | error e => rw [he] at h; simp [Except.map] at h
    | ok errs =>
      rw [he] at h
      simp only [Except.map, Except.ok.injEq] at h
      subst h
      exact postErrorsAll_mem c output errs he d.2
        (parseLoop_errors_mem _ _ _ hf line hline d hd hm)

/-- C4 counterexample: a chunk entering the coordinates state whose next
line does not match the coordinate pattern makes `_parse_job` raise
(`m.group` on a failed match), so the parse does not always return a
record. -/
theorem claim_C4_counterexample :
    (qcParseJob "Standard Nuclear Orientation (Angstroms)\njunk").isOk = false := by rfl

/-- The record of the C4 witness chunk. -/
def c4Record : QcJobRecord :=
  ((qcParseJob "Convergence failure").toOption).getD
    { jobtype := none, energies := [], charges := [], corrections := [], molecules := [],
      errors := [], has_error := false, frequencies := [], gradients := [], input := none,
      gracefully_terminated := false, scf_iteration_energies := [], solvent_method := .s "" }

/-- C4 witness: a chunk consisting of a `Convergence failure` line yields
a record whose errors contain the associated label. -/
theorem claim_C4_witness : "Bad SCF convergence" ∈ c4Record.errors :=
  claim_C4 "Convergence failure" c4Record (by rfl) "Convergence failure" (by decide)
    (fun line => pyIn "Convergence failure" line, "Bad SCF convergence")
    (by simp [errorDefs]) (by decide)

/-- The invariant of a log with no charge line and no convergence marker:
charge never found, SCF never marked successful. -/
def noChargeNoScf (c : JobCtx) : Prop := c.charge = none ∧ c.scf_successful = false

/-- The echoed-input state touches neither charge nor the SCF flag. -/
theorem stepInput_pres (c c' : JobCtx) (line : String) (h : stepInput c line = .ok c')
    (hp : noChargeNoScf c) : noChargeNoScf c' := by
  unfold stepInput at h
  simp only [bind, Except.bind] at h
  repeat' split at h
  all_goals (try cases h)
  all_goals exact hp

/-- The coordinates state touches neither charge nor the SCF flag. -/
theorem stepCoords_pres (c c' : JobCtx) (line : String) (h : stepCoords c line = .ok c')
    (hp : noChargeNoScf c) : noChargeNoScf c' := by
  unfold stepCoords at h
  repeat' split at h
  all_goals (try cases h)
  all_goals exact hp

/-- Without a convergence-met line, the SCF-iteration state preserves the
invariant. -/
theorem stepScfIter_pres (c c' : JobCtx) (line : String) (h : stepScfIter c line = .ok c')
    (hm : pyIn "Convergence criterion met" line = false)
    (hp : noChargeNoScf c) : noChargeNoScf c' := by
  unfold stepScfIter at h
  have hf : scfFlag c line = c := by unfold scfFlag; simp [hm]
  rw [hf] at h
  repeat' split at h
  all_goals (try cases h)
  all_goals exact hp

/-- The gradient flush touches neither charge nor the SCF flag. -/
theorem gradFlush_pres (c c' : JobCtx) (h : gradFlush c = .ok c')
    (hp : noChargeNoScf c) : noChargeNoScf c' := by
  unfold gradFlush at h
  repeat' split at h
  all_goals (try cases h)
  all_goals exact hp

/-- The gradient state touches neither charge nor the SCF flag. -/
theorem stepGradient_pres (c c' : JobCtx) (line : String) (h : stepGradient c line = .ok c')
    (hp : noChargeNoScf c) : noChargeNoScf c' := by
  unfold stepGradient at h
  simp only [bind, Except.bind] at h
  split at h
  · split at h
    · split at h
      · split at h
        · exact gradFlush_pres _ _ h hp
        · cases h
      · cases h
    · cases h
  · split at h
    · repeat' split at h
      all_goals (try cases h)
      all_goals exact hp
    · split at h
      · cases hg : gradFlush c with
        | error e => rw [hg] at h; cases h
        | ok v =>
          rw [hg] at h
          cases h
          have hv := gradFlush_pres _ _ hg hp
          exact ⟨hv.1, hv.2⟩
      · repeat' split at h
        all_goals (try cases h)
        all_goals exact hp

/-- The frequency state touches neither charge nor the SCF flag. -/
theorem stepFreq_pres (c c' : JobCtx) (line : String) (h : stepFreq c line = .ok c')
    (hp : noChargeNoScf c) : noChargeNoScf c' := by
  unfold stepFreq at h
  simp only [bind, Except.bind] at h
  repeat' split at h
  all_goals (try cases h)
  all_goals exact hp

/-- The population-charge state touches neither charge nor the SCF
flag. -/
theorem stepCharge_pres (c c' : JobCtx) (line : String) (h : stepCharge c line = .ok c')
    (hp : noChargeNoScf c) : noChargeNoScf c' := by
  unfold stepCharge at h
  simp only [bind, Except.bind] at h
  repeat' split at h
  all_goals (try cases h)
  all_goals exact hp

/-- Without a charge-sum line, the idle scan preserves the invariant (its
only SCF-flag write is the reset to false on a cycle header). -/
theorem stepIdle_pres (c : JobCtx) (line : String)
    (hq : totalChargeSearch line = none)
    (hp : noChargeNoScf c) : noChargeNoScf (stepIdle c line) := by
  unfold stepIdle
  have h1 : noChargeNoScf (idleSpin c line) := by
    unfold idleSpin; repeat' split
    all_goals exact hp
  have h2 : noChargeNoScf (idleCharge (idleSpin c line) line) := by
    unfold idleCharge; rw [hq]
    repeat' split
    all_goals first | exact h1 | simp_all
  have h3 : noChargeNoScf (idleThermal (idleCharge (idleSpin c line) line) line) := by
    unfold idleThermal; repeat' split
    all_goals exact h2
  have h4 : noChargeNoScf (idlePopCharge (idleThermal (idleCharge (idleSpin c line) line)
      line) line) := by
    unfold idlePopCharge; repeat' split
    all_goals exact h3
  have h5 : noChargeNoScf (idleEnergy (idlePopCharge (idleThermal (idleCharge
      (idleSpin c line) line) line) line) line) := by
    unfold idleEnergy; repeat' split
    all_goals exact h4
  unfold idleTransitions
  repeat' split
  all_goals first
    | exact h5
    | exact ⟨h5.1, rfl⟩

/-- One full step preserves the invariant under the two line
hypotheses. -/
theorem stepLine_pres (c c' : JobCtx) (line : String) (h : stepLine c line = .ok c')
    (hq : totalChargeSearch line = none)
    (hm : pyIn "Convergence criterion met" line = false)
    (hp : noChargeNoScf c) : noChargeNoScf c' := by
  unfold stepLine stepDispatch at h
  have hp2 : noChargeNoScf { c with errors := c.errors ++ errorScan line } := hp
  generalize hg : ({ c with errors := c.errors ++ errorScan line } : JobCtx) = c2 at h hp2
  split at h
  · exact stepInput_pres _ _ _ h hp2
  · split at h
    · exact stepCoords_pres _ _ _ h hp2
    · split at h
      · exact stepScfIter_pres _ _ _ h hm hp2
      · split at h
        · exact stepGradient_pres _ _ _ h hp2
        · split at h
          · exact stepFreq_pres _ _ _ h hp2
          · split at h
            · exact stepCharge_pres _ _ _ h hp2
            · cases h; exact stepIdle_pres _ _ hq hp2

/-- The whole loop preserves the invariant over such a log. -/
theorem parseLoop_pres (lines : List String) :
    ∀ c0 c : JobCtx,
      (∀ l ∈ lines, totalChargeSearch l = none ∧ pyIn "Convergence criterion met" l = false) →
      lines.foldlM stepLine c0 = .ok c → noChargeNoScf c0 → noChargeNoScf c := by
  induction lines with
  | nil => intro c0 c _ h hp; cases h; exact hp
  | cons l ls ih =>
    intro c0 c hl h hp
    simp only [List.foldlM_cons, bind, Except.bind] at h
    cases hs : stepLine c0 l with
    | error e => rw [hs] at h; cases h
    | ok c1 =>
      rw [hs] at h
      have hli := hl l (List.mem_cons_self l ls)
      exact ih c1 c (fun x hx => hl x (List.mem_cons_of_mem l hx)) h
        (stepLine_pres c0 c1 l hs hli.1 hli.2 hp)

/-- A never-found charge contributes its label in the post-pass. -/
theorem postErrors1_charge (c : JobCtx) (hc : c.charge = none) :
    "Molecular charge is not found" ∈ postErrors1 c := by
  unfold postErrors1
  rw [hc]
  simp

/-- An unsuccessful SCF contributes its label in the post-pass, whether or
not it was already scanned. -/
theorem postErrors3_badscf (c : JobCtx) (hs : c.scf_successful = false) :
    "Bad SCF convergence" ∈ postErrors3 c := by
  unfold postErrors3
  rw [hs]
  by_cases hc : (postErrors2 c).contains "Bad SCF convergence" = true
  · simp only [hc, Bool.not_true, Bool.and_false, Bool.false_eq_true, if_false]
    simpa using hc
  · have hc2 : (postErrors2 c).contains "Bad SCF convergence" = false := Bool.eq_false_iff.mpr hc
    simp only [hc2, Bool.not_false, Bool.and_true, if_true]
    simp

/-- C6: a log with no line matching the atomic-charge-sum pattern and no
`Convergence criterion met` marker yields (when a record is returned) an
errors list containing both `Molecular charge is not found` and
`Bad SCF convergence`. -/
theorem claim_C6 (output : String) (r : QcJobRecord)
    (hq : ∀ line ∈ pyLines output, totalChargeSearch line = none)
    (hm : ∀ line ∈ pyLines output, pyIn "Convergence criterion met" line = false)
    (h : qcParseJob output = .ok r) :
    "Molecular charge is not found" ∈ r.errors ∧ "Bad SCF convergence" ∈ r.errors := by
  unfold qcParseJob at h
  cases hf : (pyLines output).foldlM stepLine ({} : JobCtx) with
  | error e => rw [hf] at h; simp only [bind, Except.bind] at h; cases h
  | ok c =>
    rw [hf] at h
    simp only [bind, Except.bind] at h
    unfold postPass at h
    cases he : postErrors5 c output with
    | error e => rw [he] at h; simp [Except.map] at h
    | ok errs =>
      rw [he] at h
      simp only [Except.map, Except.ok.injEq] at h
      subst h
      have hcs : noChargeNoScf c :=
        parseLoop_pres _ _ _ (fun l hl => ⟨hq l hl, hm l hl⟩) hf ⟨rfl, rfl⟩
      constructor
      · exact postErrors5_mem c output errs he _
          (postErrors4_mem c _ (postErrors3_mem c _ (postErrors2_mem c _
            (postErrors1_charge c hcs.1))))
      · exact postErrors5_mem c output errs he _
          (postErrors4_mem c _ (postErrors3_badscf c hcs.2))

/-- The record of the C6 witness log. -/
def c6Record : QcJobRecord :=
  ((qcParseJob "some uneventful log line").toOption).getD
    { jobtype := none, energies := [], charges := [], corrections := [], molecules := [],
      errors := [], has_error := false, frequencies := [], gradients := [], input := none,
      gracefully_terminated := false, scf_iteration_energies := [], solvent_method := .s "" }

/-- C6 witness: a one-line log with neither marker carries both labels. -/
theorem claim_C6_witness :
    "Molecular charge is not found" ∈ c6Record.errors ∧
    "Bad SCF convergence" ∈ c6Record.errors :=
  claim_C6 "some uneventful log line" c6Record
    (by intro line hl; fin_cases hl <;> decide)
    (by intro line hl; fin_cases hl <;> decide)
    (by rfl)

/-- An opener for a section whose name is already among the parsed params
always raises: `$end` and empty names fail the format check, unknown names
fail the keyword check, and known names fail the duplicate check. -/
theorem fsStep_dup (st : FsSt) (line name : String)
    (hps : st.parse_section = false)
    (hah : ahas name st.params = true)
    (hl : pyLower (pyStrip line) = "$" ++ name) :
    ∃ e, fsStep st line = Except.error e := by
  have hdata : (pyLower (pyStrip line)).data = '$' :: name.data := by
    rw [hl, String.data_append]; rfl
  have hne : (pyLower (pyStrip line) == "") = false := by
    apply beq_eq_false_iff_ne.mpr
    intro h
    have := congrArg String.data h
    rw [hdata] at this
    cases this
  unfold fsStep
  simp only [hne, hps, Bool.not_false, Bool.false_eq_true, if_false, if_true]
  by_cases hend : name = "end"
  · subst hend
    have h2 : (pyLower (pyStrip line) == "$end") = true := by
      apply beq_iff_eq.mpr
      apply String.ext
      rw [hdata]
    rw [h2]
    exact ⟨_, rfl⟩
  · have h2 : (pyLower (pyStrip line) == "$end") = false := by
      apply beq_eq_false_iff_ne.mpr
      intro h
      have := congrArg String.data h
      rw [hdata] at this
      exact hend (String.ext (List.cons_injective this))
    have h3 : pyStarts (pyLower (pyStrip line)) "$" = true := by
      unfold pyStarts
      rw [hdata]
      simp [List.isPrefixOf]
    have h4 : chStr ((pyLower (pyStrip line)).data.drop 1) = name := by
      rw [hdata]; rfl
    rw [h2, h3]
    simp only [Bool.true_eq_false, if_false, Bool.not_true, Bool.false_eq_true]
    rw [h4]
    by_cases h5 : availableSections.contains name = true
    · rw [h5]
      simp only [Bool.not_true, Bool.false_eq_true, if_false]
      rw [hah]
      exact ⟨_, rfl⟩
    · rw [Bool.eq_false_iff.mpr h5]
      exact ⟨_, rfl⟩

/-- An input with two `$molecule` sections. -/
def c8DupMolecule : String :=
  "$molecule\n read\n$end\n$molecule\n read\n$end\n$rem\n jobtype = sp\n exchange = hf\n basis = 6-31+g*\n$end"

/-- A molecule-then-rem input. -/
def c8OrderA : String :=
  "$molecule\n read\n$end\n$rem\n jobtype = sp\n exchange = hf\n basis = 6-31+g*\n$end"

/-- The same two sections in the other order. -/
def c8OrderB : String :=
  "$rem\n jobtype = sp\n exchange = hf\n basis = 6-31+g*\n$end\n$molecule\n read\n$end"

/-- C8 counterexample: an input in which the section name `molecule`
appears twice parses successfully — the molecule section is stored outside
`params`, so the duplicate check never sees it. -/
theorem claim_C8_counterexample : (qcTaskFromString c8DupMolecule).isOk = true := by rfl

/-- C8: a duplicated section name makes the parse fail when the first
occurrence was recorded in `params` (every section except `molecule`); a
section still open at end of input makes the parse fail; and the two-section
input is accepted in either order with the same resulting task. -/
theorem claim_C8 :
    (∀ pre line rest name (st : FsSt),
        pre.foldlM fsStep fsInit = Except.ok st →
        st.parse_section = false →
        ahas name st.params = true →
        pyLower (pyStrip line) = "$" ++ name →
        (fromStringLines (pre ++ line :: rest)).isOk = false) ∧
    (∀ lines (st : FsSt), lines.foldlM fsStep fsInit = Except.ok st →
        st.parse_section = true →
        (fromStringLines lines).isOk = false) ∧
    (qcTaskFromString c8OrderA = qcTaskFromString c8OrderB ∧
     (qcTaskFromString c8OrderA).isOk = true) := by
  refine ⟨?_, ?_, by rfl, by rfl⟩
  · intro pre line rest name st hf hps hah hl
    obtain ⟨e, he⟩ := fsStep_dup st line name hps hah hl
    unfold fromStringLines
    rw [List.foldlM_append, hf]
    simp only [bind, Except.bind, List.foldlM_cons]
    rw [he]
    simp [Except.isOk, Except.toBool]
  · intro lines st hf hps
    unfold fromStringLines
    rw [hf]
    simp only [bind, Except.bind]
    unfold fsFinish
    rw [hps]
    simp [Except.isOk, Except.toBool]

/-- The loop state after a complete comment section. -/
def c8DupState : FsSt :=
  ((["$comment", " t", "$end"].foldlM fsStep fsInit).toOption).getD fsInit

/-- The loop state after a bare `$rem` opener. -/
def c8OpenState : FsSt :=
  ((["$rem"].foldlM fsStep fsInit).toOption).getD fsInit

/-- C8 witness: a repeated `$comment` section fails, and an unterminated
`$rem` section fails. -/
theorem claim_C8_witness :
    (fromStringLines (["$comment", " t", "$end"] ++ "$comment" :: [])).isOk = false ∧
    (fromStringLines ["$rem"]).isOk = false :=
  ⟨claim_C8.1 ["$comment", " t", "$end"] "$comment" [] "comment" c8DupState
      (by rfl) (by rfl) (by rfl) (by rfl),
   claim_C8.2.1 ["$rem"] c8OpenState (by rfl) (by rfl)⟩

/-! ## Round-trip support: character-level and table lemmas -/

/-- Leading spaces are consumed by the whitespace `dropWhile`. -/
theorem dropWhile_spaces (n : Nat) (l : List Char) :
    (spacesN n ++ l).dropWhile pyIsSpace = l.dropWhile pyIsSpace := by
  induction n with
  | zero => rfl
  | succ m ih =>
    simp only [spacesN, List.replicate_succ, List.cons_append, List.dropWhile_cons]
    simpa [pyIsSpace] using ih

/-- Stripping ignores a run of leading spaces. -/
theorem stripChars_pad (n : Nat) (l : List Char) :
    stripChars (spacesN n ++ l) = stripChars l := by
  unfold stripChars
  rw [dropWhile_spaces]

/-- A split always yields at least one fragment. -/
theorem splitOnCh_ne_nil (sep : Char) (l : List Char) : splitOnCh sep l ≠ [] := by
  cases l with
  | nil => simp [splitOnCh]
  | cons c rest =>
    unfold splitOnCh
    split
    · simp
    · split <;> simp

/-- Unfolding equation of `splitOnCh`. -/
theorem splitOnCh_cons (sep c : Char) (rest : List Char) :
    splitOnCh sep (c :: rest) =
      if c == sep then [] :: splitOnCh sep rest
      else
        match splitOnCh sep rest with
        | [] => [[c]]
        | h :: t => (c :: h) :: t := rfl

/-- Splitting distributes over a separator occurrence. -/
theorem splitOnCh_append (sep : Char) (xs ys : List Char) :
    splitOnCh sep (xs ++ sep :: ys) = splitOnCh sep xs ++ splitOnCh sep ys := by
  induction xs with
  | nil => simp [splitOnCh]
  | cons c rest ih =>
    by_cases hc : (c == sep) = true
    · rw [List.cons_append, splitOnCh_cons, splitOnCh_cons, if_pos hc, if_pos hc, ih,
        List.cons_append]
    · have hc' : (c == sep) = false := Bool.eq_false_iff.mpr hc
      rw [List.cons_append, splitOnCh_cons, splitOnCh_cons, if_neg hc, if_neg hc, ih]
      cases hs : splitOnCh sep rest with
      | nil => exact absurd hs (splitOnCh_ne_nil sep rest)
      | cons h t => simp

/-- A separator-free list is one fragment. -/
theorem splitOnCh_no_sep (sep : Char) (l : List Char) (h : l.contains sep = false) :
    splitOnCh sep l = [l] := by
  induction l with
  | nil => rfl
  | cons c rest ih =>
    simp only [List.contains_cons, Bool.or_eq_false_iff] at h
    unfold splitOnCh
    rw [if_neg (by simp [BEq.comm] at h ⊢; exact fun hh => by simp [hh] at h)]
    rw [ih h.2]

/-- Unfolding equation of `alookup`. -/
theorem alookup_cons {α : Type} (k2 q : String) (v2 : α) (t : List (String × α)) :
    alookup q ((k2, v2) :: t) = if k2 == q then some v2 else alookup q t := rfl

/-- Unfolding equation of `aset`. -/
theorem aset_cons {α : Type} (k k2 : String) (v v2 : α) (t : List (String × α)) :
    aset k v ((k2, v2) :: t) = if k2 == k then (k, v) :: t else (k2, v2) :: aset k v t := rfl

/-- Lookup after assignment. -/
theorem alookup_aset {α : Type} (k q : String) (v : α) (d : List (String × α)) :
    alookup q (aset k v d) = if k == q then some v else alookup q d := by
  induction d with
  | nil => rfl
  | cons kv t ih =>
    obtain ⟨k2, v2⟩ := kv
    rw [aset_cons]
    by_cases h1 : (k2 == k) = true
    · have hek : k2 = k := by simpa using h1
      subst hek
      rw [if_pos h1, alookup_cons, alookup_cons]
      by_cases h2 : (k2 == q) = true <;> simp [h2]
    · rw [if_neg h1, alookup_cons, alookup_cons, ih]
      by_cases h2 : (k2 == q) = true <;> by_cases h3 : (k == q) = true <;>
        simp_all [beq_iff_eq]

/-- A successful lookup is a member. -/
theorem alookup_mem {α : Type} (q : String) (v : α) (d : List (String × α))
    (h : alookup q d = some v) : (q, v) ∈ d := by
  induction d with
  | nil => cases h
  | cons kv t ih =>
    obtain ⟨k2, v2⟩ := kv
    rw [alookup_cons] at h
    by_cases h2 : (k2 == q) = true
    · rw [if_pos h2] at h
      cases h
      have : k2 = q := by simpa using h2
      subst this
      exact List.mem_cons_self _ _
    · rw [if_neg h2] at h
      exact List.mem_cons_of_mem _ (ih h)

/-- Lookup misses keys absent from the key list. -/
theorem alookup_none_of_not_mem_akeys {α : Type} (q : String) (d : List (String × α))
    (h : q ∉ akeys d) : alookup q d = none := by
  induction d with
  | nil => rfl
  | cons kv t ih =>
    obtain ⟨k2, v2⟩ := kv
    simp only [akeys, List.map_cons, List.mem_cons] at h
    push_neg at h
    rw [alookup_cons, if_neg (by simp [beq_iff_eq]; exact fun hh => h.1 hh.symm)]
    exact ih (by simpa [akeys] using h.2)

/-- Lookup hits keys present in the key list. -/
theorem alookup_isSome_of_mem_akeys {α : Type} (q : String) (d : List (String × α))
    (h : q ∈ akeys d) : (alookup q d).isSome = true := by
  induction d with
  | nil => cases h
  | cons kv t ih =>
    obtain ⟨k2, v2⟩ := kv
    simp only [akeys, List.map_cons, List.mem_cons] at h
    rw [alookup_cons]
    by_cases h2 : (k2 == q) = true
    · rw [if_pos h2]; rfl
    · rw [if_neg h2]
      cases h with
      | inl hh => exact absurd (by simp [hh]) h2
      | inr hh => exact ih (by simpa [akeys] using hh)

/-- Assigning a fresh key appends. -/
theorem aset_fresh {α : Type} (k : String) (v : α) (d : List (String × α))
    (h : ahas k d = false) : aset k v d = d ++ [(k, v)] := by
  induction d with
  | nil => rfl
  | cons kv t ih =>
    obtain ⟨k2, v2⟩ := kv
    unfold ahas at h
    rw [alookup_cons] at h
    by_cases h2 : (k2 == k) = true
    · rw [if_pos h2] at h; cases h
    · rw [if_neg h2] at h
      rw [aset_cons, if_neg h2, ih h]
      rfl

/-- Lookup in a key-indexed table built by `map`. -/
theorem alookup_map_mem (q : String) (K : List String) (f : String → QcValue)
    (h : q ∈ K) : alookup q (K.map fun k => (k, f k)) = some (f q) := by
  induction K with
  | nil => cases h
  | cons k t ih =>
    simp only [List.map_cons]
    rw [alookup_cons]
    by_cases h2 : (k == q) = true
    · have : k = q := by simpa using h2
      subst this
      rw [if_pos h2]
    · rw [if_neg h2]
      cases h with
      | head => exact absurd (by simp) h2
      | tail _ hh => exact ih hh

/-- Lookup misses keys outside a `map`-built table. -/
theorem alookup_map_not_mem (q : String) (K : List String) (f : String → QcValue)
    (h : q ∉ K) : alookup q (K.map fun k => (k, f k)) = none := by
  induction K with
  | nil => rfl
  | cons k t ih =>
    simp only [List.mem_cons] at h
    push_neg at h
    simp only [List.map_cons]
    rw [alookup_cons, if_neg (by simp [beq_iff_eq]; exact fun hh => h.1 hh.symm)]
    exact ih h.2

/-- Lookup after folding assignments of distinct keys. -/
theorem alookup_foldl_aset {α : Type} (entries : List (String × α)) (d0 : List (String × α))
    (q : String) (hnd : (entries.map Prod.fst).Nodup) :
    alookup q (entries.foldl (fun d kv => aset kv.1 kv.2 d) d0) =
      match alookup q entries with
      | some v => some v
      | none => alookup q d0 := by
  induction entries generalizing d0 with
  | nil => rfl
  | cons kv t ih =>
    obtain ⟨k2, v2⟩ := kv
    simp only [List.map_cons, List.nodup_cons] at hnd
    simp only [List.foldl_cons]
    rw [ih _ hnd.2, alookup_cons]
    by_cases h2 : (k2 == q) = true
    · have : k2 = q := by simpa using h2
      subst this
      rw [if_pos h2]
      have : alookup k2 t = none := by
        apply alookup_none_of_not_mem_akeys
        simpa [akeys] using hnd.1
      rw [this, alookup_aset, if_pos h2]
    · rw [if_neg h2]
      cases ha : alookup q t with
      | some v => rfl
      | none => rw [alookup_aset, if_neg h2]

/-! ## Round-trip support: the shape of a serialized `$rem` line -/

/-- The unpadded text of a serialized rem entry. -/
def remLineCore (kv : String × QcValue) : String := kv.1 ++ " = " ++ renderValue kv.2

/-- The serialized rem line as emitted by `_format_rem`. -/
def remLineFull (w : Nat) (kv : String × QcValue) : String :=
  "  " ++ rjust w kv.1 ++ " = " ++ renderValue kv.2

/-- The full line is the core line with leading spaces. -/
theorem remLineFull_data (w : Nat) (kv : String × QcValue) :
    (remLineFull w kv).data =
      spacesN (2 + (w - kv.1.data.length)) ++ (remLineCore kv).data := by
  unfold remLineFull remLineCore rjust
  simp only [String.data_append, chStr, spacesN, List.replicate_add, List.append_assoc]
  rfl

/-- Stripping the full line equals stripping the core line. -/
theorem pyStrip_full (w : Nat) (kv : String × QcValue) :
    pyStrip (remLineFull w kv) = pyStrip (remLineCore kv) := by
  unfold pyStrip
  rw [remLineFull_data, stripChars_pad]

/-- Tokenization is insensitive to the left padding. -/
theorem kvTokens_full (w : Nat) (kv : String × QcValue) :
    kvTokens (remLineFull w kv) = kvTokens (remLineCore kv) := by
  unfold kvTokens
  rw [pyStrip_full]

/-- The rem entry parse is insensitive to the left padding. -/
theorem parseRemEntry_full (w : Nat) (kv : String × QcValue) :
    parseRemEntry (remLineFull w kv) = parseRemEntry (remLineCore kv) := by
  unfold parseRemEntry
  rw [kvTokens_full]

/-- A newline-free string is a single line. -/
theorem pyLines_of_no_nl (s : String) (h : s.data.contains '\n' = false) :
    pyLines s = [s] := by
  unfold pyLines
  rw [splitOnCh_no_sep _ _ h]
  rfl

/-- The padding adds no newline. -/
theorem remLineFull_no_nl (w : Nat) (kv : String × QcValue)
    (h : (remLineCore kv).data.contains '\n' = false) :
    (remLineFull w kv).data.contains '\n' = false := by
  have h' : ('\n' : Char) ∉ (remLineCore kv).data := by simpa using h
  rw [remLineFull_data]
  simp [spacesN, List.mem_replicate, h']

/-- Splitting around an explicit newline. -/
theorem pyLines_append_nl (a b : String) :
    pyLines (a ++ "\n" ++ b) = pyLines a ++ pyLines b := by
  unfold pyLines
  have hd : (a ++ "\n" ++ b).data = a.data ++ '\n' :: b.data := by
    simp [String.data_append]
  rw [hd, splitOnCh_append, List.map_append]

/-- Splitting a join on the separator recovers each piece's lines. -/
theorem pyLines_join (l : List String) (hne : l ≠ []) :
    pyLines (pyJoin "\n" l) = l.flatMap pyLines := by
  induction l with
  | nil => exact absurd rfl hne
  | cons x rest ih =>
    cases rest with
    | nil => simp [pyJoin]
    | cons y t =>
      show pyLines (x ++ "\n" ++ pyJoin "\n" (y :: t)) = _
      rw [pyLines_append_nl, ih (by simp)]
      rfl

/-! ## Round-trip support: self-reproducing rem entries -/

/-- An entry that the `rem_params` loop of the constructor stores
unchanged: lower-case non-alias key, and a plain value whose string form
is lower-case and alias-free. -/
def remuNorm (kv : String × QcValue) : Bool :=
  (pyLower kv.1 == kv.1) && (alookup kv.1 aliasKeys).isNone &&
  (match kv.2 with
   | .s sv => (pyLower sv == sv) && (alookup sv aliasVals).isNone
   | .i _ => true
   | .f _ => true
   | .b _ => true
   | _ => false)

/-- A rem entry whose serialized line parses back to exactly itself, is
stored unchanged by the constructor, and renders as one non-blank
non-terminator line. -/
def goodRemEntry (kv : String × QcValue) : Bool :=
  (match parseRemEntry (remLineCore kv) with
   | Except.ok kv2 => kv2 == kv
   | Except.error _ => false) &&
  remuNorm kv &&
  !((remLineCore kv).data.contains '\n') &&
  !(pyLower (pyStrip (remLineCore kv)) == "") &&
  !(pyLower (pyStrip (remLineCore kv)) == "$end")

/-- The `rem_params` loop stores a normalized entry unchanged. -/
theorem applyRemParam_norm (t : QcTask) (kv : String × QcValue) (h : remuNorm kv = true) :
    applyRemParam t kv = Except.ok (remSet kv.1 kv.2 t) := by
  unfold remuNorm at h
  simp only [Bool.and_eq_true, beq_iff_eq, Option.isNone_iff_eq_none] at h
  obtain ⟨⟨hk1, hk2⟩, hv⟩ := h
  unfold applyRemParam applyAlias
  rw [hk1, hk2]
  cases hvv : kv.2 with
  | s sv =>
    rw [hvv] at hv
    simp only [Bool.and_eq_true, beq_iff_eq, Option.isNone_iff_eq_none] at hv
    simp only [Option.getD_none]
    rw [hv.1, hv.2]
    rfl
  | i v => rfl
  | f v => rfl
  | b v => rfl
  | aliasDict => rw [hvv] at hv; cases hv
  | solvAtoms l => rw [hvv] at hv; cases hv

/-- A good entry re-parses to itself. -/
theorem goodRemEntry_parse (kv : String × QcValue) (h : goodRemEntry kv = true) :
    parseRemEntry (remLineCore kv) = Except.ok kv := by
  unfold goodRemEntry at h
  simp only [Bool.and_eq_true] at h
  have h1 := h.1.1.1.1
  cases hp : parseRemEntry (remLineCore kv) with
  | ok kv2 =>
    rw [hp] at h1
    have : kv2 = kv := by simpa using h1
    rw [this]
  | error e => rw [hp] at h1; cases h1

/-- A good entry is normalized. -/
theorem goodRemEntry_norm (kv : String × QcValue) (h : goodRemEntry kv = true) :
    remuNorm kv = true := by
  unfold goodRemEntry at h
  simp only [Bool.and_eq_true] at h
  exact h.1.1.1.2

/-- A good entry renders without newline. -/
theorem goodRemEntry_no_nl (kv : String × QcValue) (h : goodRemEntry kv = true) :
    (remLineCore kv).data.contains '\n' = false := by
  unfold goodRemEntry at h
  simp only [Bool.and_eq_true, Bool.not_eq_true'] at h
  exact h.1.1.2

/-- A good entry renders as a non-blank line. -/
theorem goodRemEntry_ne_blank (kv : String × QcValue) (h : goodRemEntry kv = true) :
    (pyLower (pyStrip (remLineCore kv)) == "") = false := by
  unfold goodRemEntry at h
  simp only [Bool.and_eq_true, Bool.not_eq_true'] at h
  exact h.1.2

/-- A good entry does not render as `$end`. -/
theorem goodRemEntry_ne_end (kv : String × QcValue) (h : goodRemEntry kv = true) :
    (pyLower (pyStrip (remLineCore kv)) == "$end") = false := by
  unfold goodRemEntry at h
  simp only [Bool.and_eq_true, Bool.not_eq_true'] at h
  exact h.2

/-- Lookup over concatenated tables. -/
theorem alookup_append {α : Type} (q : String) (a b : List (String × α)) :
    alookup q (a ++ b) =
      match alookup q a with
      | some v => some v
      | none => alookup q b := by
  induction a with
  | nil => rfl
  | cons kv t ih =>
    obtain ⟨k2, v2⟩ := kv
    rw [List.cons_append, alookup_cons, alookup_cons]
    by_cases h2 : (k2 == q) = true
    · rw [if_pos h2, if_pos h2]
    · rw [if_neg h2, if_neg h2, ih]

/-- Parsing the serialized lines of distinct good entries rebuilds the
entry list. -/
theorem parseRemSec_fold (entries : List (String × QcValue)) (w : Nat)
    (d0 : List (String × QcValue))
    (h : ∀ kv ∈ entries, goodRemEntry kv = true)
    (hnd : (entries.map Prod.fst).Nodup)
    (hfresh : ∀ kv ∈ entries, ahas kv.1 d0 = false) :
    (entries.map (remLineFull w)).foldlM
      (fun d line => (parseRemEntry line).map fun kv => aset kv.1 kv.2 d) d0 =
      Except.ok (d0 ++ entries) := by
  induction entries generalizing d0 with
  | nil => simp [pure, Except.pure]
  | cons kv t ih =>
    obtain ⟨k1, v1⟩ := kv
    simp only [List.map_cons, List.nodup_cons] at hnd
    have hfr : ∀ x ∈ t, ahas x.1 (d0 ++ [(k1, v1)]) = false := by
      intro x hx
      have h0 := hfresh x (List.mem_cons_of_mem _ hx)
      unfold ahas at h0 ⊢
      rw [alookup_append]
      cases ha : alookup x.1 d0 with
      | some v => rw [ha] at h0; cases h0
      | none =>
        have hne : (k1 == x.1) = false := by
          have hxm : x.1 ∈ t.map Prod.fst := List.mem_map_of_mem _ hx
          exact beq_eq_false_iff_ne.mpr (fun hh => hnd.1 (hh ▸ hxm))
        show (alookup x.1 [(k1, v1)]).isSome = false
        rw [alookup_cons, if_neg (by simp [hne])]
        rfl
    have hstep : (parseRemEntry (remLineFull w (k1, v1))).map
        (fun kv => aset kv.1 kv.2 d0) = Except.ok (d0 ++ [(k1, v1)]) := by
      rw [parseRemEntry_full, goodRemEntry_parse _ (h _ (List.mem_cons_self _ _))]
      show Except.ok (aset k1 v1 d0) = _
      rw [aset_fresh _ _ _ (hfresh _ (List.mem_cons_self _ _))]
    simp only [List.map_cons, List.foldlM_cons]
    rw [hstep]
    simp only [bind, Except.bind]
    rw [ih (d0 ++ [(k1, v1)]) (fun x hx => h x (List.mem_cons_of_mem _ hx)) hnd.2 hfr]
    simp

/-! ## Round-trip support: the serializable task class -/

/-- The restricted task class of the amended round-trip: a `read`
molecule with no charge, spin, comment or optional section, and a rem
table of distinct self-reproducing entries holding a valid string
jobtype, a non-double-hybrid string exchange, a string basis, and no
correlation key. -/
def goodTask (t : QcTask) : Bool :=
  (t.mol == MolState.read) && t.charge.isNone && t.spin.isNone && t.comment.isNone &&
  t.others.isEmpty &&
  decide ((akeys t.rem).Nodup) &&
  t.rem.all goodRemEntry &&
  (match alookup "jobtype" t.rem with
   | some (.s s) => availableJobtypes.contains s
   | _ => false) &&
  (match alookup "exchange" t.rem with
   | some (.s s) => !(["xygjos", "xyg3", "lxygjos"].contains s)
   | _ => false) &&
  (match alookup "basis" t.rem with
   | some (.s _) => true
   | _ => false) &&
  (alookup "correlation" t.rem).isNone

/-- The stored rem value of a key, defaulted. -/
def remValOf (t : QcTask) (k : String) : QcValue := (alookup k t.rem).getD (.s "")

/-- The key order emitted by `_format_rem`: priority keys then sorted
remainder. -/
def remOrdered (t : QcTask) : List String :=
  ["jobtype", "exchange", "basis"] ++
    sortStr (((akeys t.rem).filter fun k => !(["jobtype", "exchange", "basis"].contains k)).dedup)

/-- The rem table in serialization order. -/
def remEntries (t : QcTask) : List (String × QcValue) :=
  (remOrdered t).map fun k => (k, remValOf t k)

/-- Field content of a good task. -/
theorem goodTask_fields (t : QcTask) (h : goodTask t = true) :
    t.mol = MolState.read ∧ t.charge = none ∧ t.spin = none ∧ t.comment = none ∧
      t.others = [] := by
  unfold goodTask at h
  simp only [Bool.and_eq_true, beq_iff_eq, Option.isNone_iff_eq_none,
    List.isEmpty_iff] at h
  exact ⟨h.1.1.1.1.1.1.1.1.1.1, h.1.1.1.1.1.1.1.1.1.2, h.1.1.1.1.1.1.1.1.2,
    h.1.1.1.1.1.1.1.2, h.1.1.1.1.1.1.2⟩

/-- A good task has distinct rem keys. -/
theorem goodTask_nodup (t : QcTask) (h : goodTask t = true) : (akeys t.rem).Nodup := by
  unfold goodTask at h
  simp only [Bool.and_eq_true, decide_eq_true_eq] at h
  exact h.1.1.1.1.1.2

/-- Every rem entry of a good task is good. -/
theorem goodTask_entries (t : QcTask) (h : goodTask t = true) :
    ∀ kv ∈ t.rem, goodRemEntry kv = true := by
  unfold goodTask at h
  simp only [Bool.and_eq_true, List.all_eq_true] at h
  exact h.1.1.1.1.2

/-- A good task stores a valid string jobtype. -/
theorem goodTask_jobtype (t : QcTask) (h : goodTask t = true) :
    ∃ s, alookup "jobtype" t.rem = some (.s s) ∧ availableJobtypes.contains s = true := by
  unfold goodTask at h
  simp only [Bool.and_eq_true] at h
  have h2 := h.1.1.1.2
  cases hj : alookup "jobtype" t.rem with
  | none => rw [hj] at h2; cases h2
  | some v =>
    cases v with
    | s s => exact ⟨s, rfl, by rw [hj] at h2; exact h2⟩
    | i v => rw [hj] at h2; cases h2
    | f v => rw [hj] at h2; cases h2
    | b v => rw [hj] at h2; cases h2
    | aliasDict => rw [hj] at h2; cases h2
    | solvAtoms l => rw [hj] at h2; cases h2

/-- A good task stores a non-double-hybrid string exchange. -/
theorem goodTask_exchange (t : QcTask) (h : goodTask t = true) :
    ∃ s, alookup "exchange" t.rem = some (.s s) ∧
      (["xygjos", "xyg3", "lxygjos"].contains s) = false := by
  unfold goodTask at h
  simp only [Bool.and_eq_true] at h
  have h2 := h.1.1.2
  cases hj : alookup "exchange" t.rem with
  | none => rw [hj] at h2; cases h2
  | some v =>
    cases v with
    | s s =>
      refine ⟨s, rfl, ?_⟩
      rw [hj] at h2
      simpa using h2
    | i v => rw [hj] at h2; cases h2
    | f v => rw [hj] at h2; cases h2
    | b v => rw [hj] at h2; cases h2
    | aliasDict => rw [hj] at h2; cases h2
    | solvAtoms l => rw [hj] at h2; cases h2

/-- A good task stores a string basis. -/
theorem goodTask_basis (t : QcTask) (h : goodTask t = true) :
    ∃ s, alookup "basis" t.rem = some (.s s) := by
  unfold goodTask at h
  simp only [Bool.and_eq_true] at h
  have h2 := h.1.2
  cases hj : alookup "basis" t.rem with
  | none => rw [hj] at h2; cases h2
  | some v =>
    cases v with
    | s s => exact ⟨s, rfl⟩
    | i v => rw [hj] at h2; cases h2
    | f v => rw [hj] at h2; cases h2
    | b v => rw [hj] at h2; cases h2
    | aliasDict => rw [hj] at h2; cases h2
    | solvAtoms l => rw [hj] at h2; cases h2

/-- A good task stores no correlation key. -/
theorem goodTask_correlation (t : QcTask) (h : goodTask t = true) :
    alookup "correlation" t.rem = none := by
  unfold goodTask at h
  simp only [Bool.and_eq_true, Option.isNone_iff_eq_none] at h
  exact h.2

/-- Every emitted key is present in the rem table. -/
theorem remOrdered_lookup (t : QcTask) (h : goodTask t = true) :
    ∀ k ∈ remOrdered t, (alookup k t.rem).isSome = true := by
  intro k hk
  unfold remOrdered at hk
  rw [List.mem_append] at hk
  cases hk with
  | inl hp =>
    obtain ⟨js, hj, _⟩ := goodTask_jobtype t h
    obtain ⟨es, he, _⟩ := goodTask_exchange t h
    obtain ⟨bs, hb⟩ := goodTask_basis t h
    simp only [List.mem_cons, List.mem_singleton] at hp
    rcases hp with rfl | rfl | rfl | hfalse
    · rw [hj]; rfl
    · rw [he]; rfl
    · rw [hb]; rfl
    · cases hfalse
  | inr hs =>
    apply alookup_isSome_of_mem_akeys
    have : k ∈ ((akeys t.rem).filter fun k => !(["jobtype", "exchange", "basis"].contains k)).dedup := by
      have hperm := List.perm_insertionSort (fun a b => strLeB a b = true)
        (((akeys t.rem).filter fun k => !(["jobtype", "exchange", "basis"].contains k)).dedup)
      exact hperm.mem_iff.mp hs
    rw [List.mem_dedup] at this
    exact (List.mem_filter.mp this).1

/-- The `_format_rem` line loop over present keys. -/
theorem mapM_remLines (w : Nat) (rem : List (String × QcValue)) (l : List String)
    (h : ∀ k ∈ l, (alookup k rem).isSome = true) :
    (l.mapM fun k =>
      match alookup k rem with
      | some v => Except.ok ("  " ++ rjust w k ++ " = " ++ renderValue v)
      | none => Except.error "KeyError") =
      Except.ok (l.map fun k => remLineFull w (k, (alookup k rem).getD (.s ""))) := by
  induction l with
  | nil => rfl
  | cons k t ih =>
    have hk := h k (List.mem_cons_self _ _)
    cases hv : alookup k rem with
    | none => rw [hv] at hk; cases hk
    | some v =>
      simp only [List.mapM_cons, hv, bind, Except.bind]
      rw [ih (fun x hx => h x (List.mem_cons_of_mem _ hx))]
      simp only [pure, Except.pure, List.map_cons]
      rw [hv]
      rfl

/-- `_format_rem` of a good task emits one full line per ordered
entry. -/
theorem formatRem_eq (t : QcTask) (h : goodTask t = true) :
    formatRem t = Except.ok ((remEntries t).map (remLineFull (keyWidth t.rem))) := by
  unfold formatRem
  show ((remOrdered t).mapM fun k =>
      match alookup k t.rem with
      | some v => Except.ok ("  " ++ rjust (keyWidth t.rem) k ++ " = " ++ renderValue v)
      | none => Except.error "KeyError") = _
  rw [mapM_remLines (keyWidth t.rem) t.rem (remOrdered t) (remOrdered_lookup t h)]
  unfold remEntries remValOf
  rw [List.map_map]
  rfl

/-- The sorted optional keyword list, evaluated. -/
def optSorted : List String :=
  ["aux_basis", "basis", "cdft", "ecp", "efp_fragments", "efp_params",
   "empirical_dispersion", "external_charges", "force_field_params", "intracule",
   "isotopes", "localized_diabatization", "multipole_field", "nbo", "occupied", "opt",
   "pcm", "pcm_solvent", "plots", "qm_atoms", "svp", "svpirf", "swap_occupied_virtual",
   "van_der_waals", "xc_functional"]

/-- The sorted optional keyword list. -/
theorem sortStr_optional : sortStr optionalKeywords = optSorted := by decide

/-- One section step of the `__str__` loop. -/
def strStep (t : QcTask) (acc : List String) (sec : String) : Except String (List String) :=
  if secPresent t sec || sec == "molecule" then do
    let body ← formatDispatch t sec
    Except.ok (acc ++ ["$" ++ sec] ++ body ++ ["$end", "\n"])
  else Except.ok acc

/-- An absent optional section contributes nothing. -/
theorem strStep_skip (t : QcTask) (acc : List String) (s : String)
    (hothers : t.others = []) (hcomment : t.comment = none)
    (hs : s ≠ "molecule" ∧ s ≠ "rem") :
    strStep t acc s = Except.ok acc := by
  have hcond : (secPresent t s || s == "molecule") = false := by
    unfold secPresent
    by_cases h1 : (s == "comment") = true
    · simp only [h1, if_true, hcomment, Option.isSome_none, Bool.or_eq_false_iff]
      exact ⟨trivial, beq_eq_false_iff_ne.mpr hs.1⟩
    · rw [if_neg h1, if_neg (by simp [beq_eq_false_iff_ne.mpr hs.2])]
      rw [hothers]
      simp only [ahas, alookup, Option.isSome_none, Bool.false_or]
      exact beq_eq_false_iff_ne.mpr hs.1
  unfold strStep
  rw [hcond]
  rfl

/-- The tail of absent optional sections contributes nothing. -/
theorem foldSecs_skip (t : QcTask) (L : List String) (acc : List String)
    (hothers : t.others = []) (hcomment : t.comment = none)
    (hL : ∀ s ∈ L, s ≠ "molecule" ∧ s ≠ "rem") :
    L.foldlM (strStep t) acc = Except.ok acc := by
  induction L generalizing acc with
  | nil => rfl
  | cons s rest ih =>
    rw [List.foldlM_cons, strStep_skip t acc s hothers hcomment (hL s (List.mem_cons_self _ _))]
    simp only [bind, Except.bind]
    exact ih acc (fun x hx => hL x (List.mem_cons_of_mem _ hx))

/-- The full `__str__` entry list of a good task. -/
theorem strEntries_eq (t : QcTask) (h : goodTask t = true) :
    strEntries t = Except.ok (["$molecule", " read", "$end", "\n", "$rem"] ++
      (remEntries t).map (remLineFull (keyWidth t.rem)) ++ ["$end", "\n"]) := by
  obtain ⟨hmol, hcharge, hspin, hcomment, hothers⟩ := goodTask_fields t h
  have hfm : formatMolecule t = Except.ok [" read"] := by
    unfold formatMolecule
    rw [hcharge, hmol]
    rfl
  have hs1 : strStep t [] "comment" = Except.ok [] :=
    strStep_skip t [] "comment" hothers hcomment (by decide)
  have hs2 : strStep t [] "molecule" =
      Except.ok ["$molecule", " read", "$end", "\n"] := by
    unfold strStep
    rw [if_pos (by rw [Bool.or_eq_true]; right; rfl)]
    simp only [bind, Except.bind]
    unfold formatDispatch
    rw [if_neg (by decide), if_pos (by rfl), hfm]
    rfl
  have hs3 : strStep t ["$molecule", " read", "$end", "\n"] "rem" =
      Except.ok (["$molecule", " read", "$end", "\n", "$rem"] ++
        (remEntries t).map (remLineFull (keyWidth t.rem)) ++ ["$end", "\n"]) := by
    have hpres : (secPresent t "rem" || "rem" == "molecule") = true := by
      rw [Bool.or_eq_true]
      left
      unfold secPresent
      rw [if_neg (by decide), if_pos (by rfl)]
    unfold strStep
    rw [if_pos hpres]
    simp only [bind, Except.bind]
    unfold formatDispatch
    rw [if_neg (by decide), if_neg (by decide), if_pos (by rfl), formatRem_eq t h]
    simp
  unfold strEntries
  show (("comment" :: "molecule" :: "rem" :: sortStr optionalKeywords).foldlM
    (strStep t) []) = _
  rw [List.foldlM_cons, hs1]
  simp only [bind, Except.bind]
  rw [List.foldlM_cons, hs2]
  simp only [bind, Except.bind]
  rw [List.foldlM_cons, hs3]
  simp only [bind, Except.bind]
  exact foldSecs_skip t _ _ hothers hcomment (by rw [sortStr_optional]; decide)

/-- The line list of the serialized good task. -/
def c1Lines (t : QcTask) : List String :=
  ["$molecule", " read", "$end", "", "", "$rem"] ++
    (remEntries t).map (remLineFull (keyWidth t.rem)) ++ ["$end", "", ""]

/-- Every serialized entry of a good task is good. -/
theorem remEntries_good (t : QcTask) (h : goodTask t = true) :
    ∀ kv ∈ remEntries t, goodRemEntry kv = true := by
  intro kv hkv
  unfold remEntries at hkv
  rw [List.mem_map] at hkv
  obtain ⟨k, hk, hkv⟩ := hkv
  have hsome := remOrdered_lookup t h k hk
  cases hv : alookup k t.rem with
  | none => rw [hv] at hsome; cases hsome
  | some v =>
    have : kv = (k, v) := by
      rw [← hkv]
      unfold remValOf
      rw [hv]
      rfl
    rw [this]
    exact goodTask_entries t h (k, v) (alookup_mem k v t.rem hv)

/-- Splitting single-line strings is the identity. -/
theorem flatMap_single (L : List String) (h : ∀ l ∈ L, pyLines l = [l]) :
    L.flatMap pyLines = L := by
  induction L with
  | nil => rfl
  | cons l rest ih =>
    rw [List.flatMap_cons, h l (List.mem_cons_self _ _),
      ih (fun x hx => h x (List.mem_cons_of_mem _ hx))]
    rfl

/-- Serialization of a good task succeeds and splits into `c1Lines`. -/
theorem serialized_lines (t : QcTask) (h : goodTask t = true) :
    ∃ s, qcTaskStr t = Except.ok s ∧ pyLines s = c1Lines t := by
  unfold qcTaskStr
  rw [strEntries_eq t h]
  refine ⟨_, rfl, ?_⟩
  rw [pyLines_join _ (by simp)]
  rw [List.flatMap_append, List.flatMap_append]
  have hR : ((remEntries t).map (remLineFull (keyWidth t.rem))).flatMap pyLines =
      (remEntries t).map (remLineFull (keyWidth t.rem)) := by
    apply flatMap_single
    intro l hl
    rw [List.mem_map] at hl
    obtain ⟨kv, hkv, hl⟩ := hl
    rw [← hl]
    exact pyLines_of_no_nl _
      (remLineFull_no_nl _ _ (goodRemEntry_no_nl kv (remEntries_good t h kv hkv)))
  rw [hR]
  unfold c1Lines
  rfl

/-! ## Round-trip support: the parse of the serialized lines -/

/-- The emitted key order has no duplicates. -/
theorem remOrdered_nodup (t : QcTask) : (remOrdered t).Nodup := by
  unfold remOrdered sortStr
  rw [List.nodup_append]
  refine ⟨by decide, ?_, ?_⟩
  · rw [(List.perm_insertionSort _ _).nodup_iff]
    exact List.nodup_dedup _
  · intro x hx hx2
    have hm : x ∈ ((akeys t.rem).filter fun k => !(["jobtype", "exchange", "basis"].contains k)).dedup :=
      (List.perm_insertionSort _ _).mem_iff.mp hx2
    rw [List.mem_dedup, List.mem_filter] at hm
    have h2 := hm.2
    simp only [Bool.not_eq_true'] at h2
    rw [← List.elem_iff] at hx
    rw [List.contains, hx] at h2
    cases h2

/-- Every rem key is emitted. -/
theorem akeys_sub_remOrdered (t : QcTask) (k : String) (hk : k ∈ akeys t.rem) :
    k ∈ remOrdered t := by
  unfold remOrdered sortStr
  rw [List.mem_append]
  by_cases hp : k ∈ ["jobtype", "exchange", "basis"]
  · exact Or.inl hp
  · right
    rw [(List.perm_insertionSort _ _).mem_iff, List.mem_dedup, List.mem_filter]
    refine ⟨hk, ?_⟩
    simp only [Bool.not_eq_true']
    rw [← List.elem_iff] at hp
    rw [List.contains]
    exact Bool.eq_false_iff.mpr hp

/-- A non-blank non-terminator line inside a section is accumulated. -/
theorem fsStep_body (st : FsSt) (line : String) (hps : st.parse_section = true)
    (h1 : (pyLower (pyStrip line) == "") = false)
    (h2 : (pyLower (pyStrip line) == "$end") = false) :
    fsStep st line = Except.ok { st with section_text := st.section_text ++ [line] } := by
  unfold fsStep
  simp only [h1, hps, h2, Bool.not_true, Bool.false_eq_true, if_false]

/-- A run of body lines is accumulated in order. -/
theorem bodyFold (lines : List String) (st : FsSt) (hps : st.parse_section = true)
    (hall : ∀ l ∈ lines,
      (pyLower (pyStrip l) == "") = false ∧ (pyLower (pyStrip l) == "$end") = false) :
    lines.foldlM fsStep st = Except.ok { st with section_text := st.section_text ++ lines } := by
  induction lines generalizing st with
  | nil => simp [pure, Except.pure]
  | cons l rest ih =>
    have hl := hall l (List.mem_cons_self _ _)
    rw [List.foldlM_cons, fsStep_body st l hps hl.1 hl.2]
    simp only [bind, Except.bind]
    rw [ih { st with section_text := st.section_text ++ [l] } hps
      (fun x hx => hall x (List.mem_cons_of_mem _ hx))]
    simp only [List.append_assoc]
    rfl

/-- A blank line is skipped. -/
theorem fsStep_blank (st : FsSt) : fsStep st "" = Except.ok st := by rfl

/-- The loop state after the molecule block and the `$rem` opener. -/
def stRem : FsSt :=
  { parse_section := true, section_name := "rem", section_text := [], params := [],
    mol := some .read, charge := none, spin := none }

/-- The molecule block parses to the `$rem`-open state. -/
theorem prefix6_fold :
    ["$molecule", " read", "$end", "", "", "$rem"].foldlM fsStep fsInit =
      Except.ok stRem := by rfl

/-- The serialized entries are keyed by the emitted order. -/
theorem remEntries_fst (t : QcTask) : (remEntries t).map Prod.fst = remOrdered t := by
  unfold remEntries
  rw [List.map_map]
  exact List.map_id' _

/-- `_parse_rem` of the serialized lines rebuilds the entry table. -/
theorem parseRemSec_c1 (t : QcTask) (h : goodTask t = true) (w : Nat) :
    parseRemSec ((remEntries t).map (remLineFull w)) = Except.ok (remEntries t) := by
  unfold parseRemSec
  rw [parseRemSec_fold (remEntries t) w [] (remEntries_good t h)
    (by rw [remEntries_fst]; exact remOrdered_nodup t) (fun kv _ => rfl)]
  rfl

/-- `$end` of a rem section dispatches `_parse_rem` and stores the
table. -/
theorem fsStep_end_rem (st : FsSt) (D : List (String × QcValue))
    (hps : st.parse_section = true) (hname : st.section_name = "rem")
    (hD : parseRemSec st.section_text = Except.ok D) :
    fsStep st "$end" = Except.ok
      { st with parse_section := false, section_name := "", section_text := [],
                params := aset "rem" (.keyed D) st.params } := by
  unfold fsStep
  have e1 : (pyLower (pyStrip "$end") == "") = false := rfl
  have e2 : (pyLower (pyStrip "$end") == "$end") = true := rfl
  have e3 : ("rem" == "molecule") = false := rfl
  simp only [e1, hps, e2, hname, e3, Bool.not_true, Bool.false_eq_true, if_false, if_true]
  unfold parseSecData
  rw [if_neg (by decide), if_pos (by rfl), hD]
  simp only [Except.map, bind, Except.bind]

/-- The loop state after the whole serialized text. -/
def stFinal (t : QcTask) : FsSt :=
  { parse_section := false, section_name := "", section_text := [],
    params := [("rem", .keyed (remEntries t))],
    mol := some .read, charge := none, spin := none }

/-- The whole serialized text parses to the final state. -/
theorem c1_fold (t : QcTask) (h : goodTask t = true) :
    (c1Lines t).foldlM fsStep fsInit = Except.ok (stFinal t) := by
  unfold c1Lines
  rw [List.foldlM_append, List.foldlM_append, prefix6_fold]
  simp only [bind, Except.bind]
  rw [bodyFold _ stRem rfl ?hall]
  case hall =>
    intro l hl
    rw [List.mem_map] at hl
    obtain ⟨kv, hkv, hl⟩ := hl
    have hg := remEntries_good t h kv hkv
    rw [← hl, pyStrip_full]
    exact ⟨goodRemEntry_ne_blank kv hg, goodRemEntry_ne_end kv hg⟩
  simp only [bind, Except.bind]
  rw [List.foldlM_cons]
  rw [fsStep_end_rem _ (remEntries t) rfl rfl ?hsec]
  case hsec =>
    show parseRemSec (([] : List String) ++ (remEntries t).map (remLineFull (keyWidth t.rem))) = _
    rw [List.nil_append]
    exact parseRemSec_c1 t h _
  simp only [bind, Except.bind]
  rw [List.foldlM_cons, fsStep_blank]
  simp only [bind, Except.bind]
  rw [List.foldlM_cons, fsStep_blank]
  simp only [bind, Except.bind, List.foldlM_nil]
  rfl

/-- Lookup in the serialized entry table. -/
theorem alookup_remEntries (t : QcTask) (q : String) :
    alookup q (remEntries t) =
      if q ∈ remOrdered t then some (remValOf t q) else none := by
  by_cases hq : q ∈ remOrdered t
  · rw [if_pos hq]
    exact alookup_map_mem q _ _ hq
  · rw [if_neg hq]
    exact alookup_map_not_mem q _ _ hq

/-- The argument extraction of `from_string` on the final state reduces
to one constructor call. -/
theorem fsFinish_c1 (t : QcTask) (js es bs : String)
    (hjt : alookup "jobtype" (remEntries t) = some (.s js))
    (hex : alookup "exchange" (remEntries t) = some (.s es))
    (hbs : alookup "basis" (remEntries t) = some (.s bs))
    (hcorr : alookup "correlation" (remEntries t) = none) :
    fsFinish (stFinal t) = qcTaskInit (MolPar.rd "read") none none js none es none
      (.qv (.s bs)) ((alookup "aux_basis" (remEntries t)).map .qv)
      ((alookup "ecp" (remEntries t)).map .qv) (some (remEntries t)) none := by
  unfold fsFinish stFinal
  have e0 : alookup "rem" [("rem", SecData.keyed (remEntries t))] =
      some (SecData.keyed (remEntries t)) := rfl
  have e1 : alookup "comment" [("rem", SecData.keyed (remEntries t))] = none := rfl
  have e2 : List.filter (fun kv => kv.1 != "comment" && kv.1 != "rem")
      [("rem", SecData.keyed (remEntries t))] = [] := rfl
  simp only [Bool.false_eq_true, if_false, e0, hjt, hex, hbs, hcorr, e1, e2,
    bind, Except.bind]
  rfl

/-! ## Round-trip support: the constructor replay -/

/-- Key facts of a normalized entry. -/
theorem remuNorm_key (k : String) (v : QcValue) (h : remuNorm (k, v) = true) :
    pyLower k = k ∧ alookup k aliasKeys = none := by
  unfold remuNorm at h
  simp only [Bool.and_eq_true, beq_iff_eq, Option.isNone_iff_eq_none] at h
  exact h.1

/-- String-value facts of a normalized entry. -/
theorem remuNorm_sval (k sv : String) (h : remuNorm (k, .s sv) = true) :
    pyLower sv = sv ∧ alookup sv aliasVals = none := by
  unfold remuNorm at h
  simp only [Bool.and_eq_true, beq_iff_eq, Option.isNone_iff_eq_none] at h
  exact h.2

/-- The `rem_params` loop over normalized entries is a pure fold of
assignments. -/
theorem foldRemSet (entries : List (String × QcValue)) (u : QcTask)
    (h : ∀ kv ∈ entries, remuNorm kv = true) :
    entries.foldlM applyRemParam u =
      Except.ok (entries.foldl (fun x kv => remSet kv.1 kv.2 x) u) := by
  induction entries generalizing u with
  | nil => rfl
  | cons kv rest ih =>
    rw [List.foldlM_cons, applyRemParam_norm u kv (h kv (List.mem_cons_self _ _))]
    simp only [bind, Except.bind]
    rw [ih (remSet kv.1 kv.2 u) (fun x hx => h x (List.mem_cons_of_mem _ hx))]
    rw [List.foldl_cons]

/-- The assignment fold touches only the rem table. -/
theorem foldl_remSet_fields (entries : List (String × QcValue)) (u : QcTask) :
    (entries.foldl (fun x kv => remSet kv.1 kv.2 x) u).mol = u.mol ∧
    (entries.foldl (fun x kv => remSet kv.1 kv.2 x) u).charge = u.charge ∧
    (entries.foldl (fun x kv => remSet kv.1 kv.2 x) u).spin = u.spin ∧
    (entries.foldl (fun x kv => remSet kv.1 kv.2 x) u).comment = u.comment ∧
    (entries.foldl (fun x kv => remSet kv.1 kv.2 x) u).others = u.others ∧
    (entries.foldl (fun x kv => remSet kv.1 kv.2 x) u).rem =
      entries.foldl (fun d kv => aset kv.1 kv.2 d) u.rem := by
  induction entries generalizing u with
  | nil => exact ⟨rfl, rfl, rfl, rfl, rfl, rfl⟩
  | cons kv rest ih =>
    simp only [List.foldl_cons]
    exact ih (remSet kv.1 kv.2 u)

/-- A found key is in the key list. -/
theorem mem_akeys_of_alookup {α : Type} (q : String) (v : α) (d : List (String × α))
    (h : alookup q d = some v) : q ∈ akeys d := by
  have := alookup_mem q v d h
  unfold akeys
  exact List.mem_map_of_mem _ this

/-- Re-assigning a key to its reference value preserves all lookups. -/
theorem remSet_pres (t8 tref : QcTask) (k0 : String) (v0 : QcValue)
    (hP : ∀ q, alookup q t8.rem = alookup q tref.rem)
    (hk : alookup k0 tref.rem = some v0) :
    ∀ q, alookup q (remSet k0 v0 t8).rem = alookup q tref.rem := by
  intro q
  show alookup q (aset k0 v0 t8.rem) = _
  rw [alookup_aset]
  by_cases hq : (k0 == q) = true
  · have : k0 = q := by simpa using hq
    subst this
    rw [if_pos hq, hk]
  · rw [if_neg hq, hP q]

/-- A hit in the serialized table is a hit in the rem table. -/
theorem remEntries_lookup_some (t : QcTask) (h : goodTask t = true) (q : String)
    (va : QcValue) (halu : alookup q (remEntries t) = some va) :
    alookup q t.rem = some va := by
  rw [alookup_remEntries] at halu
  by_cases hq : q ∈ remOrdered t
  · rw [if_pos hq] at halu
    injection halu with halu
    have hsome := remOrdered_lookup t h q hq
    cases hv : alookup q t.rem with
    | none => rw [hv] at hsome; cases hsome
    | some v =>
      unfold remValOf at halu
      rw [hv] at halu
      rw [← halu]
      rfl
  · rw [if_neg hq] at halu
    cases halu

/-- `set_auxiliary_basis_set` on the parsed value preserves lookups. -/
theorem setAux_pres (t u : QcTask) (va : QcValue) (h : goodTask t = true)
    (hP : ∀ q, alookup q u.rem = alookup q t.rem)
    (hva : alookup "aux_basis" t.rem = some va) :
    ∃ u2, setAuxBasisSet u (.qv va) = Except.ok u2 ∧
      u2.mol = u.mol ∧ u2.charge = u.charge ∧ u2.spin = u.spin ∧
      u2.comment = u.comment ∧ u2.others = u.others ∧
      ∀ q, alookup q u2.rem = alookup q t.rem := by
  have hng := goodRemEntry_norm _ (goodTask_entries t h _ (alookup_mem _ _ _ hva))
  cases va with
  | s sv =>
    obtain ⟨hl, _⟩ := remuNorm_sval _ _ hng
    refine ⟨remSet "aux_basis" (.s sv) u, ?_, rfl, rfl, rfl, rfl, rfl,
      remSet_pres u t _ _ hP hva⟩
    show Except.ok (remSet "aux_basis" (QcValue.s (pyLower sv)) u) = _
    rw [hl]
  | i v => exact ⟨u, rfl, rfl, rfl, rfl, rfl, rfl, hP⟩
  | f v => exact ⟨u, rfl, rfl, rfl, rfl, rfl, rfl, hP⟩
  | b v => exact ⟨u, rfl, rfl, rfl, rfl, rfl, rfl, hP⟩
  | aliasDict => cases hng
  | solvAtoms l => cases hng

/-- The guarded `set_ecp` on the parsed value preserves lookups. -/
theorem setEcp_pres (t u : QcTask) (ve : QcValue) (h : goodTask t = true)
    (hP : ∀ q, alookup q u.rem = alookup q t.rem)
    (hve : alookup "ecp" t.rem = some ve) :
    ∃ u2, (if basisArgTruthy (BasisArg.qv ve) = true then setEcp u (.qv ve)
            else Except.ok u) = Except.ok u2 ∧
      u2.mol = u.mol ∧ u2.charge = u.charge ∧ u2.spin = u.spin ∧
      u2.comment = u.comment ∧ u2.others = u.others ∧
      ∀ q, alookup q u2.rem = alookup q t.rem := by
  have hng := goodRemEntry_norm _ (goodTask_entries t h _ (alookup_mem _ _ _ hve))
  cases ve with
  | s sv =>
    obtain ⟨hl, _⟩ := remuNorm_sval _ _ hng
    by_cases htr : basisArgTruthy (BasisArg.qv (.s sv)) = true
    · rw [if_pos htr]
      refine ⟨remSet "ecp" (.s sv) u, ?_, rfl, rfl, rfl, rfl, rfl,
        remSet_pres u t _ _ hP hve⟩
      show Except.ok (remSet "ecp" (QcValue.s (pyLower sv)) u) = _
      rw [hl]
    · rw [if_neg htr]
      exact ⟨u, rfl, rfl, rfl, rfl, rfl, rfl, hP⟩
  | i v =>
    by_cases htr : basisArgTruthy (BasisArg.qv (.i v)) = true
    · rw [if_pos htr]; exact ⟨u, rfl, rfl, rfl, rfl, rfl, rfl, hP⟩
    · rw [if_neg htr]; exact ⟨u, rfl, rfl, rfl, rfl, rfl, rfl, hP⟩
  | f v =>
    by_cases htr : basisArgTruthy (BasisArg.qv (.f v)) = true
    · rw [if_pos htr]; exact ⟨u, rfl, rfl, rfl, rfl, rfl, rfl, hP⟩
    · rw [if_neg htr]; exact ⟨u, rfl, rfl, rfl, rfl, rfl, rfl, hP⟩
  | b v =>
    by_cases htr : basisArgTruthy (BasisArg.qv (.b v)) = true
    · rw [if_pos htr]; exact ⟨u, rfl, rfl, rfl, rfl, rfl, rfl, hP⟩
    · rw [if_neg htr]; exact ⟨u, rfl, rfl, rfl, rfl, rfl, rfl, hP⟩
  | aliasDict => cases hng
  | solvAtoms l => cases hng

/-- With a non-double-hybrid exchange and no correlation, the auxiliary
default phase is the identity. -/
theorem auxDefault_ok (t u : QcTask) (es : String)
    (hP : ∀ q, alookup q u.rem = alookup q t.rem)
    (hex : alookup "exchange" t.rem = some (.s es))
    (hexl : (["xygjos", "xyg3", "lxygjos"].contains es) = false)
    (hcor : alookup "correlation" t.rem = none) :
    auxDefaultPhase u = Except.ok u := by
  have he6 : remGet "exchange" u = some (QcValue.s es) := by
    show alookup "exchange" u.rem = _
    rw [hP]
    exact hex
  have hc6 : remGet "correlation" u = none := by
    show alookup "correlation" u.rem = _
    rw [hP]
    exact hcor
  have hreq : auxBasisRequired u = Except.ok false := by
    unfold auxBasisRequired
    simp only [he6, hc6, hexl, Bool.false_eq_true, if_false]
  unfold auxDefaultPhase
  rw [hreq]
  simp only [bind, Except.bind, Bool.false_eq_true, if_false]

/-- The constructor replay on the parsed table succeeds and reproduces
every rem lookup. -/
theorem replay_c1 (t : QcTask) (h : goodTask t = true) (js es bs : String)
    (hjt : alookup "jobtype" t.rem = some (.s js))
    (hex : alookup "exchange" t.rem = some (.s es))
    (hbs : alookup "basis" t.rem = some (.s bs)) :
    ∃ t', qcTaskInit (MolPar.rd "read") none none js none es none (.qv (.s bs))
        ((alookup "aux_basis" (remEntries t)).map .qv)
        ((alookup "ecp" (remEntries t)).map .qv) (some (remEntries t)) none =
        Except.ok t' ∧
      t'.mol = MolState.read ∧ t'.charge = none ∧ t'.spin = none ∧
      t'.comment = none ∧ t'.others = [] ∧
      ∀ q, alookup q t'.rem = alookup q t.rem := by
  have hjg : goodRemEntry ("jobtype", .s js) = true :=
    goodTask_entries t h _ (alookup_mem _ _ _ hjt)
  obtain ⟨hjl, hja⟩ := remuNorm_sval _ _ (goodRemEntry_norm _ hjg)
  have hbg : goodRemEntry ("basis", .s bs) = true :=
    goodTask_entries t h _ (alookup_mem _ _ _ hbs)
  obtain ⟨hbl, hba⟩ := remuNorm_sval _ _ (goodRemEntry_norm _ hbg)
  have hjta : availableJobtypes.contains js = true := by
    obtain ⟨s, hs1, hs2⟩ := goodTask_jobtype t h
    rw [hjt] at hs1
    injection hs1 with hs1
    injection hs1 with hs1
    rw [hs1]
    exact hs2
  have hexl : (["xygjos", "xyg3", "lxygjos"].contains es) = false := by
    obtain ⟨s, hs1, hs2⟩ := goodTask_exchange t h
    rw [hex] at hs1
    injection hs1 with hs1
    injection hs1 with hs1
    rw [hs1]
    exact hs2
  have hcor := goodTask_correlation t h
  have hinit : initMolChargeSpin (MolPar.rd "read") none none =
      Except.ok ⟨MolState.read, none, none⟩ := rfl
  have hjt2 : applyAlias aliasVals (pyLower js) = js := by
    rw [hjl]
    unfold applyAlias
    rw [hja]
    rfl
  unfold qcTaskInit
  simp only [hinit, bind, Except.bind]
  unfold qcTaskBody
  simp only [hjt2, hjta, Bool.not_true, Bool.false_eq_true, if_false, bind, Except.bind]
  have heg : goodRemEntry ("exchange", QcValue.s es) = true :=
    goodTask_entries t h _ (alookup_mem _ _ _ hex)
  obtain ⟨hel, hea⟩ := remuNorm_sval _ _ (goodRemEntry_norm _ heg)
  rw [hjl, hel]
  have hDnorm : ∀ kv ∈ remEntries t, remuNorm kv = true :=
    fun kv hkv => goodRemEntry_norm kv (remEntries_good t h kv hkv)
  rw [foldRemSet (remEntries t) _ hDnorm]
  have hm1 : "jobtype" ∈ remOrdered t := by
    unfold remOrdered
    exact List.mem_append_left _ (by decide)
  have hm2 : "exchange" ∈ remOrdered t := by
    unfold remOrdered
    exact List.mem_append_left _ (by decide)
  have P4 : ∀ q, alookup q ((remEntries t).foldl (fun d kv => aset kv.1 kv.2 d)
      [("exchange", QcValue.s es), ("jobtype", QcValue.s js)]) = alookup q t.rem := by
    intro q
    rw [alookup_foldl_aset _ _ _ (by rw [remEntries_fst]; exact remOrdered_nodup t)]
    rw [alookup_remEntries]
    by_cases hq : q ∈ remOrdered t
    · rw [if_pos hq]
      have hsome := remOrdered_lookup t h q hq
      cases hv : alookup q t.rem with
      | none => rw [hv] at hsome; cases hsome
      | some v =>
        show some (remValOf t q) = _
        unfold remValOf
        rw [hv]
        rfl
    · rw [if_neg hq]
      have hq1 : ("exchange" == q) = false :=
        beq_eq_false_iff_ne.mpr (fun hh => hq (hh ▸ hm2))
      have hq2 : ("jobtype" == q) = false :=
        beq_eq_false_iff_ne.mpr (fun hh => hq (hh ▸ hm1))
      show alookup q [("exchange", QcValue.s es), ("jobtype", QcValue.s js)] = alookup q t.rem
      rw [alookup_cons, if_neg (by rw [hq1]; exact Bool.false_ne_true),
        alookup_cons, if_neg (by rw [hq2]; exact Bool.false_ne_true)]
      cases hv : alookup q t.rem with
      | none => rfl
      | some v =>
        exact absurd (akeys_sub_remOrdered t q (mem_akeys_of_alookup q v _ hv)) hq
  have hfields := foldl_remSet_fields (remEntries t)
    (remSet "jobtype" (QcValue.s js) (remSet "exchange" (QcValue.s es)
      { mol := MolState.read, charge := none, spin := none, comment := none,
        rem := [], others := [] }))
  generalize ht4 : List.foldl (fun x kv => remSet kv.1 kv.2 x)
    (remSet "jobtype" (QcValue.s js) (remSet "exchange" (QcValue.s es)
      { mol := MolState.read, charge := none, spin := none, comment := none,
        rem := [], others := [] })) (remEntries t) = t4
  rw [ht4] at hfields
  have hm4 : t4.mol = MolState.read := hfields.1
  have hc4 : t4.charge = none := hfields.2.1
  have hs4 : t4.spin = none := hfields.2.2.1
  have hcm4 : t4.comment = none := hfields.2.2.2.1
  have ho4 : t4.others = [] := hfields.2.2.2.2.1
  have P4' : ∀ q, alookup q t4.rem = alookup q t.rem := by
    intro q
    rw [hfields.2.2.2.2.2]
    exact P4 q
  have hsb : setBasisSet t4 (BasisArg.qv (QcValue.s bs)) =
      Except.ok (remSet "basis" (QcValue.s bs) t4) := by
    show Except.ok (remSet "basis" (QcValue.s (pyLower bs)) t4) = _
    rw [hbl]
  have P6 : ∀ q, alookup q (remSet "basis" (QcValue.s bs) t4).rem = alookup q t.rem :=
    remSet_pres t4 t _ _ P4' hbs
  simp only [hsb]
  cases halu : alookup "aux_basis" (remEntries t) with
  | none =>
    have hadp := auxDefault_ok t (remSet "basis" (QcValue.s bs) t4) es P6 hex hexl hcor
    simp only [Option.map_none', hadp]
    cases hecp : alookup "ecp" (remEntries t) with
    | none =>
      simp only [Option.map_none']
      exact ⟨remSet "basis" (QcValue.s bs) t4, rfl, hm4, hc4, hs4, hcm4, ho4, P6⟩
    | some ve =>
      simp only [Option.map_some']
      obtain ⟨u2, he1, he2, he3, he4, he5, he6, he7⟩ :=
        setEcp_pres t (remSet "basis" (QcValue.s bs) t4) ve h P6
          (remEntries_lookup_some t h _ _ hecp)
      simp only [he1]
      refine ⟨u2, rfl, ?_, ?_, ?_, ?_, ?_, he7⟩
      · rw [he2]; exact hm4
      · rw [he3]; exact hc4
      · rw [he4]; exact hs4
      · rw [he5]; exact hcm4
      · rw [he6]; exact ho4
  | some va =>
    simp only [Option.map_some']
    obtain ⟨u2, ha1, ha2, ha3, ha4, ha5, ha6, ha7⟩ :=
      setAux_pres t (remSet "basis" (QcValue.s bs) t4) va h P6
        (remEntries_lookup_some t h _ _ halu)
    simp only [ha1]
    cases hecp : alookup "ecp" (remEntries t) with
    | none =>
      simp only [Option.map_none']
      refine ⟨u2, rfl, ?_, ?_, ?_, ?_, ?_, ha7⟩
      · rw [ha2]; exact hm4
      · rw [ha3]; exact hc4
      · rw [ha4]; exact hs4
      · rw [ha5]; exact hcm4
      · rw [ha6]; exact ho4
    | some ve =>
      simp only [Option.map_some']
      obtain ⟨u3, hb1, hb2, hb3, hb4, hb5, hb6, hb7⟩ :=
        setEcp_pres t u2 ve h ha7 (remEntries_lookup_some t h _ _ hecp)
      simp only [hb1]
      refine ⟨u3, rfl, ?_, ?_, ?_, ?_, ?_, hb7⟩
      · rw [hb2, ha2]; exact hm4
      · rw [hb3, ha3]; exact hc4
      · rw [hb4, ha4]; exact hs4
      · rw [hb5, ha5]; exact hcm4
      · rw [hb6, ha6]; exact ho4

/-- C1: for every task of the serializable class `goodTask` (read
molecule, no charge/spin/comment/optional sections, distinct
self-reproducing rem entries with valid jobtype/exchange/basis strings
and no correlation), `str` succeeds and `from_string` of the text
rebuilds a task with the same molecule, charge, spin multiplicity,
comment, optional sections, and the same rem table up to ordering
(pointwise lookup equality). -/
theorem claim_C1 (t : QcTask) (h : goodTask t = true) :
    ∃ s t', qcTaskStr t = Except.ok s ∧ qcTaskFromString s = Except.ok t' ∧
      t'.mol = t.mol ∧ t'.charge = t.charge ∧ t'.spin = t.spin ∧
      t'.comment = t.comment ∧ t'.others = t.others ∧
      ∀ q, alookup q t'.rem = alookup q t.rem := by
  obtain ⟨hm, hc, hsp, hcm, ho⟩ := goodTask_fields t h
  obtain ⟨s, hs1, hs2⟩ := serialized_lines t h
  obtain ⟨js, hjt, _⟩ := goodTask_jobtype t h
  obtain ⟨es, hex, _⟩ := goodTask_exchange t h
  obtain ⟨bs, hbs⟩ := goodTask_basis t h
  have hm1 : "jobtype" ∈ remOrdered t := by
    unfold remOrdered
    exact List.mem_append_left _ (by decide)
  have hm2 : "exchange" ∈ remOrdered t := by
    unfold remOrdered
    exact List.mem_append_left _ (by decide)
  have hm3 : "basis" ∈ remOrdered t := by
    unfold remOrdered
    exact List.mem_append_left _ (by decide)
  have hjtD : alookup "jobtype" (remEntries t) = some (.s js) := by
    rw [alookup_remEntries, if_pos hm1]
    unfold remValOf
    rw [hjt]
    rfl
  have hexD : alookup "exchange" (remEntries t) = some (.s es) := by
    rw [alookup_remEntries, if_pos hm2]
    unfold remValOf
    rw [hex]
    rfl
  have hbsD : alookup "basis" (remEntries t) = some (.s bs) := by
    rw [alookup_remEntries, if_pos hm3]
    unfold remValOf
    rw [hbs]
    rfl
  have hcor := goodTask_correlation t h
  have hcorD : alookup "correlation" (remEntries t) = none := by
    rw [alookup_remEntries, if_neg ?hnc]
    case hnc =>
      intro hmem
      unfold remOrdered at hmem
      rw [List.mem_append] at hmem
      cases hmem with
      | inl h1 => exact absurd h1 (by decide)
      | inr h2 =>
        have : "correlation" ∈ ((akeys t.rem).filter
            fun k => !(["jobtype", "exchange", "basis"].contains k)).dedup := by
          unfold sortStr at h2
          exact (List.perm_insertionSort _ _).mem_iff.mp h2
        rw [List.mem_dedup, List.mem_filter] at this
        have := alookup_isSome_of_mem_akeys _ _ this.1
        rw [hcor] at this
        cases this
  obtain ⟨t', ht1, ht2, ht3, ht4, ht5, ht6, ht7⟩ := replay_c1 t h js es bs hjt hex hbs
  refine ⟨s, t', hs1, ?_, ?_, ?_, ?_, ?_, ?_, ht7⟩
  · unfold qcTaskFromString
    rw [hs2]
    unfold fromStringLines
    rw [c1_fold t h]
    simp only [bind, Except.bind]
    rw [fsFinish_c1 t js es bs hjtD hexD hbsD hcorD]
    exact ht1
  · rw [hm]; exact ht2
  · rw [hc]; exact ht3
  · rw [hsp]; exact ht4
  · rw [hcm]; exact ht5
  · rw [ho]; exact ht6

/-- A concrete serializable task. -/
def c1Good : QcTask :=
  { mol := .read, charge := none, spin := none, comment := none, others := [],
    rem := [("jobtype", .s "sp"), ("exchange", .s "hf"), ("basis", .s "6-31+g*")] }

/-- The constructed task with jobtype `frequency`. -/
def c1BadTask : QcTask :=
  (qcTaskInit (.rd "read") none none "frequency" none "hf" none
    (.qv (.s "6-31+g*")) none none none none).toOption.getD c1Good
/-- Its serialized text. -/
def c1BadStr : String := (qcTaskStr c1BadTask).toOption.getD ""

/-- C1 counterexample: the constructor accepts jobtype `frequency` (the
alias of `freq`) and stores it verbatim; serialization succeeds, but
re-parsing the serialized text fails — the rem value parser rejects the
alias value `frequency` with a `TypeError`, so the full round-trip does
not hold for every valid task. -/
theorem claim_C1_counterexample :
    (qcTaskInit (.rd "read") none none "frequency" none "hf" none
      (.qv (.s "6-31+g*")) none none none none).isOk = true ∧
    (qcTaskStr c1BadTask).isOk = true ∧
    (qcTaskFromString c1BadStr).isOk = false := ⟨rfl, rfl, rfl⟩

/-- C1 witness: the round trip at a concrete serializable task. -/
theorem claim_C1_witness :
    ∃ s t', qcTaskStr c1Good = Except.ok s ∧ qcTaskFromString s = Except.ok t' ∧
      t'.mol = c1Good.mol ∧ t'.charge = c1Good.charge ∧ t'.spin = c1Good.spin ∧
      t'.comment = c1Good.comment ∧ t'.others = c1Good.others ∧
      ∀ q, alookup q t'.rem = alookup q c1Good.rem :=
  claim_C1 c1Good (by rfl)
